import Mathlib

/-!
MIPS default DMA mapping layer (arch/mips/mm/dma-default.c).

A shallow embedding of the cache-synchronisation and mapping routines of
`dma-default.c`.  Calls that leave the file (cache maintenance primitives,
`kmap_atomic`, the `plat_*` hooks with an effect) are recorded, in program
order, in a trace of `Event`s; `BUG()` stops the execution.

Machine integers are natural numbers; `unsigned long`, `size_t` and pointers
have `BITS_PER_LONG` bits, `dma_addr_t` has `DMA_ADDR_BITS` bits, and the
arithmetic that can wrap is reduced explicitly.
-/

namespace DmaDefault

/-! ## Data model -/

/-- The members of `enum dma_data_direction` (linux/dma-direction.h). -/
inductive dma_data_direction where
  | DMA_BIDIRECTIONAL
  | DMA_TO_DEVICE
  | DMA_FROM_DEVICE
  | DMA_NONE
  deriving DecidableEq, Repr

/-- The members of `enum cpu_type_enum` that `dma-default.c` distinguishes;
every remaining member of the enumeration is `CPU_other n`. -/
inductive cpu_type_enum where
  | CPU_R10000
  | CPU_R12000
  | CPU_other (n : Nat)
  deriving DecidableEq, Repr

/-- The part of `struct device` that the DMA layer reads, with `id` standing
for the identity of the structure. -/
structure device where
  id : Nat
  coherent_dma_mask : Nat
  deriving DecidableEq, Repr

/-- A `struct device *`; `none` is the NULL pointer. -/
abbrev DevPtr := Option device

/-- A `struct page *`, represented by the index of the page structure in the
memory map, so that `page + n` is pointer arithmetic on it. -/
abbrev Page := Nat

/-- One entry of a `struct scatterlist` array: `sg_page(sg)`, `sg->offset`,
`sg->length` and `sg->dma_address`. -/
structure scatterlist where
  page : Page
  offset : Nat
  length : Nat
  dma_address : Nat
  deriving DecidableEq, Repr

/-- The configuration constants and the platform hooks (`dma-coherence.h`,
`asm/page.h`, `linux/highmem.h`) that `dma-default.c` is compiled against. -/
structure Platform where
  PAGE_SHIFT : Nat
  BITS_PER_LONG : Nat
  DMA_ADDR_BITS : Nat
  current_cpu_type : cpu_type_enum
  plat_device_is_coherent : DevPtr → Bool
  plat_map_dma_mem_page : DevPtr → Page → Nat
  plat_dma_addr_to_phys : DevPtr → Nat → Nat
  plat_dma_mapping_error : DevPtr → Nat → Bool
  PageHighMem : Page → Bool
  page_address : Page → Nat
  kmap_atomic : Page → Nat

/-- The calls with an effect that the DMA layer makes, as they appear in the
trace of an execution. -/
inductive Event where
  | dma_cache_wback (addr size : Nat)
  | dma_cache_inv (addr size : Nat)
  | dma_cache_wback_inv (addr size : Nat)
  | kmap_atomic (page : Page)
  | kunmap_atomic (addr : Nat)
  | plat_map_dma_mem_page (dev : DevPtr) (page : Page)
  | plat_unmap_dma_mem (dev : DevPtr) (dma_addr size : Nat)
      (direction : dma_data_direction)
  | plat_extra_sync_for_device (dev : DevPtr)
  deriving DecidableEq, Repr

/-- Whether an event is one of the three cache maintenance primitives. -/
def Event.isCacheOp : Event → Bool
  | .dma_cache_wback _ _ => true
  | .dma_cache_inv _ _ => true
  | .dma_cache_wback_inv _ _ => true
  | _ => false

/-- Whether an event is a call of `plat_unmap_dma_mem`. -/
def Event.isUnmap : Event → Bool
  | .plat_unmap_dma_mem _ _ _ _ => true
  | _ => false

/-- Whether an event belongs to the cache synchroniser: a cache maintenance
primitive or the mapping window around it. -/
def Event.isSyncEvent : Event → Bool
  | .dma_cache_wback _ _ => true
  | .dma_cache_inv _ _ => true
  | .dma_cache_wback_inv _ _ => true
  | .kmap_atomic _ => true
  | .kunmap_atomic _ => true
  | _ => false

/-- How an execution ends: it returns a value, it stops in `BUG()`, or the
model's iteration budget is used up before the loop ends. -/
inductive Outcome (α : Type) where
  | returned (value : α)
  | bug
  | out_of_fuel
  deriving DecidableEq, Repr

/-- An execution: the events issued, in order, and the way it ended. -/
structure Exec (α : Type) where
  trace : List Event
  result : Outcome α
  deriving DecidableEq, Repr

/-- Return `value` without any effect. -/
def Exec.ret {α : Type} (value : α) : Exec α := ⟨[], .returned value⟩

/-- Issue one event and return. -/
def Exec.emit (e : Event) : Exec Unit := ⟨[e], .returned ()⟩

/-- Sequential composition: `f` runs only when `x` returned. -/
def Exec.andThen {α β : Type} (x : Exec α) (f : α → Exec β) : Exec β :=
  match x.result with
  | .returned a => ⟨x.trace ++ (f a).trace, (f a).result⟩
  | .bug => ⟨x.trace, .bug⟩
  | .out_of_fuel => ⟨x.trace, .out_of_fuel⟩

/-- The cache maintenance events of an execution, in order. -/
def Exec.cacheOps {α : Type} (x : Exec α) : List Event :=
  x.trace.filter Event.isCacheOp

/-! ## Constants and address arithmetic -/

/-- The macro `PAGE_SIZE`, `1UL << PAGE_SHIFT`. -/
def PAGE_SIZE (P : Platform) : Nat := 2 ^ P.PAGE_SHIFT

/-- The value `~PAGE_MASK`, the mask of the offset inside a page. -/
def NOT_PAGE_MASK (P : Platform) : Nat := PAGE_SIZE P - 1

/-- Addition of `unsigned long` values and of pointers. -/
def ulong_add (P : Platform) (a b : Nat) : Nat := (a + b) % 2 ^ P.BITS_PER_LONG

/-- Subtraction of `unsigned long` values. -/
def ulong_sub (P : Platform) (a b : Nat) : Nat :=
  (a + 2 ^ P.BITS_PER_LONG - b % 2 ^ P.BITS_PER_LONG) % 2 ^ P.BITS_PER_LONG

/-- The helper `pfn_to_page`: pages are represented by their index. -/
def pfn_to_page (pfn : Nat) : Page := pfn

/-- The macro `page_to_phys`: the physical address of the first byte of a
page. -/
def page_to_phys (P : Platform) (page : Page) : Nat := page <<< P.PAGE_SHIFT

/-- The function `dma_addr_to_page` (dma-default.c, line 29). -/
def dma_addr_to_page (P : Platform) (dev : DevPtr) (dma_addr : Nat) : Page :=
  pfn_to_page (P.plat_dma_addr_to_phys dev dma_addr >>> P.PAGE_SHIFT)

/-- The function `cpu_is_noncoherent_r10000` (dma-default.c, line 42). -/
def cpu_is_noncoherent_r10000 (P : Platform) (dev : DevPtr) : Bool :=
  !P.plat_device_is_coherent dev &&
    (P.current_cpu_type == cpu_type_enum.CPU_R10000 ||
     P.current_cpu_type == cpu_type_enum.CPU_R12000)

/-! ## Cache synchronisation -/

/-- The function `__dma_sync_virtual` (dma-default.c, line 194). -/
def __dma_sync_virtual (addr size : Nat) (direction : dma_data_direction) :
    Exec Unit :=
  match direction with
  | .DMA_TO_DEVICE => Exec.emit (.dma_cache_wback addr size)
  | .DMA_FROM_DEVICE => Exec.emit (.dma_cache_inv addr size)
  | .DMA_BIDIRECTIONAL => Exec.emit (.dma_cache_wback_inv addr size)
  | _ => ⟨[], .bug⟩

/-- One pass through the body of the do-while loop of `__dma_sync`
(dma-default.c, lines 227 to 248), entered with the current `page`, `offset`
and `left`; it returns the values of `page` and `left` after the body (the
body always leaves `offset = 0`). -/
def __dma_sync_body (P : Platform) (size : Nat) (direction : dma_data_direction)
    (page : Page) (offset left : Nat) : Exec (Page × Nat) :=
  let len := left
  if P.PageHighMem page then
    let over := decide (ulong_add P offset len > PAGE_SIZE P)
    let norm := over && decide (offset ≥ PAGE_SIZE P)
    let page1 := if norm then page + (offset >>> P.PAGE_SHIFT) else page
    let offset1 := if norm then offset &&& NOT_PAGE_MASK P else offset
    let len1 := if over then ulong_sub P (PAGE_SIZE P) offset1 else len
    let addr := P.kmap_atomic page1
    (Exec.emit (.kmap_atomic page1)).andThen fun _ =>
    (__dma_sync_virtual (ulong_add P addr offset1) len1 direction).andThen fun _ =>
    (Exec.emit (.kunmap_atomic addr)).andThen fun _ =>
    Exec.ret (page1 + 1, ulong_sub P left len1)
  else
    (__dma_sync_virtual (ulong_add P (P.page_address page) offset) size
      direction).andThen fun _ =>
    Exec.ret (page + 1, ulong_sub P left len)

/-- The do-while loop of `__dma_sync`, with an iteration budget `fuel`. -/
def __dma_sync_loop (P : Platform) (size : Nat) (direction : dma_data_direction) :
    Nat → Page → Nat → Nat → Exec Unit
  | 0, _, _, _ => ⟨[], .out_of_fuel⟩
  | fuel + 1, page, offset, left =>
    (__dma_sync_body P size direction page offset left).andThen fun st =>
      if st.2 ≠ 0 then __dma_sync_loop P size direction fuel st.1 0 st.2
      else Exec.ret ()

/-- The function `__dma_sync` (dma-default.c, line 221).  The budget
`2 ^ BITS_PER_LONG + 1` is never used up (`__dma_sync_returns`). -/
def __dma_sync (P : Platform) (page : Page) (offset size : Nat)
    (direction : dma_data_direction) : Exec Unit :=
  __dma_sync_loop P size direction (2 ^ P.BITS_PER_LONG + 1) page offset size

/-- Addition on `dma_addr_t`. -/
def dma_addr_add (P : Platform) (a b : Nat) : Nat := (a + b) % 2 ^ P.DMA_ADDR_BITS

/-! ## The mapping operations -/

/-- The function `mips_dma_unmap_page` (dma-default.c, line 252). -/
def mips_dma_unmap_page (P : Platform) (dev : DevPtr) (dma_addr size : Nat)
    (direction : dma_data_direction) : Exec Unit :=
  (if cpu_is_noncoherent_r10000 P dev then
      __dma_sync P (dma_addr_to_page P dev dma_addr) (dma_addr &&& NOT_PAGE_MASK P)
        size direction
    else Exec.ret ()).andThen fun _ =>
  Exec.emit (.plat_unmap_dma_mem dev dma_addr size direction)

/-- The body of the loop of `mips_dma_map_sg`, run over the entries in array
order; it returns the entries with `dma_address` filled in. -/
def mips_dma_map_sg_loop (P : Platform) (dev : DevPtr)
    (direction : dma_data_direction) : List scatterlist → Exec (List scatterlist)
  | [] => Exec.ret []
  | sg :: rest =>
    (if !P.plat_device_is_coherent dev then
        __dma_sync P sg.page sg.offset sg.length direction
      else Exec.ret ()).andThen fun _ =>
    (Exec.emit (.plat_map_dma_mem_page dev sg.page)).andThen fun _ =>
    (mips_dma_map_sg_loop P dev direction rest).andThen fun rest1 =>
    Exec.ret ({ sg with
      dma_address := dma_addr_add P (P.plat_map_dma_mem_page dev sg.page) sg.offset }
      :: rest1)

/-- The function `mips_dma_map_sg` (dma-default.c, line 262): the loop visits
the first `nents` entries of the array `sg` (none when `nents ≤ 0`); the
result is the array after the call and the returned `int`. -/
def mips_dma_map_sg (P : Platform) (dev : DevPtr) (sg : List scatterlist)
    (nents : Int) (direction : dma_data_direction) :
    Exec (List scatterlist × Int) :=
  (mips_dma_map_sg_loop P dev direction (sg.take nents.toNat)).andThen fun done =>
  Exec.ret (done ++ sg.drop nents.toNat, nents)

/-- The function `mips_dma_map_page` (dma-default.c, line 278). -/
def mips_dma_map_page (P : Platform) (dev : DevPtr) (page : Page)
    (offset size : Nat) (direction : dma_data_direction) : Exec Nat :=
  (if !P.plat_device_is_coherent dev then
      __dma_sync P page offset size direction
    else Exec.ret ()).andThen fun _ =>
  (Exec.emit (.plat_map_dma_mem_page dev page)).andThen fun _ =>
  Exec.ret (dma_addr_add P (P.plat_map_dma_mem_page dev page) offset)

/-- The body of the loop of `mips_dma_unmap_sg`, run over the entries in array
order. -/
def mips_dma_unmap_sg_loop (P : Platform) (dev : DevPtr)
    (direction : dma_data_direction) : List scatterlist → Exec Unit
  | [] => Exec.ret ()
  | sg :: rest =>
    (if !P.plat_device_is_coherent dev &&
          direction != dma_data_direction.DMA_TO_DEVICE then
        __dma_sync P sg.page sg.offset sg.length direction
      else Exec.ret ()).andThen fun _ =>
    (Exec.emit (.plat_unmap_dma_mem dev sg.dma_address sg.length
      direction)).andThen fun _ =>
    mips_dma_unmap_sg_loop P dev direction rest

/-- The function `mips_dma_unmap_sg` (dma-default.c, line 288). -/
def mips_dma_unmap_sg (P : Platform) (dev : DevPtr) (sg : List scatterlist)
    (nhwentries : Int) (direction : dma_data_direction) : Exec Unit :=
  mips_dma_unmap_sg_loop P dev direction (sg.take nhwentries.toNat)

/-- The function `mips_dma_sync_single_for_cpu` (dma-default.c, line 303). -/
def mips_dma_sync_single_for_cpu (P : Platform) (dev : DevPtr)
    (dma_handle size : Nat) (direction : dma_data_direction) : Exec Unit :=
  if cpu_is_noncoherent_r10000 P dev then
    __dma_sync P (dma_addr_to_page P dev dma_handle)
      (dma_handle &&& NOT_PAGE_MASK P) size direction
  else Exec.ret ()

/-- The function `mips_dma_sync_single_for_device` (dma-default.c, line 311). -/
def mips_dma_sync_single_for_device (P : Platform) (dev : DevPtr)
    (dma_handle size : Nat) (direction : dma_data_direction) : Exec Unit :=
  (Exec.emit (.plat_extra_sync_for_device dev)).andThen fun _ =>
  if !P.plat_device_is_coherent dev then
    __dma_sync P (dma_addr_to_page P dev dma_handle)
      (dma_handle &&& NOT_PAGE_MASK P) size direction
  else Exec.ret ()

/-- The body of the loop of `mips_dma_sync_sg_for_cpu`, run over the entries
in array order. -/
def mips_dma_sync_sg_for_cpu_loop (P : Platform) (dev : DevPtr)
    (direction : dma_data_direction) : List scatterlist → Exec Unit
  | [] => Exec.ret ()
  | sg :: rest =>
    (if cpu_is_noncoherent_r10000 P dev then
        __dma_sync P sg.page sg.offset sg.length direction
      else Exec.ret ()).andThen fun _ =>
    mips_dma_sync_sg_for_cpu_loop P dev direction rest

/-- The function `mips_dma_sync_sg_for_cpu` (dma-default.c, line 320). -/
def mips_dma_sync_sg_for_cpu (P : Platform) (dev : DevPtr)
    (sg : List scatterlist) (nelems : Int) (direction : dma_data_direction) :
    Exec Unit :=
  mips_dma_sync_sg_for_cpu_loop P dev direction (sg.take nelems.toNat)

/-- The body of the loop of `mips_dma_sync_sg_for_device`, run over the
entries in array order. -/
def mips_dma_sync_sg_for_device_loop (P : Platform) (dev : DevPtr)
    (direction : dma_data_direction) : List scatterlist → Exec Unit
  | [] => Exec.ret ()
  | sg :: rest =>
    (if !P.plat_device_is_coherent dev then
        __dma_sync P sg.page sg.offset sg.length direction
      else Exec.ret ()).andThen fun _ =>
    mips_dma_sync_sg_for_device_loop P dev direction rest

/-- The function `mips_dma_sync_sg_for_device` (dma-default.c, line 333). -/
def mips_dma_sync_sg_for_device (P : Platform) (dev : DevPtr)
    (sg : List scatterlist) (nelems : Int) (direction : dma_data_direction) :
    Exec Unit :=
  mips_dma_sync_sg_for_device_loop P dev direction (sg.take nelems.toNat)

/-- The function `mips_dma_mapping_error` (dma-default.c, line 346). -/
def mips_dma_mapping_error (P : Platform) (dev : DevPtr) (dma_addr : Nat) : Bool :=
  P.plat_dma_mapping_error dev dma_addr

/-! ## Reference descriptions used by the refinement results -/

/-- The per-entry description of `map_sg`: call `mips_dma_map_page` on each
entry in list order, store the address it returns in the entry. -/
def map_sg_per_entry (P : Platform) (dev : DevPtr)
    (direction : dma_data_direction) : List scatterlist → Exec (List scatterlist)
  | [] => Exec.ret []
  | sg :: rest =>
    (mips_dma_map_page P dev sg.page sg.offset sg.length direction).andThen
      fun addr =>
    (map_sg_per_entry P dev direction rest).andThen fun rest1 =>
    Exec.ret ({ sg with dma_address := addr } :: rest1)

/-- The number of pages that the bytes `[offset, offset + size)` counted from
the start of a page touch, for `size > 0`. -/
def pages_spanned (P : Platform) (offset size : Nat) : Nat :=
  (offset + size - 1) / PAGE_SIZE P - offset / PAGE_SIZE P + 1

/-- The first byte of the part of `[offset, offset + size)` in page `i`. -/
def chunk_start (P : Platform) (offset i : Nat) : Nat :=
  max offset (i * PAGE_SIZE P)

/-- The end of the part of `[offset, offset + size)` in page `i`. -/
def chunk_end (P : Platform) (offset size i : Nat) : Nat :=
  min (offset + size) ((i + 1) * PAGE_SIZE P)

/-- The events of pass `i` of the page-by-page synchronisation of the bytes
`[offset, offset + size)` of a run of high-memory pages starting at `page`:
the window on page `page + i` is mapped, one cache operation is issued on the
part of the range inside that page, and the window is released. -/
def highmem_pass (P : Platform) (page : Page) (offset size : Nat)
    (direction : dma_data_direction) (i : Nat) : List Event :=
  [.kmap_atomic (page + i)] ++
    (__dma_sync_virtual
      (ulong_add P (P.kmap_atomic (page + i))
        (chunk_start P offset i - i * PAGE_SIZE P))
      (chunk_end P offset size i - chunk_start P offset i) direction).trace ++
    [.kunmap_atomic (P.kmap_atomic (page + i))]

/-! ## Concrete platforms -/

/-- A 32-bit platform with 4 KiB pages and identity bus translation, where
address 0 is the error address, pages from index 0x38000 on are in high
memory; the CPU type and the coherency of every device are parameters. -/
def plat32 (cpu : cpu_type_enum) (coherent : Bool) : Platform where
  PAGE_SHIFT := 12
  BITS_PER_LONG := 32
  DMA_ADDR_BITS := 32
  current_cpu_type := cpu
  plat_device_is_coherent := fun _ => coherent
  plat_map_dma_mem_page := fun _ page => page * 4096
  plat_dma_addr_to_phys := fun _ a => a
  plat_dma_mapping_error := fun _ a => a == 0
  PageHighMem := fun page => decide (page ≥ 0x38000)
  page_address := fun page => 0x80000000 + page * 4096
  kmap_atomic := fun page => 0xFE000000 + (page % 16) * 4096

/-- A scatter list of three entries; on `plat32` the page of the middle entry
translates to bus address 0, the error address. -/
def sg_sample : List scatterlist :=
  [⟨1, 0, 64, 0⟩, ⟨0, 0, 64, 0⟩, ⟨2, 16, 32, 0⟩]

/-! ## Further operations and descriptions of the cache synchroniser -/

/-- The function `dma_cache_sync` (dma-default.c, line 356); `BUG_ON` stops
the execution when its condition holds. -/
def dma_cache_sync (P : Platform) (dev : DevPtr) (vaddr size : Nat)
    (direction : dma_data_direction) : Exec Unit :=
  (if direction = dma_data_direction.DMA_NONE then (⟨[], .bug⟩ : Exec Unit)
    else Exec.ret ()).andThen fun _ =>
  (Exec.emit (.plat_extra_sync_for_device dev)).andThen fun _ =>
  if !P.plat_device_is_coherent dev then
    __dma_sync_virtual vaddr size direction
  else Exec.ret ()

/-- The number of bytes that a cache maintenance event covers; 0 for every
other event. -/
def Event.opLength : Event → Nat
  | .dma_cache_wback _ size => size
  | .dma_cache_inv _ size => size
  | .dma_cache_wback_inv _ size => size
  | _ => 0

/-- The number of bytes covered by the cache operations of a trace, summed
over the operations. -/
def flushed_bytes (trace : List Event) : Nat :=
  (trace.map Event.opLength).sum

/-- One bracketed pass over a high-memory page: the window on `page` is
mapped, one cache operation is issued on `len` bytes at offset `off` of the
window, and the window is released. -/
def bracket (P : Platform) (direction : dma_data_direction) (page : Page)
    (off len : Nat) : List Event :=
  [.kmap_atomic page] ++
    (__dma_sync_virtual (ulong_add P (P.kmap_atomic page) off) len
      direction).trace ++
    [.kunmap_atomic (P.kmap_atomic page)]

/-- A sequence of bracketed passes on successive pages, the first one on
`page`, given the offset and the length of each pass. -/
def brackets (P : Platform) (direction : dma_data_direction) :
    Page → List (Nat × Nat) → List Event
  | _, [] => []
  | page, (off, len) :: rest =>
    bracket P direction page off len ++ brackets P direction (page + 1) rest

/-- A platform with 16-bit `unsigned long` and 4 KiB pages on which every
page is in high memory; small enough to run the loop of `__dma_sync` to its
end after `left` has wrapped around. -/
def plat16 : Platform where
  PAGE_SHIFT := 12
  BITS_PER_LONG := 16
  DMA_ADDR_BITS := 16
  current_cpu_type := .CPU_other 0
  plat_device_is_coherent := fun _ => false
  plat_map_dma_mem_page := fun _ page => page * 4096
  plat_dma_addr_to_phys := fun _ a => a
  plat_dma_mapping_error := fun _ a => a == 0
  PageHighMem := fun _ => true
  page_address := fun page => page * 4096
  kmap_atomic := fun _ => 0xE000

/-! ## The coherent allocator -/

/-- The contents of memory: the byte stored at each address of the cached
kernel mapping. -/
abbrev Memory := Nat → Nat

/-- The library function `memset`: `size` bytes from `addr` on become `c`. -/
def memset (mem : Memory) (addr c size : Nat) : Memory :=
  fun a => if addr ≤ a ∧ a < addr + size then c else mem a

/-- What `dma_alloc_from_coherent` hands back: its `int` result (non-zero:
the request was handled by the per-device pool), the pointer it leaves in
`*ret`, and the contents of memory after the call. -/
structure PoolResult where
  served : Bool
  ret : Nat
  mem : Memory

/-- The configuration options, the constants of `linux/gfp.h` and the
collaborators (page allocator, per-device pool, platform hooks, address
aliases of `asm/page.h`, kernel page table) that the allocation paths of
`dma-default.c` are compiled against. -/
structure Allocator where
  CONFIG_ZONE_DMA : Bool
  CONFIG_ZONE_DMA32 : Bool
  CONFIG_MAPPED_KERNEL : Bool
  CONFIG_RALINK_MT7621 : Bool
  CONFIG_RALINK_RAM_SIZE : Nat
  __GFP_DMA : Nat
  __GFP_HIGHMEM : Nat
  __GFP_DMA32 : Nat
  __GFP_NORETRY : Nat
  get_order : Nat → Nat
  __get_free_pages : Nat → Nat → Nat
  dma_alloc_from_coherent : DevPtr → Nat → Memory → PoolResult
  dma_release_from_coherent : DevPtr → Nat → Nat → Bool
  plat_map_dma_mem : DevPtr → Nat → Nat → Nat
  UNCAC_ADDR : Nat → Nat
  CAC_ADDR : Nat → Nat
  ioremap : Nat → Nat → Nat
  CKSEG1 : Nat
  kernel_pte : Nat → Option Nat

/-- The calls that the allocation paths make, as they appear in a trace;
`dma` wraps the calls that the mapping operations also make. -/
inductive AllocEvent where
  | dma_alloc_from_coherent (dev : DevPtr) (size : Nat)
  | get_free_pages (gfp order : Nat)
  | memset (addr c size : Nat)
  | plat_map_dma_mem (dev : DevPtr) (addr size : Nat)
  | store_dma_handle (value : Nat)
  | ioremap (phys size : Nat)
  | dma_release_from_coherent (dev : DevPtr) (order vaddr : Nat)
  | iounmap (vaddr : Nat)
  | free_pages (addr order : Nat)
  | dma (e : Event)
  deriving DecidableEq, Repr

/-- The outcome of an allocation: the pointer returned (0 is NULL), the
contents of memory at the return, and the calls made, in order. -/
structure AllocResult where
  ret : Nat
  mem : Memory
  trace : List AllocEvent

/-- Modelled from the spec: the macro `DMA_BIT_MASK` of
`linux/dma-mapping.h` is not part of the sources; the addressing mask of a
device that can address `n` bits. -/
def DMA_BIT_MASK (n : Nat) : Nat := 2 ^ n - 1

/-- The complement `~x` of a `gfp_t`, an `unsigned int`. -/
def gfp_not (x : Nat) : Nat := (2 ^ 32 - 1) ^^^ x

/-- The function `massage_gfp_flags` (dma-default.c, line 49). -/
def massage_gfp_flags (A : Allocator) (dev : DevPtr) (gfp : Nat) : Nat :=
  let gfp1 := gfp &&& gfp_not (A.__GFP_DMA ||| A.__GFP_DMA32 ||| A.__GFP_HIGHMEM)
  let dma_flag :=
    match dev with
    | none => A.__GFP_DMA
    | some d =>
      if A.CONFIG_ZONE_DMA32 && A.CONFIG_ZONE_DMA then
        if d.coherent_dma_mask < DMA_BIT_MASK 32 then A.__GFP_DMA
        else if d.coherent_dma_mask < DMA_BIT_MASK 64 then A.__GFP_DMA32
        else 0
      else if A.CONFIG_ZONE_DMA32 && !A.CONFIG_ZONE_DMA then
        if d.coherent_dma_mask < DMA_BIT_MASK 64 then A.__GFP_DMA32 else 0
      else if A.CONFIG_ZONE_DMA && !A.CONFIG_ZONE_DMA32 then
        if d.coherent_dma_mask < DMA_BIT_MASK 64 then A.__GFP_DMA else 0
      else 0
  let gfp2 := gfp1 ||| A.__GFP_NORETRY
  gfp2 ||| dma_flag

/-- The function `dma_alloc_noncoherent` (dma-default.c, line 84). -/
def dma_alloc_noncoherent (A : Allocator) (dev : DevPtr) (size gfp : Nat)
    (mem : Memory) : AllocResult :=
  let gfp1 := massage_gfp_flags A dev gfp
  let ret := A.__get_free_pages gfp1 (A.get_order size)
  if ret ≠ 0 then
    ⟨ret, memset mem ret 0 size,
      [.get_free_pages gfp1 (A.get_order size), .memset ret 0 size,
       .plat_map_dma_mem dev ret size,
       .store_dma_handle (A.plat_map_dma_mem dev ret size)]⟩
  else
    ⟨ret, mem, [.get_free_pages gfp1 (A.get_order size)]⟩

/-- The offset of the uncached RAM shadow, present when the block guarded
by `CONFIG_RALINK_MT7621` and `CONFIG_RALINK_RAM_SIZE < 512` is compiled. -/
def ralink_shadow (A : Allocator) : Option Nat :=
  if A.CONFIG_RALINK_MT7621 && decide (A.CONFIG_RALINK_RAM_SIZE < 512) then
    some (A.CONFIG_RALINK_RAM_SIZE * 1024 * 1024)
  else none

/-- The value of `ret` in `mips_dma_alloc_coherent` after the block for the
RAM shadow (dma-default.c, lines 115 to 122): the address `p` from the page
allocator, displaced by the shadow offset where the block is compiled. -/
def buffer_address (P : Platform) (A : Allocator) (p : Nat) : Nat :=
  match ralink_shadow A with
  | some shadow => ulong_add P p shadow
  | none => p

/-- The function `mips_dma_alloc_coherent` (dma-default.c, line 102). -/
def mips_dma_alloc_coherent (P : Platform) (A : Allocator) (dev : DevPtr)
    (size gfp : Nat) (mem : Memory) : AllocResult :=
  let pool := A.dma_alloc_from_coherent dev size mem
  if pool.served then
    ⟨pool.ret, pool.mem, [.dma_alloc_from_coherent dev size]⟩
  else
    let gfp1 := massage_gfp_flags A dev gfp
    let p := A.__get_free_pages gfp1 (A.get_order size)
    if p ≠ 0 then
      let ret := buffer_address P A p
      let handle := A.plat_map_dma_mem dev ret size
      let done : List AllocEvent :=
        [.dma_alloc_from_coherent dev size,
         .get_free_pages gfp1 (A.get_order size), .memset ret 0 size,
         .plat_map_dma_mem dev ret size, .store_dma_handle handle]
      if !P.plat_device_is_coherent dev then
        if !A.CONFIG_MAPPED_KERNEL then
          ⟨A.UNCAC_ADDR ret, memset pool.mem ret 0 size,
            done ++ [.dma (.dma_cache_wback_inv ret size)]⟩
        else
          ⟨A.ioremap handle size, memset pool.mem ret 0 size,
            done ++ [.dma (.dma_cache_wback_inv ret size),
              .ioremap handle size]⟩
      else
        ⟨ret, memset pool.mem ret 0 size, done⟩
    else
      ⟨p, pool.mem,
        [.dma_alloc_from_coherent dev size,
         .get_free_pages gfp1 (A.get_order size)]⟩

/-- The function `dma_free_noncoherent` (dma-default.c, line 140). -/
def dma_free_noncoherent (A : Allocator) (dev : DevPtr)
    (size vaddr dma_handle : Nat) : List AllocEvent :=
  [.dma (.plat_unmap_dma_mem dev dma_handle size .DMA_BIDIRECTIONAL),
   .free_pages vaddr (A.get_order size)]

/-- The macro `IS_KSEG1` (dma-default.c, line 148). -/
def IS_KSEG1 (P : Platform) (A : Allocator) (addr : Nat) : Bool :=
  (addr &&& ((2 ^ P.BITS_PER_LONG - 1) ^^^ 0x1fffffff)) == A.CKSEG1

/-- The function `mips_dma_free_coherent` (dma-default.c, line 150);
`kernel_pte addr` is the kernel address of the page frame that the walk of
the kernel page table finds at `addr`, when the entry is present. -/
def mips_dma_free_coherent (P : Platform) (A : Allocator) (dev : DevPtr)
    (size vaddr dma_handle : Nat) : List AllocEvent :=
  let order := A.get_order size
  if A.dma_release_from_coherent dev order vaddr then
    [.dma_release_from_coherent dev order vaddr]
  else
    let addr :=
      match ralink_shadow A with
      | some shadow => ulong_sub P vaddr shadow
      | none => vaddr
    if !A.CONFIG_MAPPED_KERNEL then
      let addr1 := if !P.plat_device_is_coherent dev then A.CAC_ADDR addr else addr
      [.dma_release_from_coherent dev order vaddr,
       .dma (.plat_unmap_dma_mem dev dma_handle size .DMA_BIDIRECTIONAL),
       .free_pages addr1 (A.get_order size)]
    else if !P.plat_device_is_coherent dev then
      if IS_KSEG1 P A addr then
        [.dma_release_from_coherent dev order vaddr,
         .free_pages (A.CAC_ADDR addr) (A.get_order size)]
      else
        match A.kernel_pte addr with
        | some kaddr =>
          [.dma_release_from_coherent dev order vaddr, .iounmap vaddr,
           .free_pages kaddr (A.get_order size)]
        | none =>
          [.dma_release_from_coherent dev order vaddr,
           .free_pages addr (A.get_order size)]
    else
      [.dma_release_from_coherent dev order vaddr,
       .free_pages addr (A.get_order size)]

/-- Whether an event of the allocation paths is a call of `free_pages`. -/
def AllocEvent.isFreePages : AllocEvent → Bool
  | .free_pages _ _ => true
  | _ => false

/-- The uncached alias is a fixed displacement of the cached address:
`UNCAC_ADDR` adds it and `CAC_ADDR` subtracts it, in `unsigned long`
arithmetic. -/
def alias_is_displacement (P : Platform) (A : Allocator) : Prop :=
  ∃ delta, (∀ x, A.UNCAC_ADDR x = ulong_add P x delta) ∧
    (∀ x, A.CAC_ADDR x = ulong_sub P x delta)

/-- The zone that the claim on `massage_gfp_flags` describes for a kernel
with both DMA zones: `__GFP_DMA` for a NULL device or a mask below
`DMA_BIT_MASK(32)`, `__GFP_DMA32` for a mask from `DMA_BIT_MASK(32)` up to
but not including `DMA_BIT_MASK(64)`, and 0 otherwise. -/
def zone_for_mask (A : Allocator) (dev : DevPtr) : Nat :=
  match dev with
  | none => A.__GFP_DMA
  | some d =>
    if d.coherent_dma_mask < DMA_BIT_MASK 32 then A.__GFP_DMA
    else if d.coherent_dma_mask < DMA_BIT_MASK 64 then A.__GFP_DMA32
    else 0

/-- How restrictive a zone is: 2 for `__GFP_DMA`, 1 for `__GFP_DMA32`, 0 for
no zone flag. -/
def zone_level (mask : Nat) : Nat :=
  if mask < DMA_BIT_MASK 32 then 2
  else if mask < DMA_BIT_MASK 64 then 1
  else 0

/-- The flags of `linux/gfp.h` that `massage_gfp_flags` uses are flags of a
32-bit `gfp_t` that share no bit. -/
def gfp_flags_disjoint (A : Allocator) : Prop :=
  A.__GFP_DMA < 2 ^ 32 ∧ A.__GFP_DMA32 < 2 ^ 32 ∧ A.__GFP_HIGHMEM < 2 ^ 32 ∧
  A.__GFP_NORETRY < 2 ^ 32 ∧
  A.__GFP_DMA &&& A.__GFP_HIGHMEM = 0 ∧ A.__GFP_DMA32 &&& A.__GFP_HIGHMEM = 0 ∧
  A.__GFP_NORETRY &&& A.__GFP_HIGHMEM = 0 ∧ A.__GFP_DMA &&& A.__GFP_DMA32 = 0 ∧
  A.__GFP_NORETRY &&& A.__GFP_DMA = 0 ∧ A.__GFP_NORETRY &&& A.__GFP_DMA32 = 0

/-- An allocator for the 32-bit platform: both DMA zones, the flag values of
`linux/gfp.h`, requests of up to 8 pages, handed out at `0x81000000` unless
`fail` is set, a
per-device pool that serves devices with `id = 7` from `0xA8000000` and
zero-fills what it serves, KSEG0 and KSEG1 as cached and uncached alias; the
RAM shadow is compiled in for `ram_size < 512`. -/
def alloc32 (fail : Bool) (mt7621 : Bool) (ram_size : Nat) : Allocator where
  CONFIG_ZONE_DMA := true
  CONFIG_ZONE_DMA32 := true
  CONFIG_MAPPED_KERNEL := false
  CONFIG_RALINK_MT7621 := mt7621
  CONFIG_RALINK_RAM_SIZE := ram_size
  __GFP_DMA := 0x01
  __GFP_HIGHMEM := 0x02
  __GFP_DMA32 := 0x04
  __GFP_NORETRY := 0x1000
  get_order := fun size =>
    if size ≤ 4096 then 0 else if size ≤ 8192 then 1 else if size ≤ 16384 then 2
    else 3
  __get_free_pages := fun _ _ => if fail then 0 else 0x81000000
  dma_alloc_from_coherent := fun dev size mem =>
    match dev with
    | some d =>
      if d.id = 7 then ⟨true, 0xA8000000, memset mem 0xA8000000 0 size⟩
      else ⟨false, 0, mem⟩
    | none => ⟨false, 0, mem⟩
  dma_release_from_coherent := fun _ _ vaddr =>
    decide (0xA8000000 ≤ vaddr ∧ vaddr < 0xA8100000)
  plat_map_dma_mem := fun _ addr _ => addr - 0x80000000
  UNCAC_ADDR := fun addr => (addr + 0x20000000) % 2 ^ 32
  CAC_ADDR := fun addr => (addr + 2 ^ 32 - 0x20000000) % 2 ^ 32
  ioremap := fun phys _ => 0xC0000000 + phys
  CKSEG1 := 0xA0000000
  kernel_pte := fun _ => none

end DmaDefault

/-! ## YAFFS2 packed tags (fs/yaffs/yaffs_packedtags2.c) -/

namespace YaffsTags

/-- The fields of `yaffs_ExtendedTags` (yaffs_guts.h) that
`yaffs_packedtags2.c` reads or writes; all of them are `unsigned`. -/
structure yaffs_ExtendedTags where
  chunkUsed : Nat
  objectId : Nat
  chunkId : Nat
  byteCount : Nat
  eccResult : Nat
  blockBad : Nat
  chunkDeleted : Nat
  serialNumber : Nat
  sequenceNumber : Nat
  extraHeaderInfoAvailable : Nat
  extraParentObjectId : Nat
  extraIsShrinkHeader : Nat
  extraShadows : Nat
  extraObjectType : Nat
  extraFileLength : Nat
  extraEquivalentObjectId : Nat
  deriving DecidableEq, Repr

/-- The structure `yaffs_PackedTags2TagsPart` (yaffs_packedtags2.h). -/
structure yaffs_PackedTags2TagsPart where
  sequenceNumber : Nat
  objectId : Nat
  chunkId : Nat
  byteCount : Nat
  deriving DecidableEq, Repr

/-- The structure `yaffs_PackedTags2` (yaffs_packedtags2.h); `ecc` holds the
bytes of the `yaffs_ECCOther` member. -/
structure yaffs_PackedTags2 where
  t : yaffs_PackedTags2TagsPart
  ecc : List Nat
  deriving DecidableEq, Repr

/-- The constants and routines of the other YAFFS files that
`yaffs_packedtags2.c` uses: two members of `yaffs_ObjectType`, the sizes of
the packed structures, `yaffs_InitialiseTags`, and the ECC routines, which
compute the ECC bytes from the tags part or correct the tags part from
them. -/
structure YaffsEnv where
  YAFFS_OBJECT_TYPE_FILE : Nat
  YAFFS_OBJECT_TYPE_HARDLINK : Nat
  sizeof_yaffs_PackedTags2 : Nat
  sizeof_yaffs_PackedTags2TagsPart : Nat
  yaffs_InitialiseTags : yaffs_ExtendedTags → yaffs_ExtendedTags
  yaffs_ECCCalculateMLCOther : yaffs_PackedTags2 → List Nat
  yaffs_ECCCalculateOther : yaffs_PackedTags2TagsPart → Nat → List Nat
  yaffs_ECCCorrectMLCOther : yaffs_PackedTags2 → Nat × yaffs_PackedTags2TagsPart
  yaffs_ECCCorrectOther :
    yaffs_PackedTags2TagsPart → Nat → List Nat → List Nat →
      Nat × yaffs_PackedTags2TagsPart

/-- The flag `EXTRA_HEADER_INFO_FLAG` (yaffs_packedtags2.c, line 31). -/
def EXTRA_HEADER_INFO_FLAG : Nat := 0x80000000

/-- The flag `EXTRA_SHRINK_FLAG`. -/
def EXTRA_SHRINK_FLAG : Nat := 0x40000000

/-- The flag `EXTRA_SHADOWS_FLAG`. -/
def EXTRA_SHADOWS_FLAG : Nat := 0x20000000

/-- The mask `ALL_EXTRA_FLAGS`. -/
def ALL_EXTRA_FLAGS : Nat := 0xF0000000

/-- The constant `EXTRA_OBJECT_TYPE_SHIFT`. -/
def EXTRA_OBJECT_TYPE_SHIFT : Nat := 28

/-- The mask `EXTRA_OBJECT_TYPE_MASK`, `0x0F << EXTRA_OBJECT_TYPE_SHIFT` as an
`unsigned`. -/
def EXTRA_OBJECT_TYPE_MASK : Nat := (0x0F <<< EXTRA_OBJECT_TYPE_SHIFT) % 2 ^ 32

/-- The complement `~x` of an `unsigned`. -/
def not32 (x : Nat) : Nat := (2 ^ 32 - 1) ^^^ x

/-- The tags after `memset(t, 0, sizeof(yaffs_ExtendedTags))`. -/
def zero_tags : yaffs_ExtendedTags :=
  ⟨0, 0, 0, 0, 0, 0, 0, 0, 0, 0, 0, 0, 0, 0, 0, 0⟩

/-- The tags part that `yaffs_PackTags2` stores (yaffs_packedtags2.c, lines
65 to 93). -/
def pack_tags_part (E : YaffsEnv) (t : yaffs_ExtendedTags) :
    yaffs_PackedTags2TagsPart :=
  let pt : yaffs_PackedTags2TagsPart :=
    ⟨t.sequenceNumber, t.objectId, t.chunkId, t.byteCount⟩
  if t.chunkId = 0 ∧ t.extraHeaderInfoAvailable ≠ 0 then
    let chunkId0 := EXTRA_HEADER_INFO_FLAG ||| t.extraParentObjectId
    let chunkId1 :=
      if t.extraIsShrinkHeader ≠ 0 then chunkId0 ||| EXTRA_SHRINK_FLAG
      else chunkId0
    let chunkId2 :=
      if t.extraShadows ≠ 0 then chunkId1 ||| EXTRA_SHADOWS_FLAG else chunkId1
    let objectId0 := pt.objectId &&& not32 EXTRA_OBJECT_TYPE_MASK
    let objectId1 :=
      objectId0 ||| (t.extraObjectType <<< EXTRA_OBJECT_TYPE_SHIFT) % 2 ^ 32
    let byteCount :=
      if t.extraObjectType = E.YAFFS_OBJECT_TYPE_HARDLINK then
        t.extraEquivalentObjectId
      else if t.extraObjectType = E.YAFFS_OBJECT_TYPE_FILE then
        t.extraFileLength
      else 0
    ⟨pt.sequenceNumber, objectId1, chunkId2, byteCount⟩
  else pt

/-- The function `yaffs_PackTags2` (yaffs_packedtags2.c, line 62), compiled
without `YAFFS_IGNORE_TAGS_ECC`: the packed tags written over `pt`, and the
size returned. -/
def yaffs_PackTags2 (E : YaffsEnv) (pt : yaffs_PackedTags2)
    (t : yaffs_ExtendedTags) (maxPackedSize : Nat) : yaffs_PackedTags2 × Nat :=
  let pt1 : yaffs_PackedTags2 := ⟨pack_tags_part E t, pt.ecc⟩
  if maxPackedSize < E.sizeof_yaffs_PackedTags2 then
    let pt2 : yaffs_PackedTags2 := ⟨pt1.t, pt1.ecc.set 5 0x55⟩
    (⟨pt2.t, E.yaffs_ECCCalculateMLCOther pt2⟩, maxPackedSize)
  else
    (⟨pt1.t,
      E.yaffs_ECCCalculateOther pt1.t E.sizeof_yaffs_PackedTags2TagsPart⟩,
      E.sizeof_yaffs_PackedTags2)

/-- The function `count_bits` for a byte: the loop of the source, run over
the 8 bits of `val`. -/
def count_bits_loop : Nat → Nat → Nat → Nat
  | 0, _, res => res
  | fuel + 1, val, res =>
    if val ≠ 0 then count_bits_loop fuel (val >>> 1) (res + (val &&& 1))
    else res

/-- The function `count_bits` (yaffs_packedtags2.c, line 114). -/
def count_bits (val : Nat) : Nat :=
  if val = 0 then 0
  else if val = 0x55 ∨ val = 0xaa then 4
  else count_bits_loop 8 val 0

/-- The function `yaffs_UnpackTags2` (yaffs_packedtags2.c, line 125),
compiled without `YAFFS_IGNORE_TAGS_ECC`: the extended tags written over
`*t`. -/
def yaffs_UnpackTags2 (E : YaffsEnv) (pt : yaffs_PackedTags2) (ignoreEcc : Nat) :
    yaffs_ExtendedTags :=
  let t0 := E.yaffs_InitialiseTags zero_tags
  if pt.t.sequenceNumber ≠ 0xFFFFFFFF then
    let checked : Nat × yaffs_PackedTags2TagsPart :=
      if ignoreEcc ≠ 0 then (0, pt.t)
      else
        let mecc := (pt.ecc.getD 5 0) ^^^ 0x55
        if count_bits mecc ≤ 2 then E.yaffs_ECCCorrectMLCOther pt
        else
          E.yaffs_ECCCorrectOther pt.t E.sizeof_yaffs_PackedTags2TagsPart pt.ecc
            (E.yaffs_ECCCalculateOther pt.t E.sizeof_yaffs_PackedTags2TagsPart)
    let p := checked.2
    let t1 : yaffs_ExtendedTags :=
      { t0 with
        eccResult := checked.1, blockBad := 0, chunkUsed := 1,
        objectId := p.objectId, chunkId := p.chunkId, byteCount := p.byteCount,
        chunkDeleted := 0, serialNumber := 0,
        sequenceNumber := p.sequenceNumber }
    if p.chunkId &&& EXTRA_HEADER_INFO_FLAG ≠ 0 then
      let extraObjectType := p.objectId >>> EXTRA_OBJECT_TYPE_SHIFT
      let t2 : yaffs_ExtendedTags :=
        { t1 with
          chunkId := 0, byteCount := 0, extraHeaderInfoAvailable := 1,
          extraParentObjectId := p.chunkId &&& not32 ALL_EXTRA_FLAGS,
          extraIsShrinkHeader :=
            if p.chunkId &&& EXTRA_SHRINK_FLAG ≠ 0 then 1 else 0,
          extraShadows := if p.chunkId &&& EXTRA_SHADOWS_FLAG ≠ 0 then 1 else 0,
          extraObjectType := extraObjectType,
          objectId := t1.objectId &&& not32 EXTRA_OBJECT_TYPE_MASK }
      if extraObjectType = E.YAFFS_OBJECT_TYPE_HARDLINK then
        { t2 with extraEquivalentObjectId := p.byteCount }
      else
        { t2 with extraFileLength := p.byteCount }
    else t1
  else t0

/-- The constants of `yaffs_guts.h` and ECC routines that leave the tags
part as it is, for running the packing code on concrete tags. -/
def yaffs_env : YaffsEnv where
  YAFFS_OBJECT_TYPE_FILE := 1
  YAFFS_OBJECT_TYPE_HARDLINK := 4
  sizeof_yaffs_PackedTags2 := 28
  sizeof_yaffs_PackedTags2TagsPart := 16
  yaffs_InitialiseTags := fun t => t
  yaffs_ECCCalculateMLCOther := fun pt => pt.ecc
  yaffs_ECCCalculateOther := fun _ _ => [0, 0, 0, 0, 0, 0, 0, 0, 0, 0, 0, 0]
  yaffs_ECCCorrectMLCOther := fun pt => (0, pt.t)
  yaffs_ECCCorrectOther := fun t _ _ _ => (0, t)

/-- The tags that `yaffs_UnpackTags2` reads back from what `yaffs_PackTags2`
stored for `t`. -/
def unpack_packed (E : YaffsEnv) (pt : yaffs_PackedTags2)
    (t : yaffs_ExtendedTags) (maxPackedSize ignoreEcc : Nat) :
    yaffs_ExtendedTags :=
  yaffs_UnpackTags2 E (yaffs_PackTags2 E pt t maxPackedSize).1 ignoreEcc

/-- Tags of an object header of a file, for running the packing code. -/
def header_tags : yaffs_ExtendedTags :=
  { zero_tags with
    objectId := 0x123, sequenceNumber := 77, extraHeaderInfoAvailable := 1,
    extraParentObjectId := 0x456, extraIsShrinkHeader := 3,
    extraObjectType := 1, extraFileLength := 9999,
    extraEquivalentObjectId := 55 }

/-- Tags of a data chunk (chunk 5 of object 0x123, 2048 bytes), for running
the packing code. -/
def data_tags : yaffs_ExtendedTags :=
  { zero_tags with
    objectId := 0x123, chunkId := 5, byteCount := 2048, sequenceNumber := 77 }

/-- Packed tags as they are read from an erased page: every byte is 0xFF. -/
def erased_packed : yaffs_PackedTags2 :=
  ⟨⟨0xFFFFFFFF, 0xFFFFFFFF, 0xFFFFFFFF, 0xFFFFFFFF⟩,
    [0xFF, 0xFF, 0xFF, 0xFF, 0xFF, 0xFF, 0xFF, 0xFF, 0xFF, 0xFF, 0xFF, 0xFF]⟩

end YaffsTags

/-! ## Resource and bus addresses on TILE-Gx (arch/tile/include/asm/pci.h) -/

namespace TilePci

/-- The member of `struct pci_controller` (TILE-Gx, pci.h line 139) that the
address translation reads: `mem_offset`, a `uint64_t`. -/
structure pci_controller where
  mem_offset : Nat
  deriving DecidableEq, Repr

/-- The member of `struct pci_dev` that the address translation reads:
`sysdata`, which points to the controller. -/
structure pci_dev where
  sysdata : pci_controller
  deriving DecidableEq, Repr

/-- The members of `struct resource` that the address translation uses;
`start` and `end` are 64-bit on TILE-Gx. -/
structure resource where
  start : Nat
  end_ : Nat
  flags : Nat
  deriving DecidableEq, Repr

/-- The structure `pci_bus_region`. -/
structure pci_bus_region where
  start : Nat
  end_ : Nat
  deriving DecidableEq, Repr

/-- The difference `a - b` of two 64-bit unsigned values, with wrap-around. -/
def u64_sub (a b : Nat) : Nat := (a + (2 ^ 64 - b % 2 ^ 64)) % 2 ^ 64

/-- The sum `a + b` of two 64-bit unsigned values, with wrap-around. -/
def u64_add (a b : Nat) : Nat := (a + b) % 2 ^ 64

/-- The function `pcibios_resource_to_bus` (pci.h, line 191): the region
written over `*region`.  `IORESOURCE_MEM` is the flag of `linux/ioport.h`. -/
def pcibios_resource_to_bus (IORESOURCE_MEM : Nat) (dev : pci_dev)
    (res : resource) : pci_bus_region :=
  let region : pci_bus_region := ⟨res.start, res.end_⟩
  if res.flags &&& IORESOURCE_MEM ≠ 0 then
    let controller := dev.sysdata
    ⟨u64_sub region.start controller.mem_offset,
      u64_sub region.end_ controller.mem_offset⟩
  else region

/-- The function `pcibios_bus_to_resource` (pci.h, line 206): the resource
`*res` after the call; its flags are read and left as they are. -/
def pcibios_bus_to_resource (IORESOURCE_MEM : Nat) (dev : pci_dev)
    (res : resource) (region : pci_bus_region) : resource :=
  let res1 : resource := ⟨region.start, region.end_, res.flags⟩
  if res1.flags &&& IORESOURCE_MEM ≠ 0 then
    let controller := dev.sysdata
    ⟨u64_add res1.start controller.mem_offset,
      u64_add res1.end_ controller.mem_offset, res1.flags⟩
  else res1

/-- A device behind a controller whose memory window is shifted by 2^40, the
width of the physical addresses of the chip. -/
def gx_dev : pci_dev := ⟨⟨2 ^ 40⟩⟩

/-- A memory resource of 64 KB above the shift of `gx_dev`. -/
def gx_mem_resource : resource := ⟨2 ^ 40 + 0x10000, 2 ^ 40 + 0x1FFFF, 0x200⟩

/-- An I/O-port resource. -/
def gx_io_resource : resource := ⟨0x1000, 0x10FF, 0x100⟩

end TilePci

namespace DmaDefault

/-! ## Executions -/

theorem Exec.andThen_of_returned {α β : Type} (x : Exec α) (f : α → Exec β) (a : α)
    (h : x.result = .returned a) :
    x.andThen f = ⟨x.trace ++ (f a).trace, (f a).result⟩ := by
  simp [Exec.andThen, h]

theorem Exec.andThen_of_bug {α β : Type} (x : Exec α) (f : α → Exec β)
    (h : x.result = .bug) : x.andThen f = ⟨x.trace, .bug⟩ := by
  simp [Exec.andThen, h]

theorem Exec.ret_andThen {α β : Type} (a : α) (f : α → Exec β) :
    (Exec.ret a).andThen f = f a := by
  simp [Exec.andThen, Exec.ret]

/-! ## Machine arithmetic -/

theorem ulong_sub_lt (P : Platform) (a b : Nat) :
    ulong_sub P a b < 2 ^ P.BITS_PER_LONG :=
  Nat.mod_lt _ (Nat.two_pow_pos _)

theorem ulong_sub_of_le (P : Platform) {a b : Nat} (hb : b ≤ a)
    (ha : a < 2 ^ P.BITS_PER_LONG) : ulong_sub P a b = a - b := by
  unfold ulong_sub
  have hb' : b % 2 ^ P.BITS_PER_LONG = b := Nat.mod_eq_of_lt (by omega)
  rw [hb']
  have : a + 2 ^ P.BITS_PER_LONG - b = (a - b) + 2 ^ P.BITS_PER_LONG := by omega
  rw [this, Nat.add_mod_right]
  exact Nat.mod_eq_of_lt (by omega)

theorem ulong_add_of_lt (P : Platform) {a b : Nat}
    (h : a + b < 2 ^ P.BITS_PER_LONG) : ulong_add P a b = a + b :=
  Nat.mod_eq_of_lt h

theorem PAGE_SIZE_pos (P : Platform) : 0 < PAGE_SIZE P := Nat.two_pow_pos _

/-! ## The loop of `__dma_sync` -/

/-- With a direction that `__dma_sync_virtual` rejects, the body stops in
`BUG()`. -/
theorem __dma_sync_body_none (P : Platform) (size : Nat) (page : Page)
    (offset left : Nat) :
    (__dma_sync_body P size .DMA_NONE page offset left).result = .bug := by
  unfold __dma_sync_body
  by_cases hm : P.PageHighMem page = true <;>
    simp [hm, Exec.andThen, Exec.emit, Exec.ret, __dma_sync_virtual]
theorem __dma_sync_virtual_result (addr size : Nat) {direction : dma_data_direction}
    (hd : direction ≠ .DMA_NONE) :
    (__dma_sync_virtual addr size direction).result = .returned () := by
  cases direction <;> simp_all [__dma_sync_virtual, Exec.emit]

theorem __dma_sync_body_returns (P : Platform) (size : Nat)
    {direction : dma_data_direction} (hd : direction ≠ .DMA_NONE)
    (page : Page) (offset left : Nat) :
    ∃ st, (__dma_sync_body P size direction page offset left).result = .returned st ∧
      st.2 < 2 ^ P.BITS_PER_LONG ∧
      (offset = 0 → left < 2 ^ P.BITS_PER_LONG → st.2 = 0 ∨ st.2 < left) := by
  unfold __dma_sync_body
  by_cases hm : P.PageHighMem page = true
  · simp only [hm, if_true]
    simp [Exec.andThen, Exec.emit, Exec.ret, __dma_sync_virtual_result _ _ hd]
    refine ⟨ulong_sub_lt _ _ _, ?_⟩
    intro h0 hl
    subst h0
    have hps := PAGE_SIZE_pos P
    have hadd : ulong_add P 0 left = left := by
      rw [ulong_add_of_lt P (by omega)]; omega
    have hn : ¬ (PAGE_SIZE P ≤ 0) := by omega
    simp only [hadd, hn, and_false, if_false]
    by_cases hov : PAGE_SIZE P < left
    · right
      simp only [hov, if_true]
      rw [ulong_sub_of_le P (Nat.zero_le _) (by omega), Nat.sub_zero,
        ulong_sub_of_le P (Nat.le_of_lt hov) hl]
      omega
    · left
      simp only [hov, if_false]
      rw [ulong_sub_of_le P (Nat.le_refl _) hl]
      omega
  · simp only [hm]
    simp [Exec.andThen, Exec.emit, Exec.ret, __dma_sync_virtual_result _ _ hd]
    refine ⟨ulong_sub_lt _ _ _, ?_⟩
    intro _ hl
    left
    rw [ulong_sub_of_le P (Nat.le_refl _) hl]
    omega

/-- The iteration budget is enough once `offset` is 0: from then on `left`
decreases at every pass. -/
theorem __dma_sync_loop_returns (P : Platform) (size : Nat)
    {direction : dma_data_direction} (hd : direction ≠ .DMA_NONE) :
    ∀ (fuel : Nat) (page : Page) (left : Nat), left < fuel →
      left < 2 ^ P.BITS_PER_LONG →
      (__dma_sync_loop P size direction fuel page 0 left).result = .returned () := by
  intro fuel
  induction fuel with
  | zero => intro _ _ h; omega
  | succ n ih =>
    intro page left hf hl
    obtain ⟨st, hst, hlt, hdec⟩ := __dma_sync_body_returns P size hd page 0 left
    unfold __dma_sync_loop
    rw [Exec.andThen_of_returned _ _ st hst]
    by_cases h0 : st.2 = 0
    · simp [h0, Exec.ret]
    · simp only [ne_eq, h0, not_false_eq_true, if_true]
      apply ih
      · rcases hdec rfl hl with h | h
        · exact absurd h h0
        · omega
      · exact hlt

/-- Termination of `__dma_sync`: with a direction other than `DMA_NONE` the
loop ends and the function returns, for every page, offset and size. -/
theorem __dma_sync_returns (P : Platform) (page : Page) (offset size : Nat)
    {direction : dma_data_direction} (hd : direction ≠ .DMA_NONE) :
    (__dma_sync P page offset size direction).result = .returned () := by
  obtain ⟨st, hst, hlt, _⟩ := __dma_sync_body_returns P size hd page offset size
  unfold __dma_sync __dma_sync_loop
  rw [Exec.andThen_of_returned _ _ st hst]
  by_cases h0 : st.2 = 0
  · simp [h0, Exec.ret]
  · simp only [ne_eq, h0, not_false_eq_true, if_true]
    exact __dma_sync_loop_returns P size hd _ _ _ hlt hlt

/-- With `DMA_NONE` the first pass through the loop stops in `BUG()`. -/
theorem __dma_sync_none (P : Platform) (page : Page) (offset size : Nat) :
    (__dma_sync P page offset size .DMA_NONE).result = .bug := by
  unfold __dma_sync __dma_sync_loop
  rw [Exec.andThen_of_bug _ _ (__dma_sync_body_none P size page offset size)]

/-! ## The scatter-gather loops -/

theorem Exec.andThen_assoc {α β γ : Type} (x : Exec α) (f : α → Exec β)
    (g : β → Exec γ) :
    (x.andThen f).andThen g = x.andThen fun a => (f a).andThen g := by
  unfold Exec.andThen
  cases hx : x.result with
  | returned a =>
    cases hf : (f a).result <;> simp [hf, List.append_assoc]
  | bug => simp
  | out_of_fuel => simp

/-- The events of the cache synchronisation that `mips_dma_map_page` and
`mips_dma_map_sg` run for one buffer: none for a coherent device. -/
theorem map_sync_returns (P : Platform) (dev : DevPtr) (page : Page)
    (offset size : Nat) {direction : dma_data_direction}
    (h : direction ≠ .DMA_NONE ∨ P.plat_device_is_coherent dev = true) :
    (if !P.plat_device_is_coherent dev then __dma_sync P page offset size direction
      else Exec.ret ()).result = .returned () := by
  by_cases hc : P.plat_device_is_coherent dev = true
  · simp [hc, Exec.ret]
  · rcases h with h | h
    · simp [hc, __dma_sync_returns P page offset size h]
    · exact absurd h hc

theorem mips_dma_map_page_eq (P : Platform) (dev : DevPtr) (page : Page)
    (offset size : Nat) {direction : dma_data_direction}
    (h : direction ≠ .DMA_NONE ∨ P.plat_device_is_coherent dev = true) :
    mips_dma_map_page P dev page offset size direction =
      ⟨(if !P.plat_device_is_coherent dev then
            __dma_sync P page offset size direction else Exec.ret ()).trace ++
          [.plat_map_dma_mem_page dev page],
        .returned (dma_addr_add P (P.plat_map_dma_mem_page dev page) offset)⟩ := by
  unfold mips_dma_map_page
  rw [Exec.andThen_of_returned _ _ () (map_sync_returns P dev page offset size h)]
  simp [Exec.andThen, Exec.emit, Exec.ret]

theorem mips_dma_map_sg_loop_eq (P : Platform) (dev : DevPtr)
    {direction : dma_data_direction}
    (h : direction ≠ .DMA_NONE ∨ P.plat_device_is_coherent dev = true) :
    ∀ l : List scatterlist,
      mips_dma_map_sg_loop P dev direction l =
        ⟨l.flatMap fun sg =>
            (if !P.plat_device_is_coherent dev then
                __dma_sync P sg.page sg.offset sg.length direction
              else Exec.ret ()).trace ++ [.plat_map_dma_mem_page dev sg.page],
          .returned (l.map fun sg => { sg with
            dma_address :=
              dma_addr_add P (P.plat_map_dma_mem_page dev sg.page) sg.offset })⟩ := by
  intro l
  induction l with
  | nil => simp [mips_dma_map_sg_loop, Exec.ret]
  | cons sg rest ih =>
    unfold mips_dma_map_sg_loop
    rw [Exec.andThen_of_returned _ _ ()
      (map_sync_returns P dev sg.page sg.offset sg.length h), ih]
    simp [Exec.andThen, Exec.emit, Exec.ret]

theorem map_sg_loop_refines (P : Platform) (dev : DevPtr)
    (direction : dma_data_direction) :
    ∀ l : List scatterlist,
      mips_dma_map_sg_loop P dev direction l = map_sg_per_entry P dev direction l := by
  intro l
  induction l with
  | nil => rfl
  | cons sg rest ih =>
    unfold mips_dma_map_sg_loop map_sg_per_entry mips_dma_map_page
    rw [ih]
    simp only [Exec.andThen_assoc, Exec.ret_andThen]

theorem mips_dma_unmap_sg_loop_eq (P : Platform) (dev : DevPtr)
    {direction : dma_data_direction}
    (h : P.plat_device_is_coherent dev = true ∨ direction = .DMA_TO_DEVICE) :
    ∀ l : List scatterlist,
      mips_dma_unmap_sg_loop P dev direction l =
        ⟨l.map fun sg => .plat_unmap_dma_mem dev sg.dma_address sg.length direction,
          .returned ()⟩ := by
  intro l
  have hc : (!P.plat_device_is_coherent dev &&
      direction != dma_data_direction.DMA_TO_DEVICE) = false := by
    rcases h with h | h <;> simp [h]
  induction l with
  | nil => simp [mips_dma_unmap_sg_loop, Exec.ret]
  | cons sg rest ih =>
    unfold mips_dma_unmap_sg_loop
    rw [ih, hc]
    simp [Exec.andThen, Exec.emit, Exec.ret]

theorem mips_dma_sync_sg_for_cpu_loop_eq (P : Platform) (dev : DevPtr)
    (direction : dma_data_direction) (h : cpu_is_noncoherent_r10000 P dev = false) :
    ∀ l : List scatterlist,
      mips_dma_sync_sg_for_cpu_loop P dev direction l = ⟨[], .returned ()⟩ := by
  intro l
  induction l with
  | nil => simp [mips_dma_sync_sg_for_cpu_loop, Exec.ret]
  | cons sg rest ih =>
    unfold mips_dma_sync_sg_for_cpu_loop
    rw [ih, h]
    simp [Exec.andThen, Exec.ret]

theorem mips_dma_sync_sg_for_device_loop_eq (P : Platform) (dev : DevPtr)
    (direction : dma_data_direction) (h : P.plat_device_is_coherent dev = true) :
    ∀ l : List scatterlist,
      mips_dma_sync_sg_for_device_loop P dev direction l = ⟨[], .returned ()⟩ := by
  intro l
  induction l with
  | nil => simp [mips_dma_sync_sg_for_device_loop, Exec.ret]
  | cons sg rest ih =>
    unfold mips_dma_sync_sg_for_device_loop
    rw [ih, h]
    simp [Exec.andThen, Exec.ret]

theorem cpu_is_noncoherent_r10000_of_coherent (P : Platform) (dev : DevPtr)
    (h : P.plat_device_is_coherent dev = true) :
    cpu_is_noncoherent_r10000 P dev = false := by
  simp [cpu_is_noncoherent_r10000, h]

/-! ## Events of the cache synchronisation -/

theorem Exec.mem_andThen_trace {α β : Type} {x : Exec α} {f : α → Exec β}
    {e : Event} (h : e ∈ (x.andThen f).trace) :
    e ∈ x.trace ∨ ∃ a, x.result = .returned a ∧ e ∈ (f a).trace := by
  unfold Exec.andThen at h
  cases hx : x.result with
  | returned a =>
    rw [hx] at h
    simp only [List.mem_append] at h
    rcases h with h | h
    · exact Or.inl h
    · exact Or.inr ⟨a, rfl, h⟩
  | bug => rw [hx] at h; exact Or.inl h
  | out_of_fuel => rw [hx] at h; exact Or.inl h

theorem __dma_sync_virtual_sync_events (addr size : Nat)
    (direction : dma_data_direction) :
    ∀ e ∈ (__dma_sync_virtual addr size direction).trace, e.isSyncEvent = true := by
  cases direction <;> simp [__dma_sync_virtual, Exec.emit, Event.isSyncEvent]

theorem __dma_sync_body_sync_events (P : Platform) (size : Nat)
    (direction : dma_data_direction) (page : Page) (offset left : Nat) :
    ∀ e ∈ (__dma_sync_body P size direction page offset left).trace,
      e.isSyncEvent = true := by
  intro e he
  unfold __dma_sync_body at he
  by_cases hm : P.PageHighMem page = true
  · simp only [hm, if_true] at he
    rcases Exec.mem_andThen_trace he with h | ⟨_, _, h⟩
    · simp [Exec.emit] at h; subst h; rfl
    · rcases Exec.mem_andThen_trace h with h | ⟨_, _, h⟩
      · exact __dma_sync_virtual_sync_events _ _ _ e h
      · rcases Exec.mem_andThen_trace h with h | ⟨_, _, h⟩
        · simp [Exec.emit] at h; subst h; rfl
        · simp [Exec.ret] at h
  · simp only [hm] at he
    rcases Exec.mem_andThen_trace he with h | ⟨_, _, h⟩
    · exact __dma_sync_virtual_sync_events _ _ _ e h
    · simp [Exec.ret] at h

theorem __dma_sync_loop_sync_events (P : Platform) (size : Nat)
    (direction : dma_data_direction) :
    ∀ (fuel : Nat) (page : Page) (offset left : Nat),
      ∀ e ∈ (__dma_sync_loop P size direction fuel page offset left).trace,
        e.isSyncEvent = true := by
  intro fuel
  induction fuel with
  | zero => intro _ _ _ e he; simp [__dma_sync_loop] at he
  | succ n ih =>
    intro page offset left e he
    unfold __dma_sync_loop at he
    rcases Exec.mem_andThen_trace he with h | ⟨st, _, h⟩
    · exact __dma_sync_body_sync_events _ _ _ _ _ _ e h
    · by_cases h0 : st.2 = 0
      · simp [h0, Exec.ret] at h
      · simp only [ne_eq, h0, not_false_eq_true, if_true] at h
        exact ih _ _ _ e h

theorem __dma_sync_sync_events (P : Platform) (page : Page) (offset size : Nat)
    (direction : dma_data_direction) :
    ∀ e ∈ (__dma_sync P page offset size direction).trace, e.isSyncEvent = true :=
  __dma_sync_loop_sync_events P size direction _ page offset size

theorem Event.not_unmap_of_sync {e : Event} (h : e.isSyncEvent = true) :
    e.isUnmap = false := by
  cases e <;> simp_all [Event.isSyncEvent, Event.isUnmap]

theorem mips_dma_map_sg_loop_not_unmap (P : Platform) (dev : DevPtr)
    (direction : dma_data_direction) :
    ∀ (l : List scatterlist),
      ∀ e ∈ (mips_dma_map_sg_loop P dev direction l).trace, e.isUnmap = false := by
  intro l
  induction l with
  | nil => intro e he; simp [mips_dma_map_sg_loop, Exec.ret] at he
  | cons sg rest ih =>
    intro e he
    unfold mips_dma_map_sg_loop at he
    rcases Exec.mem_andThen_trace he with h | ⟨_, _, h⟩
    · cases hc : P.plat_device_is_coherent dev with
      | true => simp [hc, Exec.ret] at h
      | false =>
        simp only [hc, Bool.not_false, if_true] at h
        exact Event.not_unmap_of_sync (__dma_sync_sync_events _ _ _ _ _ e h)
    · rcases Exec.mem_andThen_trace h with h | ⟨_, _, h⟩
      · simp [Exec.emit] at h; subst h; rfl
      · rcases Exec.mem_andThen_trace h with h | ⟨_, _, h⟩
        · exact ih e h
        · simp [Exec.ret] at h

/-- With a direction other than `DMA_NONE`, the first pass of the loop of
`__dma_sync` already issues a cache operation. -/
theorem __dma_sync_cacheOps_ne_nil (P : Platform) (page : Page)
    (offset size : Nat) {direction : dma_data_direction}
    (hd : direction ≠ .DMA_NONE) :
    (__dma_sync P page offset size direction).cacheOps ≠ [] := by
  obtain ⟨st, hst, _, _⟩ := __dma_sync_body_returns P size hd page offset size
  have hb : ∃ e ∈ (__dma_sync_body P size direction page offset size).trace,
      e.isCacheOp = true := by
    unfold __dma_sync_body
    by_cases hm : P.PageHighMem page = true <;>
      cases direction <;>
      simp_all [Exec.andThen, Exec.emit, Exec.ret, __dma_sync_virtual,
        Event.isCacheOp]
  obtain ⟨e, he, hop⟩ := hb
  unfold Exec.cacheOps __dma_sync __dma_sync_loop
  rw [Exec.andThen_of_returned _ _ st hst]
  intro hnil
  rw [List.filter_eq_nil_iff] at hnil
  exact hnil e (List.mem_append_left _ he) hop

/-! ## Results on the cache synchroniser and on the single-buffer operations -/

/-- C1: for every address and size `__dma_sync_virtual` issues exactly one
cache operation on `(addr, size)`, chosen by the direction: writeback for
`DMA_TO_DEVICE`, invalidate for `DMA_FROM_DEVICE`, writeback-invalidate for
`DMA_BIDIRECTIONAL`; with every other direction it issues no cache operation
and stops in `BUG()`. -/
theorem dma_sync_virtual_by_direction (addr size : Nat) :
    __dma_sync_virtual addr size .DMA_TO_DEVICE =
        ⟨[.dma_cache_wback addr size], .returned ()⟩ ∧
    __dma_sync_virtual addr size .DMA_FROM_DEVICE =
        ⟨[.dma_cache_inv addr size], .returned ()⟩ ∧
    __dma_sync_virtual addr size .DMA_BIDIRECTIONAL =
        ⟨[.dma_cache_wback_inv addr size], .returned ()⟩ ∧
    ∀ direction : dma_data_direction,
      direction ≠ .DMA_TO_DEVICE → direction ≠ .DMA_FROM_DEVICE →
      direction ≠ .DMA_BIDIRECTIONAL →
      __dma_sync_virtual addr size direction = ⟨[], .bug⟩ := by
  refine ⟨rfl, rfl, rfl, ?_⟩
  intro direction h1 h2 h3
  cases direction <;> simp_all [__dma_sync_virtual]

/-- C2, as stated, fails: on a non-coherent device `mips_dma_map_page` called
with `DMA_NONE` stops in `BUG()` inside `__dma_sync` and returns no address. -/
theorem mips_dma_map_page_none_stops :
    (plat32 (.CPU_other 0) false).plat_device_is_coherent none = false ∧
    mips_dma_map_page (plat32 (.CPU_other 0) false) none 5 0 64 .DMA_NONE =
      ⟨[], .bug⟩ ∧
    (mips_dma_map_page (plat32 (.CPU_other 0) false) none 5 0 64 .DMA_NONE).result ≠
      .returned ((plat32 (.CPU_other 0) false).plat_map_dma_mem_page none 5 + 0) := by
  decide

/-- C2, amended: for every device, page, offset and size, and every direction
other than `DMA_NONE`, `mips_dma_map_page` returns
`plat_map_dma_mem_page(dev, page) + offset` (in `dma_addr_t` arithmetic, the
plain sum when it fits); for a non-coherent device the events of
`__dma_sync(page, offset, size, direction)` come first and the translation
after them; for a coherent device, with every direction, the translation is
the only event, so no cache operation is issued.  With `DMA_NONE` on a
non-coherent device the call stops in `BUG()` before the translation. -/
theorem mips_dma_map_page_sync_then_translate (P : Platform) (dev : DevPtr)
    (page : Page) (offset size : Nat) (direction : dma_data_direction) :
    (P.plat_device_is_coherent dev = true →
      mips_dma_map_page P dev page offset size direction =
        ⟨[.plat_map_dma_mem_page dev page],
          .returned (dma_addr_add P (P.plat_map_dma_mem_page dev page) offset)⟩) ∧
    (P.plat_device_is_coherent dev = false → direction ≠ .DMA_NONE →
      mips_dma_map_page P dev page offset size direction =
        ⟨(__dma_sync P page offset size direction).trace ++
            [.plat_map_dma_mem_page dev page],
          .returned (dma_addr_add P (P.plat_map_dma_mem_page dev page) offset)⟩) ∧
    (P.plat_device_is_coherent dev = false →
      mips_dma_map_page P dev page offset size .DMA_NONE =
        ⟨(__dma_sync P page offset size .DMA_NONE).trace, .bug⟩ ∧
      Event.plat_map_dma_mem_page dev page ∉
        (mips_dma_map_page P dev page offset size .DMA_NONE).trace) ∧
    (P.plat_map_dma_mem_page dev page + offset < 2 ^ P.DMA_ADDR_BITS →
      dma_addr_add P (P.plat_map_dma_mem_page dev page) offset =
        P.plat_map_dma_mem_page dev page + offset) := by
  refine ⟨?_, ?_, ?_, ?_⟩
  · intro hc
    rw [mips_dma_map_page_eq P dev page offset size (Or.inr hc)]
    simp [hc, Exec.ret]
  · intro hc hd
    rw [mips_dma_map_page_eq P dev page offset size (Or.inl hd)]
    simp [hc]
  · intro hc
    have hb : mips_dma_map_page P dev page offset size .DMA_NONE =
        ⟨(__dma_sync P page offset size .DMA_NONE).trace, .bug⟩ := by
      unfold mips_dma_map_page
      simp only [hc, Bool.not_false, if_true]
      rw [Exec.andThen_of_bug _ _ (__dma_sync_none P page offset size)]
    refine ⟨hb, ?_⟩
    rw [hb]
    intro hmem
    have := __dma_sync_sync_events P page offset size .DMA_NONE _ hmem
    simp [Event.isSyncEvent] at this
  · intro h
    exact Nat.mod_eq_of_lt h

/-- C2, at a concrete input: a non-coherent device, page 5, offset 0x123,
`DMA_TO_DEVICE`; the writeback comes before the translation. -/
theorem mips_dma_map_page_sync_then_translate_witness :
    (plat32 (.CPU_other 0) false).plat_device_is_coherent none = false ∧
    dma_data_direction.DMA_TO_DEVICE ≠ .DMA_NONE ∧
    mips_dma_map_page (plat32 (.CPU_other 0) false) none 5 0x123 64
        .DMA_TO_DEVICE =
      ⟨(__dma_sync (plat32 (.CPU_other 0) false) 5 0x123 64 .DMA_TO_DEVICE).trace ++
          [.plat_map_dma_mem_page none 5],
        .returned (dma_addr_add (plat32 (.CPU_other 0) false)
          ((plat32 (.CPU_other 0) false).plat_map_dma_mem_page none 5) 0x123)⟩ ∧
    mips_dma_map_page (plat32 (.CPU_other 0) false) none 5 0x123 64
        .DMA_TO_DEVICE =
      ⟨[.dma_cache_wback 0x80005123 64, .plat_map_dma_mem_page none 5],
        .returned 0x5123⟩ :=
  ⟨rfl, by decide,
    (mips_dma_map_page_sync_then_translate (plat32 (.CPU_other 0) false) none 5
      0x123 64 .DMA_TO_DEVICE).2.1 rfl (by decide),
    by decide⟩

theorem flatMap_single {α β : Type} (f : α → β) (l : List α) :
    (l.flatMap fun x => [f x]) = l.map f := by
  induction l with
  | nil => rfl
  | cons x rest ih => simp [ih]

theorem cpu_is_noncoherent_r10000_flagged (P : Platform) (dev : DevPtr) :
    (P.plat_device_is_coherent dev = false ∧
        (P.current_cpu_type = .CPU_R10000 ∨ P.current_cpu_type = .CPU_R12000) →
      cpu_is_noncoherent_r10000 P dev = true) ∧
    (P.plat_device_is_coherent dev = true ∨
        (P.current_cpu_type ≠ .CPU_R10000 ∧ P.current_cpu_type ≠ .CPU_R12000) →
      cpu_is_noncoherent_r10000 P dev = false) := by
  unfold cpu_is_noncoherent_r10000
  cases P.plat_device_is_coherent dev <;> cases P.current_cpu_type <;> simp

/-- C3, as stated, fails: `cpu_is_noncoherent_r10000` returns true for a
device that the platform reports as NOT coherent (on a CPU_R10000), and
returns false for a coherent device on the same CPU. -/
theorem cpu_is_noncoherent_r10000_coherent_device :
    (plat32 .CPU_R10000 false).plat_device_is_coherent none = false ∧
    cpu_is_noncoherent_r10000 (plat32 .CPU_R10000 false) none = true ∧
    (plat32 .CPU_R10000 true).plat_device_is_coherent none = true ∧
    cpu_is_noncoherent_r10000 (plat32 .CPU_R10000 true) none = false := by
  decide

/-- C3, amended: `cpu_is_noncoherent_r10000(dev)` returns true exactly when
the platform reports the device as not coherent and the CPU type is
`CPU_R10000` or `CPU_R12000`; for every other combination it returns false. -/
theorem cpu_is_noncoherent_r10000_iff (P : Platform) (dev : DevPtr) :
    (cpu_is_noncoherent_r10000 P dev = true ↔
      P.plat_device_is_coherent dev = false ∧
        (P.current_cpu_type = .CPU_R10000 ∨ P.current_cpu_type = .CPU_R12000)) ∧
    (cpu_is_noncoherent_r10000 P dev = false ↔
      P.plat_device_is_coherent dev = true ∨
        (P.current_cpu_type ≠ .CPU_R10000 ∧ P.current_cpu_type ≠ .CPU_R12000)) := by
  unfold cpu_is_noncoherent_r10000
  cases P.plat_device_is_coherent dev <;> cases P.current_cpu_type <;> simp

/-- C4, as stated, fails: for a coherent device on a CPU_R10000 none of
`mips_dma_map_page`, `mips_dma_unmap_page`, `mips_dma_sync_single_for_cpu`
and `mips_dma_sync_single_for_device` issues a cache operation. -/
theorem coherent_device_r10000_no_sync :
    (plat32 .CPU_R10000 true).plat_device_is_coherent none = true ∧
    mips_dma_map_page (plat32 .CPU_R10000 true) none 5 0 64 .DMA_TO_DEVICE =
      ⟨[.plat_map_dma_mem_page none 5], .returned 0x5000⟩ ∧
    mips_dma_unmap_page (plat32 .CPU_R10000 true) none 0x5000 64 .DMA_FROM_DEVICE =
      ⟨[.plat_unmap_dma_mem none 0x5000 64 .DMA_FROM_DEVICE], .returned ()⟩ ∧
    mips_dma_sync_single_for_cpu (plat32 .CPU_R10000 true) none 0x5000 64
      .DMA_FROM_DEVICE = ⟨[], .returned ()⟩ ∧
    mips_dma_sync_single_for_device (plat32 .CPU_R10000 true) none 0x5000 64
      .DMA_TO_DEVICE = ⟨[.plat_extra_sync_for_device none], .returned ()⟩ := by
  decide

/-- C4, amended: for a device that the platform reports as coherent, on every
CPU type (CPU_R10000 and CPU_R12000 included), `mips_dma_map_page`,
`mips_dma_unmap_page`, `mips_dma_sync_single_for_cpu`,
`mips_dma_sync_single_for_device` and the four scatter-gather operations
return without any cache operation, for every direction. -/
theorem coherent_device_no_cache_ops (P : Platform) (dev : DevPtr)
    (hc : P.plat_device_is_coherent dev = true) (page : Page)
    (offset size dma_addr : Nat) (sg : List scatterlist) (n : Int)
    (direction : dma_data_direction) :
    mips_dma_map_page P dev page offset size direction =
      ⟨[.plat_map_dma_mem_page dev page],
        .returned (dma_addr_add P (P.plat_map_dma_mem_page dev page) offset)⟩ ∧
    mips_dma_unmap_page P dev dma_addr size direction =
      ⟨[.plat_unmap_dma_mem dev dma_addr size direction], .returned ()⟩ ∧
    mips_dma_sync_single_for_cpu P dev dma_addr size direction =
      ⟨[], .returned ()⟩ ∧
    mips_dma_sync_single_for_device P dev dma_addr size direction =
      ⟨[.plat_extra_sync_for_device dev], .returned ()⟩ ∧
    (mips_dma_map_sg P dev sg n direction).trace =
      (sg.take n.toNat).map (fun e => Event.plat_map_dma_mem_page dev e.page) ∧
    mips_dma_unmap_sg P dev sg n direction =
      ⟨(sg.take n.toNat).map fun e =>
          .plat_unmap_dma_mem dev e.dma_address e.length direction,
        .returned ()⟩ ∧
    mips_dma_sync_sg_for_cpu P dev sg n direction = ⟨[], .returned ()⟩ ∧
    mips_dma_sync_sg_for_device P dev sg n direction = ⟨[], .returned ()⟩ := by
  have hr := cpu_is_noncoherent_r10000_of_coherent P dev hc
  refine ⟨?_, ?_, ?_, ?_, ?_, ?_, ?_, ?_⟩
  · rw [mips_dma_map_page_eq P dev page offset size (Or.inr hc)]
    simp [hc, Exec.ret]
  · simp [mips_dma_unmap_page, hr, Exec.andThen, Exec.ret, Exec.emit]
  · simp [mips_dma_sync_single_for_cpu, hr, Exec.ret]
  · simp [mips_dma_sync_single_for_device, hc, Exec.andThen, Exec.ret, Exec.emit]
  · unfold mips_dma_map_sg
    rw [mips_dma_map_sg_loop_eq P dev (Or.inr hc)]
    simp [hc, Exec.andThen, Exec.ret, flatMap_single, List.map_take]
  · exact mips_dma_unmap_sg_loop_eq P dev (Or.inl hc) _
  · exact mips_dma_sync_sg_for_cpu_loop_eq P dev direction hr _
  · exact mips_dma_sync_sg_for_device_loop_eq P dev direction hc _

/-- C4, at a concrete input: a coherent device on a CPU_R10000. -/
theorem coherent_device_no_cache_ops_witness :
    (plat32 .CPU_R10000 true).plat_device_is_coherent none = true ∧
    (mips_dma_map_page (plat32 .CPU_R10000 true) none 5 0 64 .DMA_FROM_DEVICE =
      ⟨[.plat_map_dma_mem_page none 5],
        .returned (dma_addr_add (plat32 .CPU_R10000 true)
          ((plat32 .CPU_R10000 true).plat_map_dma_mem_page none 5) 0)⟩ ∧
    mips_dma_unmap_page (plat32 .CPU_R10000 true) none 0x5000 64 .DMA_FROM_DEVICE =
      ⟨[.plat_unmap_dma_mem none 0x5000 64 .DMA_FROM_DEVICE], .returned ()⟩ ∧
    mips_dma_sync_single_for_cpu (plat32 .CPU_R10000 true) none 0x5000 64
      .DMA_FROM_DEVICE = ⟨[], .returned ()⟩ ∧
    mips_dma_sync_single_for_device (plat32 .CPU_R10000 true) none 0x5000 64
      .DMA_FROM_DEVICE = ⟨[.plat_extra_sync_for_device none], .returned ()⟩ ∧
    (mips_dma_map_sg (plat32 .CPU_R10000 true) none sg_sample 3
      .DMA_FROM_DEVICE).trace =
      (sg_sample.take (3 : Int).toNat).map
        (fun e => Event.plat_map_dma_mem_page none e.page) ∧
    mips_dma_unmap_sg (plat32 .CPU_R10000 true) none sg_sample 3
      .DMA_FROM_DEVICE =
      ⟨(sg_sample.take (3 : Int).toNat).map fun e =>
          .plat_unmap_dma_mem none e.dma_address e.length .DMA_FROM_DEVICE,
        .returned ()⟩ ∧
    mips_dma_sync_sg_for_cpu (plat32 .CPU_R10000 true) none sg_sample 3
      .DMA_FROM_DEVICE = ⟨[], .returned ()⟩ ∧
    mips_dma_sync_sg_for_device (plat32 .CPU_R10000 true) none sg_sample 3
      .DMA_FROM_DEVICE = ⟨[], .returned ()⟩) :=
  ⟨rfl, coherent_device_no_cache_ops (plat32 .CPU_R10000 true) none rfl 5 0 64
    0x5000 sg_sample 3 .DMA_FROM_DEVICE⟩

/-- C5, as stated, fails: for a non-coherent device on a CPU other than
CPU_R10000 and CPU_R12000, `mips_dma_unmap_page` with `DMA_FROM_DEVICE` (and
with `DMA_BIDIRECTIONAL`) only calls `plat_unmap_dma_mem`; no cache
operation is issued. -/
theorem mips_dma_unmap_page_other_cpu_no_sync :
    (plat32 (.CPU_other 0) false).plat_device_is_coherent none = false ∧
    mips_dma_unmap_page (plat32 (.CPU_other 0) false) none 0x5123 100
        .DMA_FROM_DEVICE =
      ⟨[.plat_unmap_dma_mem none 0x5123 100 .DMA_FROM_DEVICE], .returned ()⟩ ∧
    mips_dma_unmap_page (plat32 (.CPU_other 0) false) none 0x5123 100
        .DMA_BIDIRECTIONAL =
      ⟨[.plat_unmap_dma_mem none 0x5123 100 .DMA_BIDIRECTIONAL], .returned ()⟩ := by
  decide

/-- C5, amended: for a non-coherent device on a CPU_R10000 or CPU_R12000,
`mips_dma_unmap_page(dma_addr, size, direction)` with `DMA_FROM_DEVICE` or
`DMA_BIDIRECTIONAL` runs `__dma_sync` with that direction over the page and
the in-page offset recovered from `dma_addr` (at least one cache operation),
then calls `plat_unmap_dma_mem`, and returns; on every other CPU type it only
calls `plat_unmap_dma_mem`. -/
theorem mips_dma_unmap_page_sync_on_r10000 (P : Platform) (dev : DevPtr)
    (dma_addr size : Nat) (direction : dma_data_direction)
    (hnc : P.plat_device_is_coherent dev = false)
    (hd : direction = .DMA_FROM_DEVICE ∨ direction = .DMA_BIDIRECTIONAL) :
    ((P.current_cpu_type = .CPU_R10000 ∨ P.current_cpu_type = .CPU_R12000) →
      mips_dma_unmap_page P dev dma_addr size direction =
        ⟨(__dma_sync P (dma_addr_to_page P dev dma_addr)
              (dma_addr &&& NOT_PAGE_MASK P) size direction).trace ++
            [.plat_unmap_dma_mem dev dma_addr size direction],
          .returned ()⟩ ∧
      (__dma_sync P (dma_addr_to_page P dev dma_addr)
        (dma_addr &&& NOT_PAGE_MASK P) size direction).cacheOps ≠ []) ∧
    (P.current_cpu_type ≠ .CPU_R10000 → P.current_cpu_type ≠ .CPU_R12000 →
      mips_dma_unmap_page P dev dma_addr size direction =
        ⟨[.plat_unmap_dma_mem dev dma_addr size direction], .returned ()⟩) := by
  have hdn : direction ≠ .DMA_NONE := by
    rcases hd with h | h <;> simp [h]
  constructor
  · intro hcpu
    have hr : cpu_is_noncoherent_r10000 P dev = true :=
      (cpu_is_noncoherent_r10000_flagged P dev).1 ⟨hnc, hcpu⟩
    refine ⟨?_, __dma_sync_cacheOps_ne_nil P _ _ _ hdn⟩
    unfold mips_dma_unmap_page
    simp only [hr, if_true]
    rw [Exec.andThen_of_returned _ _ () (__dma_sync_returns P _ _ _ hdn)]
    simp [Exec.emit]
  · intro h1 h2
    have hr : cpu_is_noncoherent_r10000 P dev = false :=
      (cpu_is_noncoherent_r10000_flagged P dev).2 (Or.inr ⟨h1, h2⟩)
    simp [mips_dma_unmap_page, hr, Exec.andThen, Exec.ret, Exec.emit]

/-- C5, at a concrete input: a non-coherent device on a CPU_R10000. -/
theorem mips_dma_unmap_page_sync_on_r10000_witness :
    (plat32 .CPU_R10000 false).plat_device_is_coherent none = false ∧
    (dma_data_direction.DMA_FROM_DEVICE = .DMA_FROM_DEVICE ∨
      dma_data_direction.DMA_FROM_DEVICE = .DMA_BIDIRECTIONAL) ∧
    mips_dma_unmap_page (plat32 .CPU_R10000 false) none 0x5123 100
        .DMA_FROM_DEVICE =
      ⟨(__dma_sync (plat32 .CPU_R10000 false)
            (dma_addr_to_page (plat32 .CPU_R10000 false) none 0x5123)
            (0x5123 &&& NOT_PAGE_MASK (plat32 .CPU_R10000 false)) 100
            .DMA_FROM_DEVICE).trace ++
          [.plat_unmap_dma_mem none 0x5123 100 .DMA_FROM_DEVICE],
        .returned ()⟩ :=
  ⟨rfl, Or.inl rfl,
    ((mips_dma_unmap_page_sync_on_r10000 (plat32 .CPU_R10000 false) none 0x5123
      100 .DMA_FROM_DEVICE rfl (Or.inl rfl)).1 (Or.inl rfl)).1⟩

/-! ## Results on the scatter-gather operations -/

/-- C6, as stated, fails: on a non-coherent device `mips_dma_map_sg` called
with `DMA_NONE` on a list of three entries stops in `BUG()` at the first
entry and does not return 3. -/
theorem mips_dma_map_sg_none_stops :
    (plat32 (.CPU_other 0) false).plat_device_is_coherent none = false ∧
    mips_dma_map_sg (plat32 (.CPU_other 0) false) none sg_sample 3 .DMA_NONE =
      ⟨[], .bug⟩ := by
  decide

/-- C6, amended: `mips_dma_map_sg` is the in-order per-entry application of
`mips_dma_map_page` (for every list and every direction the two executions
are equal, a stop in `BUG()` included); with every direction other than
`DMA_NONE`, and with every direction on a coherent device, it returns
`nents`, sets each entry's `dma_address` to exactly the value that
`mips_dma_map_page` returns for the entry, and its cache operations are the
concatenation, in list order, of those of `mips_dma_map_page` on the
entries. -/
theorem mips_dma_map_sg_is_per_entry_map_page (P : Platform) (dev : DevPtr)
    (sg : List scatterlist) (direction : dma_data_direction) :
    mips_dma_map_sg P dev sg sg.length direction =
      ((map_sg_per_entry P dev direction sg).andThen fun l =>
        Exec.ret (l, (sg.length : Int))) ∧
    (direction ≠ .DMA_NONE ∨ P.plat_device_is_coherent dev = true →
      (mips_dma_map_sg P dev sg sg.length direction).result =
        .returned (sg.map (fun e => { e with
          dma_address :=
            dma_addr_add P (P.plat_map_dma_mem_page dev e.page) e.offset }),
          (sg.length : Int)) ∧
      (∀ e ∈ sg,
        (mips_dma_map_page P dev e.page e.offset e.length direction).result =
          .returned (dma_addr_add P (P.plat_map_dma_mem_page dev e.page) e.offset)) ∧
      (mips_dma_map_sg P dev sg sg.length direction).trace =
        sg.flatMap (fun e =>
          (mips_dma_map_page P dev e.page e.offset e.length direction).trace) ∧
      (mips_dma_map_sg P dev sg sg.length direction).cacheOps =
        sg.flatMap (fun e =>
          (mips_dma_map_page P dev e.page e.offset e.length direction).cacheOps)) := by
  have htake : sg.take (sg.length : Int).toNat = sg := by simp
  have hdrop : sg.drop (sg.length : Int).toNat = [] := by simp
  constructor
  · unfold mips_dma_map_sg
    rw [htake, hdrop, map_sg_loop_refines]
    simp
  · intro h
    have htr : (mips_dma_map_sg P dev sg sg.length direction).trace =
        sg.flatMap (fun e =>
          (mips_dma_map_page P dev e.page e.offset e.length direction).trace) := by
      unfold mips_dma_map_sg
      rw [htake, hdrop, mips_dma_map_sg_loop_eq P dev h]
      simp only [Exec.andThen, Exec.ret, List.append_nil]
      congr 1
      funext e
      rw [mips_dma_map_page_eq P dev e.page e.offset e.length h]
      rfl
    refine ⟨?_, ?_, htr, ?_⟩
    · unfold mips_dma_map_sg
      rw [htake, hdrop, mips_dma_map_sg_loop_eq P dev h]
      simp [Exec.andThen, Exec.ret]
    · intro e _
      rw [mips_dma_map_page_eq P dev e.page e.offset e.length h]
    · unfold Exec.cacheOps
      rw [htr, List.filter_flatMap]

/-- C6, at a concrete input: three entries mapped with `DMA_TO_DEVICE` on a
non-coherent device. -/
theorem mips_dma_map_sg_is_per_entry_map_page_witness :
    (dma_data_direction.DMA_TO_DEVICE ≠ .DMA_NONE ∨
      (plat32 (.CPU_other 0) false).plat_device_is_coherent none = true) ∧
    (mips_dma_map_sg (plat32 (.CPU_other 0) false) none sg_sample
        sg_sample.length .DMA_TO_DEVICE).result =
      .returned (sg_sample.map (fun e => { e with
        dma_address := dma_addr_add (plat32 (.CPU_other 0) false)
          ((plat32 (.CPU_other 0) false).plat_map_dma_mem_page none e.page)
          e.offset }),
        (sg_sample.length : Int)) :=
  ⟨Or.inl (by decide),
    ((mips_dma_map_sg_is_per_entry_map_page (plat32 (.CPU_other 0) false) none
      sg_sample .DMA_TO_DEVICE).2 (Or.inl (by decide))).1⟩

/-- C7, as stated, fails: the translation of entry 1 of `sg_sample` is an
address that `mips_dma_mapping_error` reports as an error, and
`mips_dma_map_sg` still returns 3, the number of entries, stores the error
address in the entry, and calls `plat_unmap_dma_mem` for no entry. -/
theorem mips_dma_map_sg_ignores_mapping_error :
    mips_dma_mapping_error (plat32 (.CPU_other 0) false) none
      (dma_addr_add (plat32 (.CPU_other 0) false)
        ((plat32 (.CPU_other 0) false).plat_map_dma_mem_page none 0) 0) = true ∧
    mips_dma_map_sg (plat32 (.CPU_other 0) false) none sg_sample 3 .DMA_TO_DEVICE =
      ⟨[.dma_cache_wback 0x80001000 64, .plat_map_dma_mem_page none 1,
        .dma_cache_wback 0x80000000 64, .plat_map_dma_mem_page none 0,
        .dma_cache_wback 0x80002010 32, .plat_map_dma_mem_page none 2],
       .returned ([⟨1, 0, 64, 0x1000⟩, ⟨0, 0, 64, 0⟩, ⟨2, 16, 32, 0x2010⟩], 3)⟩ := by
  decide

/-- C7, amended: `mips_dma_map_sg` has no failure path.  For every scatter
list of N entries it never calls `plat_unmap_dma_mem`, and with every
direction other than `DMA_NONE` (with every direction on a coherent device)
it returns N and stores in each entry the translated address, also when
`plat_dma_mapping_error` reports that address as an error; the error is
only visible through `mips_dma_mapping_error` on the stored address. -/
theorem mips_dma_map_sg_no_failure_path (P : Platform) (dev : DevPtr)
    (sg : List scatterlist) (direction : dma_data_direction) :
    (∀ e ∈ (mips_dma_map_sg P dev sg sg.length direction).trace,
      e.isUnmap = false) ∧
    (direction ≠ .DMA_NONE ∨ P.plat_device_is_coherent dev = true →
      (mips_dma_map_sg P dev sg sg.length direction).result =
        .returned (sg.map (fun e => { e with
          dma_address :=
            dma_addr_add P (P.plat_map_dma_mem_page dev e.page) e.offset }),
          (sg.length : Int))) := by
  have htake : sg.take (sg.length : Int).toNat = sg := by simp
  have hdrop : sg.drop (sg.length : Int).toNat = [] := by simp
  constructor
  · intro e he
    unfold mips_dma_map_sg at he
    rcases Exec.mem_andThen_trace he with h | ⟨_, _, h⟩
    · exact mips_dma_map_sg_loop_not_unmap P dev direction _ e h
    · simp [Exec.ret] at h
  · intro h
    unfold mips_dma_map_sg
    rw [htake, hdrop, mips_dma_map_sg_loop_eq P dev h]
    simp [Exec.andThen, Exec.ret]

/-- C7, at a concrete input: the list whose middle entry translates to the
error address. -/
theorem mips_dma_map_sg_no_failure_path_witness :
    (dma_data_direction.DMA_TO_DEVICE ≠ .DMA_NONE ∨
      (plat32 (.CPU_other 0) false).plat_device_is_coherent none = true) ∧
    (mips_dma_map_sg (plat32 (.CPU_other 0) false) none sg_sample
        sg_sample.length .DMA_TO_DEVICE).result =
      .returned (sg_sample.map (fun e => { e with
        dma_address := dma_addr_add (plat32 (.CPU_other 0) false)
          ((plat32 (.CPU_other 0) false).plat_map_dma_mem_page none e.page)
          e.offset }),
        (sg_sample.length : Int)) :=
  ⟨Or.inl (by decide),
    (mips_dma_map_sg_no_failure_path (plat32 (.CPU_other 0) false) none
      sg_sample .DMA_TO_DEVICE).2 (Or.inl (by decide))⟩

/-- C8: for every device, coherent or not, every CPU type and every scatter
list, `mips_dma_unmap_sg` with `DMA_TO_DEVICE` issues no cache operation; its
only events are one `plat_unmap_dma_mem` call per visited entry, in list
order, with the entry's `dma_address` and `length`, and it returns. -/
theorem mips_dma_unmap_sg_to_device (P : Platform) (dev : DevPtr)
    (sg : List scatterlist) (nhwentries : Int) :
    mips_dma_unmap_sg P dev sg nhwentries .DMA_TO_DEVICE =
      ⟨(sg.take nhwentries.toNat).map fun e =>
          .plat_unmap_dma_mem dev e.dma_address e.length .DMA_TO_DEVICE,
        .returned ()⟩ ∧
    mips_dma_unmap_sg P dev sg sg.length .DMA_TO_DEVICE =
      ⟨sg.map fun e =>
          .plat_unmap_dma_mem dev e.dma_address e.length .DMA_TO_DEVICE,
        .returned ()⟩ ∧
    (mips_dma_unmap_sg P dev sg nhwentries .DMA_TO_DEVICE).cacheOps = [] := by
  have h := mips_dma_unmap_sg_loop_eq P dev
    (Or.inr rfl : P.plat_device_is_coherent dev = true ∨
      dma_data_direction.DMA_TO_DEVICE = .DMA_TO_DEVICE)
  refine ⟨h _, ?_, ?_⟩
  · have := h (sg.take (sg.length : Int).toNat)
    simpa [mips_dma_unmap_sg] using this
  · unfold Exec.cacheOps mips_dma_unmap_sg
    rw [h, List.filter_eq_nil_iff]
    intro e he
    obtain ⟨x, _, rfl⟩ := List.mem_map.1 he
    simp [Event.isCacheOp]

/-! ## Address round trip -/

theorem mips_dma_map_page_returned (P : Platform) (dev : DevPtr) (page : Page)
    (offset size : Nat) (direction : dma_data_direction) (a : Nat)
    (ha : (mips_dma_map_page P dev page offset size direction).result = .returned a) :
    a = dma_addr_add P (P.plat_map_dma_mem_page dev page) offset := by
  by_cases h : direction ≠ .DMA_NONE ∨ P.plat_device_is_coherent dev = true
  · rw [mips_dma_map_page_eq P dev page offset size h] at ha
    simpa using ha.symm
  · have hd : direction = .DMA_NONE := by
      by_contra hne; exact h (Or.inl hne)
    have hc : P.plat_device_is_coherent dev = false := by
      cases hcc : P.plat_device_is_coherent dev with
      | true => exact absurd (Or.inr hcc) h
      | false => rfl
    subst hd
    unfold mips_dma_map_page at ha
    simp only [hc, Bool.not_false, if_true] at ha
    rw [Exec.andThen_of_bug _ _ (__dma_sync_none P page offset size)] at ha
    simp at ha

/-- C9: address round trip.  On a platform that maps page `p` to a
page-aligned bus address and whose `plat_dma_addr_to_phys` sends every bus
address of the mapped page back to the physical address of the same byte,
for every offset below `PAGE_SIZE`, if `mips_dma_map_page` returns `a` for
`(p, offset)` then the pair that the unmap and sync paths recover from `a`,
`(dma_addr_to_page(dev, a), a & ~PAGE_MASK)`, is `(p, offset)`. -/
theorem map_page_address_round_trip (P : Platform) (dev : DevPtr) (p : Page)
    (offset size : Nat) (direction : dma_data_direction) (a : Nat)
    (hoff : offset < PAGE_SIZE P)
    (hbits : P.PAGE_SHIFT ≤ P.DMA_ADDR_BITS)
    (haligned : P.plat_map_dma_mem_page dev p % PAGE_SIZE P = 0)
    (hinv : ∀ off, off < PAGE_SIZE P →
      P.plat_dma_addr_to_phys dev
        (dma_addr_add P (P.plat_map_dma_mem_page dev p) off) =
        page_to_phys P p + off)
    (ha : (mips_dma_map_page P dev p offset size direction).result = .returned a) :
    (dma_addr_to_page P dev a, a &&& NOT_PAGE_MASK P) = (p, offset) := by
  have hval := mips_dma_map_page_returned P dev p offset size direction a ha
  subst hval
  have hps := PAGE_SIZE_pos P
  have hpage : dma_addr_to_page P dev
      (dma_addr_add P (P.plat_map_dma_mem_page dev p) offset) = p := by
    unfold dma_addr_to_page pfn_to_page
    rw [hinv offset hoff, Nat.shiftRight_eq_div_pow, page_to_phys,
      Nat.shiftLeft_eq, Nat.add_comm]
    unfold PAGE_SIZE at hoff hps
    rw [Nat.add_mul_div_right _ _ hps, Nat.div_eq_of_lt hoff, Nat.zero_add]
  have hofs : dma_addr_add P (P.plat_map_dma_mem_page dev p) offset &&&
      NOT_PAGE_MASK P = offset := by
    unfold NOT_PAGE_MASK PAGE_SIZE dma_addr_add
    unfold PAGE_SIZE at hoff haligned
    rw [Nat.and_pow_two_sub_one_eq_mod,
      Nat.mod_mod_of_dvd _ (pow_dvd_pow 2 hbits), Nat.add_mod, haligned,
      Nat.zero_add, Nat.mod_mod, Nat.mod_eq_of_lt hoff]
  rw [hpage, hofs]

/-- C9, at a concrete input: page 5 and offset 0x123 on the 32-bit platform
with identity translation. -/
theorem map_page_address_round_trip_witness :
    (0x123 < PAGE_SIZE (plat32 (.CPU_other 0) false) ∧
      (plat32 (.CPU_other 0) false).PAGE_SHIFT ≤
        (plat32 (.CPU_other 0) false).DMA_ADDR_BITS ∧
      (plat32 (.CPU_other 0) false).plat_map_dma_mem_page none 5 %
        PAGE_SIZE (plat32 (.CPU_other 0) false) = 0 ∧
      (∀ off, off < PAGE_SIZE (plat32 (.CPU_other 0) false) →
        (plat32 (.CPU_other 0) false).plat_dma_addr_to_phys none
          (dma_addr_add (plat32 (.CPU_other 0) false)
            ((plat32 (.CPU_other 0) false).plat_map_dma_mem_page none 5) off) =
          page_to_phys (plat32 (.CPU_other 0) false) 5 + off) ∧
      (mips_dma_map_page (plat32 (.CPU_other 0) false) none 5 0x123 64
        .DMA_TO_DEVICE).result = .returned 0x5123) ∧
    (dma_addr_to_page (plat32 (.CPU_other 0) false) none 0x5123,
      0x5123 &&& NOT_PAGE_MASK (plat32 (.CPU_other 0) false)) = (5, 0x123) :=
  have hinv : ∀ off, off < PAGE_SIZE (plat32 (.CPU_other 0) false) →
      (plat32 (.CPU_other 0) false).plat_dma_addr_to_phys none
        (dma_addr_add (plat32 (.CPU_other 0) false)
          ((plat32 (.CPU_other 0) false).plat_map_dma_mem_page none 5) off) =
        page_to_phys (plat32 (.CPU_other 0) false) 5 + off := by
    intro off hoff
    simp only [plat32, PAGE_SIZE, dma_addr_add, page_to_phys] at hoff ⊢
    rw [Nat.shiftLeft_eq]
    omega
  ⟨⟨by decide, by decide, by decide, hinv, by decide⟩,
    map_page_address_round_trip (plat32 (.CPU_other 0) false) none 5 0x123 64
      .DMA_TO_DEVICE 0x5123 (by decide) (by decide) (by decide) hinv
      (by decide)⟩

/-! ## Page-by-page synchronisation of high memory -/

/-- One pass of the loop on a high-memory page, for an offset inside the page
and a range that does not wrap: the window is mapped, one operation is
issued on the part of the range inside the page, the window is released. -/
theorem __dma_sync_body_highmem (P : Platform) (size : Nat)
    {direction : dma_data_direction} (hd : direction ≠ .DMA_NONE)
    (page : Page) (off left : Nat) (hm : P.PageHighMem page = true)
    (hoff : off < PAGE_SIZE P) (hfit : off + left < 2 ^ P.BITS_PER_LONG) :
    __dma_sync_body P size direction page off left =
      ⟨[.kmap_atomic page] ++
          (__dma_sync_virtual (ulong_add P (P.kmap_atomic page) off)
            (min left (PAGE_SIZE P - off)) direction).trace ++
          [.kunmap_atomic (P.kmap_atomic page)],
        .returned (page + 1, left - min left (PAGE_SIZE P - off))⟩ := by
  have hadd : ulong_add P off left = off + left := ulong_add_of_lt P hfit
  have hnorm : ¬ (off ≥ PAGE_SIZE P) := by omega
  unfold __dma_sync_body
  simp only [hm, if_true, hadd, hnorm, decide_False, Bool.and_false]
  by_cases hov : off + left > PAGE_SIZE P
  · have hlen : ulong_sub P (PAGE_SIZE P) off = PAGE_SIZE P - off :=
      ulong_sub_of_le P (Nat.le_of_lt hoff) (by omega)
    have hmin : min left (PAGE_SIZE P - off) = PAGE_SIZE P - off := by omega
    have hleft : ulong_sub P left (PAGE_SIZE P - off) = left - (PAGE_SIZE P - off) :=
      ulong_sub_of_le P (by omega) (by omega)
    simp [hov, hlen, hmin, hleft, Exec.andThen, Exec.emit, Exec.ret,
      __dma_sync_virtual_result _ _ hd]
  · have hmin : min left (PAGE_SIZE P - off) = left := by omega
    have hleft : ulong_sub P left left = left - left :=
      ulong_sub_of_le P (Nat.le_refl _) (by omega)
    simp [hov, hmin, hleft, Exec.andThen, Exec.emit, Exec.ret,
      __dma_sync_virtual_result _ _ hd]

theorem ulong_sub_self (P : Platform) (a : Nat) : ulong_sub P a a = 0 := by
  unfold ulong_sub
  have h := Nat.div_add_mod a (2 ^ P.BITS_PER_LONG)
  have hlt := Nat.mod_le a (2 ^ P.BITS_PER_LONG)
  have : a + 2 ^ P.BITS_PER_LONG - a % 2 ^ P.BITS_PER_LONG =
      2 ^ P.BITS_PER_LONG * (a / 2 ^ P.BITS_PER_LONG + 1) := by
    rw [Nat.mul_add, Nat.mul_one]; omega
  rw [this, Nat.mul_mod_right]

theorem lt_pages_spanned_iff (P : Platform) (offset size : Nat)
    (hoff : offset < PAGE_SIZE P) (hsize : 0 < size) (j : Nat) :
    j < pages_spanned P offset size ↔ j * PAGE_SIZE P < offset + size := by
  unfold pages_spanned
  rw [Nat.div_eq_of_lt hoff, Nat.sub_zero, Nat.lt_succ_iff,
    Nat.le_div_iff_mul_le (PAGE_SIZE_pos P)]
  omega

theorem __dma_sync_loop_highmem (P : Platform) (size0 : Nat)
    {direction : dma_data_direction} (hd : direction ≠ .DMA_NONE)
    (page : Page) (offset size : Nat) (hoff : offset < PAGE_SIZE P)
    (hsize : 0 < size) (hfit : offset + size < 2 ^ P.BITS_PER_LONG)
    (hhigh : ∀ i, i < pages_spanned P offset size →
      P.PageHighMem (page + i) = true) :
    ∀ (m i fuel : Nat), i + m = pages_spanned P offset size → 0 < m → m ≤ fuel →
      __dma_sync_loop P size0 direction fuel (page + i)
          (chunk_start P offset i - i * PAGE_SIZE P)
          (offset + size - chunk_start P offset i) =
        ⟨(List.range' i m).flatMap (highmem_pass P page offset size direction),
          .returned ()⟩ := by
  have hps := PAGE_SIZE_pos P
  intro m
  induction m with
  | zero => intro _ _ _ h; omega
  | succ m ih =>
    intro i fuel hk _ hfuel
    obtain ⟨f, rfl⟩ : ∃ f, fuel = f + 1 := ⟨fuel - 1, by omega⟩
    have hik : i * PAGE_SIZE P < offset + size :=
      (lt_pages_spanned_iff P offset size hoff hsize i).1 (by omega)
    have hnext := lt_pages_spanned_iff P offset size hoff hsize (i + 1)
    have hmul : (i + 1) * PAGE_SIZE P = i * PAGE_SIZE P + PAGE_SIZE P :=
      Nat.succ_mul _ _
    have hi0 : i * PAGE_SIZE P = 0 ∨ PAGE_SIZE P ≤ i * PAGE_SIZE P := by
      rcases Nat.eq_zero_or_pos i with h | h
      · left; simp [h]
      · right; exact Nat.le_mul_of_pos_left _ h
    unfold __dma_sync_loop
    rw [__dma_sync_body_highmem P size0 hd (page + i) _ _ (hhigh i (by omega))
      (by unfold chunk_start; omega) (by unfold chunk_start; omega)]
    have hlen : min (offset + size - chunk_start P offset i)
        (PAGE_SIZE P - (chunk_start P offset i - i * PAGE_SIZE P)) =
        chunk_end P offset size i - chunk_start P offset i := by
      unfold chunk_start chunk_end; omega
    rw [hlen]
    by_cases hlast : m = 0
    · subst hlast
      have hend : offset + size - chunk_start P offset i -
          (chunk_end P offset size i - chunk_start P offset i) = 0 := by
        have : ¬ (i + 1 < pages_spanned P offset size) := by omega
        rw [hnext] at this
        unfold chunk_start chunk_end; omega
      simp [Exec.andThen, Exec.ret, hend, highmem_pass]
    · have hlt : i + 1 < pages_spanned P offset size := by omega
      rw [hnext] at hlt
      have hrest : offset + size - chunk_start P offset i -
          (chunk_end P offset size i - chunk_start P offset i) =
          offset + size - chunk_start P offset (i + 1) := by
        unfold chunk_start chunk_end; omega
      have hpos : offset + size - chunk_start P offset (i + 1) ≠ 0 := by
        unfold chunk_start; omega
      have hzero : chunk_start P offset (i + 1) - (i + 1) * PAGE_SIZE P = 0 := by
        unfold chunk_start; omega
      have hih := ih (i + 1) f (by omega) (by omega) (by omega)
      rw [hzero, ← Nat.add_assoc] at hih
      simp only [Exec.andThen, hrest, ne_eq, hpos, not_false_eq_true, if_true, hih]
      simp [List.range'_succ, highmem_pass]

theorem __dma_sync_virtual_one_op (addr size : Nat)
    {direction : dma_data_direction} (hd : direction ≠ .DMA_NONE) :
    ((__dma_sync_virtual addr size direction).trace.filter Event.isCacheOp).length
      = 1 := by
  cases direction <;> simp_all [__dma_sync_virtual, Exec.emit, Event.isCacheOp]

theorem highmem_pass_one_op (P : Platform) (page : Page) (offset size : Nat)
    {direction : dma_data_direction} (hd : direction ≠ .DMA_NONE) (i : Nat) :
    ((highmem_pass P page offset size direction i).filter Event.isCacheOp).length
      = 1 := by
  unfold highmem_pass
  rw [List.filter_append, List.filter_append, List.length_append,
    List.length_append, __dma_sync_virtual_one_op _ _ hd]
  simp [Event.isCacheOp]

theorem flatMap_filter_length {α : Type} (F : α → List Event)
    (hF : ∀ i, ((F i).filter Event.isCacheOp).length = 1) (l : List α) :
    ((l.flatMap F).filter Event.isCacheOp).length = l.length := by
  induction l with
  | nil => rfl
  | cons x rest ih =>
    rw [List.flatMap_cons, List.filter_append, List.length_append, hF, ih,
      List.length_cons, Nat.add_comm]

theorem __dma_sync_lowmem (P : Platform) (page : Page) (offset size : Nat)
    {direction : dma_data_direction} (hd : direction ≠ .DMA_NONE)
    (hm : P.PageHighMem page = false) :
    __dma_sync P page offset size direction =
      ⟨(__dma_sync_virtual (ulong_add P (P.page_address page) offset) size
          direction).trace, .returned ()⟩ := by
  unfold __dma_sync __dma_sync_loop __dma_sync_body
  simp [hm, Exec.andThen, Exec.ret, __dma_sync_virtual_result _ _ hd,
    ulong_sub_self]

/-- C10, as stated, fails: for a low-memory page the byte range
`[0, 3 * PAGE_SIZE)` spans exactly 3 pages, and `__dma_sync` performs one
cache operation of `3 * PAGE_SIZE` bytes, which crosses two page
boundaries. -/
theorem __dma_sync_lowmem_three_pages_one_op :
    (plat32 (.CPU_other 0) false).PageHighMem 0x100 = false ∧
    pages_spanned (plat32 (.CPU_other 0) false) 0 (3 * 4096) = 3 ∧
    __dma_sync (plat32 (.CPU_other 0) false) 0x100 0 (3 * 4096) .DMA_TO_DEVICE =
      ⟨[.dma_cache_wback 0x80100000 (3 * 4096)], .returned ()⟩ := by
  decide

/-- C10, amended: with a direction other than `DMA_NONE`, for a run of
high-memory pages, an offset below `PAGE_SIZE` and a size above 0 with
`offset + size < 2 ^ BITS_PER_LONG`, when the byte range
`[offset, offset + size)` spans exactly k pages `__dma_sync` performs exactly
k cache operations, the i-th one on page `page + i` and on the non-empty part
of the range that lies inside that page; for a low-memory page it performs
exactly one cache operation, on `(page_address(page) + offset, size)`,
whatever the number of pages the range spans. -/
theorem __dma_sync_one_op_per_highmem_page (P : Platform) (page : Page)
    (offset size : Nat) (direction : dma_data_direction)
    (hd : direction ≠ .DMA_NONE) :
    ((∀ i, i < pages_spanned P offset size → P.PageHighMem (page + i) = true) →
      offset < PAGE_SIZE P → 0 < size → offset + size < 2 ^ P.BITS_PER_LONG →
      __dma_sync P page offset size direction =
        ⟨(List.range (pages_spanned P offset size)).flatMap
            (highmem_pass P page offset size direction), .returned ()⟩ ∧
      (__dma_sync P page offset size direction).cacheOps.length =
        pages_spanned P offset size ∧
      ∀ i, i < pages_spanned P offset size →
        i * PAGE_SIZE P ≤ chunk_start P offset i ∧
        chunk_start P offset i < chunk_end P offset size i ∧
        chunk_end P offset size i ≤ (i + 1) * PAGE_SIZE P) ∧
    (P.PageHighMem page = false →
      __dma_sync P page offset size direction =
        ⟨(__dma_sync_virtual (ulong_add P (P.page_address page) offset) size
            direction).trace, .returned ()⟩ ∧
      (__dma_sync P page offset size direction).cacheOps.length = 1) := by
  constructor
  · intro hhigh hoff hsize hfit
    have hps := PAGE_SIZE_pos P
    have hk : pages_spanned P offset size ≤ 2 ^ P.BITS_PER_LONG + 1 := by
      unfold pages_spanned
      have h1 := Nat.div_le_self (offset + size - 1) (PAGE_SIZE P)
      have h2 := Nat.sub_le ((offset + size - 1) / PAGE_SIZE P)
        (offset / PAGE_SIZE P)
      generalize (offset + size - 1) / PAGE_SIZE P - offset / PAGE_SIZE P = x at h2 ⊢
      generalize (offset + size - 1) / PAGE_SIZE P = y at h1 h2
      omega
    have hpos : 0 < pages_spanned P offset size := Nat.succ_pos _
    have hloop := __dma_sync_loop_highmem P size hd page offset size hoff hsize
      hfit hhigh (pages_spanned P offset size) 0 (2 ^ P.BITS_PER_LONG + 1)
      (by omega) hpos hk
    have h0 : chunk_start P offset 0 = offset := by
      unfold chunk_start; omega
    rw [h0, Nat.zero_mul, Nat.sub_zero, Nat.add_sub_cancel_left, Nat.add_zero,
      ← List.range_eq_range'] at hloop
    have heq : __dma_sync P page offset size direction =
        ⟨(List.range (pages_spanned P offset size)).flatMap
            (highmem_pass P page offset size direction), .returned ()⟩ := hloop
    refine ⟨heq, ?_, ?_⟩
    · unfold Exec.cacheOps
      rw [heq, flatMap_filter_length _ (highmem_pass_one_op P page offset size hd),
        List.length_range]
    · intro i hi
      have hik := (lt_pages_spanned_iff P offset size hoff hsize i).1 hi
      have hmul : (i + 1) * PAGE_SIZE P = i * PAGE_SIZE P + PAGE_SIZE P :=
        Nat.succ_mul _ _
      unfold chunk_start chunk_end
      omega
  · intro hm
    have heq := __dma_sync_lowmem P page offset size hd hm
    refine ⟨heq, ?_⟩
    unfold Exec.cacheOps
    rw [heq]
    exact __dma_sync_virtual_one_op _ _ hd

/-- C10, at a concrete input: the bytes `[100, 3 * 4096)` of three
high-memory pages. -/
theorem __dma_sync_one_op_per_highmem_page_witness :
    dma_data_direction.DMA_FROM_DEVICE ≠ .DMA_NONE ∧
    pages_spanned (plat32 (.CPU_other 0) false) 100 12188 = 3 ∧
    __dma_sync (plat32 (.CPU_other 0) false) 0x38000 100 12188 .DMA_FROM_DEVICE =
      ⟨[.kmap_atomic 0x38000, .dma_cache_inv 0xFE000064 3996,
          .kunmap_atomic 0xFE000000,
        .kmap_atomic 0x38001, .dma_cache_inv 0xFE001000 4096,
          .kunmap_atomic 0xFE001000,
        .kmap_atomic 0x38002, .dma_cache_inv 0xFE002000 4096,
          .kunmap_atomic 0xFE002000], .returned ()⟩ ∧
    (__dma_sync (plat32 (.CPU_other 0) false) 0x38000 100 12188
      .DMA_FROM_DEVICE).cacheOps.length =
      pages_spanned (plat32 (.CPU_other 0) false) 100 12188 :=
  ⟨by decide, by decide, by decide,
    ((__dma_sync_one_op_per_highmem_page (plat32 (.CPU_other 0) false) 0x38000
      100 12188 .DMA_FROM_DEVICE (by decide)).1
      (by
        intro i _
        simp [plat32])
      (by decide) (by decide) (by decide)).2.1⟩

/-! ## The platform hook of the device-direction synchronisation -/

theorem extra_sync_not_mem_of_sync_events (dev : DevPtr) (l : List Event)
    (h : ∀ e ∈ l, e.isSyncEvent = true) :
    Event.plat_extra_sync_for_device dev ∉ l := by
  intro hmem
  have := h _ hmem
  simp [Event.isSyncEvent] at this

theorem count_hook_cons (dev : DevPtr) (l : List Event)
    (h : ∀ e ∈ l, e.isSyncEvent = true) :
    (Event.plat_extra_sync_for_device dev :: l).count
      (Event.plat_extra_sync_for_device dev) = 1 := by
  rw [List.count_cons_self,
    List.count_eq_zero.2 (extra_sync_not_mem_of_sync_events dev l h)]

theorem cacheOps_hook_cons {α : Type} (dev : DevPtr) (l : List Event)
    (r : Outcome α) :
    (⟨Event.plat_extra_sync_for_device dev :: l, r⟩ : Exec α).cacheOps =
      l.filter Event.isCacheOp := by
  simp [Exec.cacheOps, Event.isCacheOp]

/-- C16, as stated, fails: called with `DMA_NONE`, `dma_cache_sync` stops in
`BUG_ON` before it calls `plat_extra_sync_for_device`, so the hook is not
called at all; `mips_dma_sync_single_for_device` calls the hook and then, for
a non-coherent device, stops in `BUG()` without any cache operation. -/
theorem dma_cache_sync_none_skips_hook :
    (plat32 (.CPU_other 0) false).plat_device_is_coherent none = false ∧
    dma_cache_sync (plat32 (.CPU_other 0) false) none 0x80001000 64 .DMA_NONE =
      ⟨[], .bug⟩ ∧
    mips_dma_sync_single_for_device (plat32 (.CPU_other 0) false) none 0x5123 64
      .DMA_NONE = ⟨[.plat_extra_sync_for_device none], .bug⟩ := by
  decide

/-- C16, amended: with every direction other than `DMA_NONE`,
`mips_dma_sync_single_for_device` and `dma_cache_sync` call
`plat_extra_sync_for_device(dev)` exactly once, as their first event, for
coherent and non-coherent devices alike, and return; the cache
synchronisation that follows (`__dma_sync`, resp. `__dma_sync_virtual`) is
issued if and only if the device is non-coherent.  With `DMA_NONE`,
`dma_cache_sync` stops in `BUG_ON` before the hook. -/
theorem extra_sync_hook_then_cache_sync (P : Platform) (dev : DevPtr)
    (dma_handle vaddr size : Nat) (direction : dma_data_direction) :
    (direction ≠ .DMA_NONE →
      mips_dma_sync_single_for_device P dev dma_handle size direction =
        ⟨.plat_extra_sync_for_device dev ::
            (if P.plat_device_is_coherent dev then []
              else (__dma_sync P (dma_addr_to_page P dev dma_handle)
                (dma_handle &&& NOT_PAGE_MASK P) size direction).trace),
          .returned ()⟩ ∧
      (mips_dma_sync_single_for_device P dev dma_handle size direction).trace.count
        (.plat_extra_sync_for_device dev) = 1 ∧
      ((mips_dma_sync_single_for_device P dev dma_handle size direction).cacheOps
          ≠ [] ↔ P.plat_device_is_coherent dev = false) ∧
      dma_cache_sync P dev vaddr size direction =
        ⟨.plat_extra_sync_for_device dev ::
            (if P.plat_device_is_coherent dev then []
              else (__dma_sync_virtual vaddr size direction).trace),
          .returned ()⟩ ∧
      (dma_cache_sync P dev vaddr size direction).trace.count
        (.plat_extra_sync_for_device dev) = 1 ∧
      ((dma_cache_sync P dev vaddr size direction).cacheOps ≠ [] ↔
        P.plat_device_is_coherent dev = false)) ∧
    dma_cache_sync P dev vaddr size .DMA_NONE = ⟨[], .bug⟩ := by
  constructor
  · intro hd
    have h1 : mips_dma_sync_single_for_device P dev dma_handle size direction =
        ⟨.plat_extra_sync_for_device dev ::
            (if P.plat_device_is_coherent dev then []
              else (__dma_sync P (dma_addr_to_page P dev dma_handle)
                (dma_handle &&& NOT_PAGE_MASK P) size direction).trace),
          .returned ()⟩ := by
      unfold mips_dma_sync_single_for_device
      cases hc : P.plat_device_is_coherent dev with
      | true => simp [Exec.andThen, Exec.emit, Exec.ret]
      | false =>
        simp [Exec.andThen, Exec.emit, __dma_sync_returns P _ _ _ hd]
    have h2 : dma_cache_sync P dev vaddr size direction =
        ⟨.plat_extra_sync_for_device dev ::
            (if P.plat_device_is_coherent dev then []
              else (__dma_sync_virtual vaddr size direction).trace),
          .returned ()⟩ := by
      unfold dma_cache_sync
      cases hc : P.plat_device_is_coherent dev with
      | true => simp [hd, Exec.andThen, Exec.emit, Exec.ret]
      | false =>
        simp [hd, Exec.andThen, Exec.emit, Exec.ret,
          __dma_sync_virtual_result _ _ hd]
    refine ⟨h1, ?_, ?_, h2, ?_, ?_⟩
    · rw [h1]
      apply count_hook_cons
      intro e he
      cases hc : P.plat_device_is_coherent dev with
      | true => simp [hc] at he
      | false =>
        simp only [hc, Bool.false_eq_true, if_false] at he
        exact __dma_sync_sync_events _ _ _ _ _ e he
    · rw [h1, cacheOps_hook_cons]
      cases hc : P.plat_device_is_coherent dev with
      | true => simp
      | false =>
        have := __dma_sync_cacheOps_ne_nil P (dma_addr_to_page P dev dma_handle)
          (dma_handle &&& NOT_PAGE_MASK P) size hd
        simp only [Bool.false_eq_true, if_false, ne_eq, iff_true]
        exact this
    · rw [h2]
      apply count_hook_cons
      intro e he
      cases hc : P.plat_device_is_coherent dev with
      | true => simp [hc] at he
      | false =>
        simp only [hc, Bool.false_eq_true, if_false] at he
        exact __dma_sync_virtual_sync_events _ _ _ e he
    · rw [h2, cacheOps_hook_cons]
      cases hc : P.plat_device_is_coherent dev with
      | true => simp
      | false =>
        have := __dma_sync_virtual_one_op vaddr size hd
        simp only [Bool.false_eq_true, if_false, ne_eq, iff_true]
        intro hnil
        rw [hnil] at this
        simp at this
  · simp [dma_cache_sync, Exec.andThen]

/-- C16, at a concrete input: a non-coherent device and `DMA_TO_DEVICE`. -/
theorem extra_sync_hook_then_cache_sync_witness :
    dma_data_direction.DMA_TO_DEVICE ≠ .DMA_NONE ∧
    mips_dma_sync_single_for_device (plat32 (.CPU_other 0) false) none 0x5123 64
        .DMA_TO_DEVICE =
      ⟨.plat_extra_sync_for_device none ::
          (if (plat32 (.CPU_other 0) false).plat_device_is_coherent none then []
            else (__dma_sync (plat32 (.CPU_other 0) false)
              (dma_addr_to_page (plat32 (.CPU_other 0) false) none 0x5123)
              (0x5123 &&& NOT_PAGE_MASK (plat32 (.CPU_other 0) false)) 64
              .DMA_TO_DEVICE).trace),
        .returned ()⟩ ∧
    dma_cache_sync (plat32 (.CPU_other 0) false) none 0x80001000 64
        .DMA_TO_DEVICE =
      ⟨[.plat_extra_sync_for_device none, .dma_cache_wback 0x80001000 64],
        .returned ()⟩ :=
  ⟨by decide,
    ((extra_sync_hook_then_cache_sync (plat32 (.CPU_other 0) false) none 0x5123
      0x80001000 64 .DMA_TO_DEVICE).1 (by decide)).1,
    by decide⟩

/-! ## Over-flushing after the normalisation of a large offset -/

/-- C17 at the failing input: a high-memory page, `offset = PAGE_SIZE` and
`size = 1`.  The first pass of `__dma_sync` normalises the offset to byte 0 of
the next page and sets `len = PAGE_SIZE`, more than the one byte that is
left: it operates on 4096 bytes and `left` wraps around to `2 ^ 32 - 4095`.
On the 16-bit platform, where the loop can be run to its end, 17 operations
cover `2 ^ 16 + 1` bytes instead of 1. -/
theorem __dma_sync_large_offset_overflush :
    (plat32 (.CPU_other 0) false).PageHighMem 0x38000 = true ∧
    __dma_sync_body (plat32 (.CPU_other 0) false) 1 .DMA_TO_DEVICE 0x38000 4096 1 =
      ⟨[.kmap_atomic 0x38001, .dma_cache_wback 0xFE001000 4096,
          .kunmap_atomic 0xFE001000],
        .returned (0x38002, 2 ^ 32 - 4095)⟩ ∧
    Event.dma_cache_wback 0xFE001000 4096 ∈
      (__dma_sync (plat32 (.CPU_other 0) false) 0x38000 4096 1 .DMA_TO_DEVICE).trace ∧
    (__dma_sync plat16 0 4096 1 .DMA_TO_DEVICE).result = .returned () ∧
    (__dma_sync plat16 0 4096 1 .DMA_TO_DEVICE).cacheOps.length = 17 ∧
    flushed_bytes (__dma_sync plat16 0 4096 1 .DMA_TO_DEVICE).trace = 2 ^ 16 + 1 := by
  have hbody : __dma_sync_body (plat32 (.CPU_other 0) false) 1 .DMA_TO_DEVICE
      0x38000 4096 1 =
      ⟨[.kmap_atomic 0x38001, .dma_cache_wback 0xFE001000 4096,
          .kunmap_atomic 0xFE001000],
        .returned (0x38002, 2 ^ 32 - 4095)⟩ := by decide
  refine ⟨by decide, hbody, ?_, by decide, by decide, by decide⟩
  unfold __dma_sync __dma_sync_loop
  rw [Exec.andThen_of_returned _ _ (0x38002, 2 ^ 32 - 4095) (by rw [hbody])]
  apply List.mem_append_left
  rw [hbody]
  decide

/-! ## Bracketed passes over high memory -/

/-- The first pass of the loop on a high-memory page, for any offset, when
`offset + size` does not wrap: one bracketed pass that stays inside one
page. -/
theorem __dma_sync_body_first (P : Platform) (size0 : Nat)
    {direction : dma_data_direction} (hd : direction ≠ .DMA_NONE)
    (page : Page) (offset left : Nat) (hm : P.PageHighMem page = true)
    (hfit : offset + left < 2 ^ P.BITS_PER_LONG) :
    ∃ (first off0 len0 left1 : Nat),
      __dma_sync_body P size0 direction page offset left =
        ⟨bracket P direction first off0 len0, .returned (first + 1, left1)⟩ ∧
      page ≤ first ∧ off0 + len0 ≤ PAGE_SIZE P ∧
      left1 < 2 ^ P.BITS_PER_LONG := by
  have hps := PAGE_SIZE_pos P
  have hadd : ulong_add P offset left = offset + left := ulong_add_of_lt P hfit
  by_cases hov : offset + left > PAGE_SIZE P
  · by_cases hnorm : offset ≥ PAGE_SIZE P
    · have hmod : offset &&& NOT_PAGE_MASK P < PAGE_SIZE P := by
        unfold NOT_PAGE_MASK PAGE_SIZE
        rw [Nat.and_pow_two_sub_one_eq_mod]
        exact Nat.mod_lt _ (Nat.two_pow_pos _)
      have hlen : ulong_sub P (PAGE_SIZE P) (offset &&& NOT_PAGE_MASK P) =
          PAGE_SIZE P - (offset &&& NOT_PAGE_MASK P) :=
        ulong_sub_of_le P (Nat.le_of_lt hmod) (by omega)
      refine ⟨page + (offset >>> P.PAGE_SHIFT), offset &&& NOT_PAGE_MASK P,
        PAGE_SIZE P - (offset &&& NOT_PAGE_MASK P),
        ulong_sub P left (PAGE_SIZE P - (offset &&& NOT_PAGE_MASK P)),
        ?_, Nat.le_add_right _ _, by omega, ulong_sub_lt _ _ _⟩
      unfold __dma_sync_body bracket
      simp [hm, hadd, hov, hnorm, hlen, Exec.andThen, Exec.emit, Exec.ret,
        __dma_sync_virtual_result _ _ hd]
    · refine ⟨page, offset, min left (PAGE_SIZE P - offset),
        left - min left (PAGE_SIZE P - offset), ?_, Nat.le_refl _, by omega,
        by omega⟩
      rw [__dma_sync_body_highmem P size0 hd page offset left hm (by omega) hfit]
      rfl
  · have hleft : ulong_sub P left left = 0 := ulong_sub_self P left
    refine ⟨page, offset, left, 0, ?_, Nat.le_refl _, by omega,
      Nat.two_pow_pos _⟩
    unfold __dma_sync_body bracket
    simp [hm, hadd, hov, hleft, Exec.andThen, Exec.emit, Exec.ret,
      __dma_sync_virtual_result _ _ hd]

/-- The passes after the first one, over a run of high-memory pages: bracketed
passes at offset 0 on successive pages, each inside one page. -/
theorem __dma_sync_loop_tail_brackets (P : Platform) (size0 : Nat)
    {direction : dma_data_direction} (hd : direction ≠ .DMA_NONE)
    (base : Page) (hhigh : ∀ q, base ≤ q → P.PageHighMem q = true) :
    ∀ (fuel : Nat) (page : Page) (left : Nat), base ≤ page → left < fuel →
      left < 2 ^ P.BITS_PER_LONG →
      ∃ lens : List Nat,
        __dma_sync_loop P size0 direction fuel page 0 left =
          ⟨brackets P direction page (lens.map fun l => (0, l)),
            .returned ()⟩ ∧
        (∀ l ∈ lens, l ≤ PAGE_SIZE P) ∧ lens.sum = left ∧ lens ≠ [] := by
  have hps := PAGE_SIZE_pos P
  intro fuel
  induction fuel with
  | zero => intro _ _ _ h; omega
  | succ n ih =>
    intro page left hpage hfuel hl
    unfold __dma_sync_loop
    rw [__dma_sync_body_highmem P size0 hd page 0 left (hhigh page hpage) hps
      (by omega)]
    simp only [Nat.sub_zero]
    by_cases h0 : left - min left (PAGE_SIZE P) = 0
    · refine ⟨[min left (PAGE_SIZE P)], ?_, ?_, ?_, by simp⟩
      · simp [Exec.andThen, Exec.ret, h0, brackets, bracket]
      · intro l hl'
        simp only [List.mem_singleton] at hl'
        omega
      · simp only [List.sum_cons, List.sum_nil]
        omega
    · obtain ⟨lens, heq, hle, hsum, _⟩ := ih (page + 1)
        (left - min left (PAGE_SIZE P)) (Nat.le_succ_of_le hpage) (by omega)
        (by omega)
      refine ⟨min left (PAGE_SIZE P) :: lens, ?_, ?_, ?_, by simp⟩
      · simp [Exec.andThen, h0, heq, brackets, bracket]
      · intro l hl'
        rcases List.mem_cons.1 hl' with h | h
        · omega
        · exact hle l h
      · simp only [List.sum_cons, hsum]
        omega

/-- C18: for a run of high-memory pages (a direction other than `DMA_NONE`
and a range whose end `offset + size` does not wrap around), the trace of
`__dma_sync` is a sequence of bracketed triples `kmap_atomic(page_i)`; one
cache operation on `(addr + off_i, len_i)`; `kunmap_atomic(addr)`, each
window released before the next is mapped, on successive pages, with
`off_i + len_i <= PAGE_SIZE` in every pass and `off_i = 0` in every pass
after the first; and the function returns. -/
theorem __dma_sync_highmem_bracketed (P : Platform) (page : Page)
    (offset size : Nat) (direction : dma_data_direction)
    (hd : direction ≠ .DMA_NONE)
    (hhigh : ∀ q, page ≤ q → P.PageHighMem q = true)
    (hfit : offset + size < 2 ^ P.BITS_PER_LONG) :
    ∃ (first off0 len0 : Nat) (lens : List Nat),
      __dma_sync P page offset size direction =
        ⟨brackets P direction first
            ((off0, len0) :: lens.map fun l => (0, l)),
          .returned ()⟩ ∧
      page ≤ first ∧ off0 + len0 ≤ PAGE_SIZE P ∧
      ∀ l ∈ lens, 0 + l ≤ PAGE_SIZE P := by
  obtain ⟨first, off0, len0, left1, hbody, hfirst, hin, hlt⟩ :=
    __dma_sync_body_first P size hd page offset size (hhigh page (Nat.le_refl _))
      hfit
  unfold __dma_sync __dma_sync_loop
  rw [hbody]
  by_cases h0 : left1 = 0
  · refine ⟨first, off0, len0, [], ?_, hfirst, hin, by simp⟩
    simp [Exec.andThen, Exec.ret, h0, brackets]
  · obtain ⟨lens, heq, hle, _, _⟩ := __dma_sync_loop_tail_brackets P size hd page
      hhigh (2 ^ P.BITS_PER_LONG) (first + 1) left1 (Nat.le_succ_of_le hfirst)
      hlt hlt
    refine ⟨first, off0, len0, lens, ?_, hfirst, hin, ?_⟩
    · simp [Exec.andThen, h0, heq, brackets]
    · intro l hl
      have := hle l hl
      omega

/-- C18, at a concrete input: the bytes `[100, 3 * 4096)` of three
high-memory pages. -/
theorem __dma_sync_highmem_bracketed_witness :
    dma_data_direction.DMA_FROM_DEVICE ≠ .DMA_NONE ∧
    (100 + 12188 < 2 ^ (plat32 (.CPU_other 0) false).BITS_PER_LONG) ∧
    (∃ (first off0 len0 : Nat) (lens : List Nat),
      __dma_sync (plat32 (.CPU_other 0) false) 0x38000 100 12188
          .DMA_FROM_DEVICE =
        ⟨brackets (plat32 (.CPU_other 0) false) .DMA_FROM_DEVICE first
            ((off0, len0) :: lens.map fun l => (0, l)),
          .returned ()⟩ ∧
      0x38000 ≤ first ∧ off0 + len0 ≤ PAGE_SIZE (plat32 (.CPU_other 0) false) ∧
      ∀ l ∈ lens, 0 + l ≤ PAGE_SIZE (plat32 (.CPU_other 0) false)) ∧
    __dma_sync (plat32 (.CPU_other 0) false) 0x38000 100 12188 .DMA_FROM_DEVICE =
      ⟨brackets (plat32 (.CPU_other 0) false) .DMA_FROM_DEVICE 0x38000
          [(100, 3996), (0, 4096), (0, 4096)], .returned ()⟩ :=
  ⟨by decide, by decide,
    __dma_sync_highmem_bracketed (plat32 (.CPU_other 0) false) 0x38000 100 12188
      .DMA_FROM_DEVICE (by decide) (by intro q hq; simp [plat32]; exact hq)
      (by decide),
    by decide⟩

/-! ## Termination and the number of passes -/

/-- Every pass through the loop body issues exactly one cache operation. -/
theorem __dma_sync_body_one_op (P : Platform) (size : Nat)
    {direction : dma_data_direction} (hd : direction ≠ .DMA_NONE)
    (page : Page) (offset left : Nat) :
    ((__dma_sync_body P size direction page offset left).trace.filter
      Event.isCacheOp).length = 1 := by
  unfold __dma_sync_body
  by_cases hm : P.PageHighMem page = true <;>
    cases direction <;>
    simp_all [Exec.andThen, Exec.emit, Exec.ret, __dma_sync_virtual,
      Event.isCacheOp]

/-- A pass entered with `offset = 0` either ends the loop or takes one whole
page off `left`. -/
theorem __dma_sync_body_tail_left (P : Platform) (size : Nat)
    {direction : dma_data_direction} (hd : direction ≠ .DMA_NONE)
    (page : Page) (left : Nat) (hl : left < 2 ^ P.BITS_PER_LONG) :
    ∃ st, (__dma_sync_body P size direction page 0 left).result = .returned st ∧
      (st.2 = 0 ∨ (PAGE_SIZE P < left ∧ st.2 = left - PAGE_SIZE P)) := by
  have hps := PAGE_SIZE_pos P
  by_cases hm : P.PageHighMem page = true
  · rw [__dma_sync_body_highmem P size hd page 0 left hm hps (by omega)]
    refine ⟨_, rfl, ?_⟩
    simp only [Nat.sub_zero]
    omega
  · refine ⟨(page + 1, 0), ?_, Or.inl rfl⟩
    unfold __dma_sync_body
    simp [hm, Exec.andThen, Exec.ret, __dma_sync_virtual_result _ _ hd,
      ulong_sub_self]

/-- The first pass, entered with an offset inside the page: it either ends
the loop or leaves what lies beyond the first page. -/
theorem __dma_sync_body_first_left (P : Platform) (size0 : Nat)
    {direction : dma_data_direction} (hd : direction ≠ .DMA_NONE)
    (page : Page) (offset size : Nat) (hoff : offset < PAGE_SIZE P)
    (hsize : size < 2 ^ P.BITS_PER_LONG) :
    ∃ st, (__dma_sync_body P size0 direction page offset size).result =
        .returned st ∧
      (st.2 = 0 ∨ (PAGE_SIZE P - offset < size ∧
        st.2 = size - (PAGE_SIZE P - offset))) := by
  have hW : 0 < 2 ^ P.BITS_PER_LONG := Nat.two_pow_pos _
  by_cases hm : P.PageHighMem page = true
  · have hnorm : ¬ (offset ≥ PAGE_SIZE P) := by omega
    by_cases hov : ulong_add P offset size > PAGE_SIZE P
    · have hmodlt : ulong_add P offset size < 2 ^ P.BITS_PER_LONG :=
        Nat.mod_lt _ hW
      have hlen : ulong_sub P (PAGE_SIZE P) offset = PAGE_SIZE P - offset :=
        ulong_sub_of_le P (Nat.le_of_lt hoff) (by omega)
      have hbig : PAGE_SIZE P - offset < size := by
        by_contra hcon
        have hsmall : offset + size < 2 ^ P.BITS_PER_LONG := by omega
        rw [ulong_add_of_lt P hsmall] at hov
        omega
      have hleft : ulong_sub P size (PAGE_SIZE P - offset) =
          size - (PAGE_SIZE P - offset) :=
        ulong_sub_of_le P (Nat.le_of_lt hbig) hsize
      refine ⟨(page + 1, size - (PAGE_SIZE P - offset)), ?_, Or.inr ⟨hbig, rfl⟩⟩
      unfold __dma_sync_body
      simp [hm, hov, hnorm, hlen, hleft, Exec.andThen, Exec.emit, Exec.ret,
        __dma_sync_virtual_result _ _ hd]
    · refine ⟨(page + 1, 0), ?_, Or.inl rfl⟩
      unfold __dma_sync_body
      simp [hm, hov, Exec.andThen, Exec.emit, Exec.ret,
        __dma_sync_virtual_result _ _ hd, ulong_sub_self]
  · refine ⟨(page + 1, 0), ?_, Or.inl rfl⟩
    unfold __dma_sync_body
    simp [hm, Exec.andThen, Exec.ret, __dma_sync_virtual_result _ _ hd,
      ulong_sub_self]

/-- The passes after the first one: at most one per page of what is left. -/
theorem __dma_sync_loop_tail_count (P : Platform) (size : Nat)
    {direction : dma_data_direction} (hd : direction ≠ .DMA_NONE) :
    ∀ (fuel : Nat) (page : Page) (left : Nat), 0 < left → left < fuel →
      left < 2 ^ P.BITS_PER_LONG →
      ((__dma_sync_loop P size direction fuel page 0 left).trace.filter
        Event.isCacheOp).length * PAGE_SIZE P < left + PAGE_SIZE P := by
  have hps := PAGE_SIZE_pos P
  intro fuel
  induction fuel with
  | zero => intro _ _ _ h; omega
  | succ n ih =>
    intro page left hpos hfuel hl
    obtain ⟨st, hst, hcase⟩ := __dma_sync_body_tail_left P size hd page left hl
    have hone := __dma_sync_body_one_op P size hd page 0 left
    unfold __dma_sync_loop
    rw [Exec.andThen_of_returned _ _ st hst]
    simp only [List.filter_append, List.length_append, hone]
    rcases hcase with h0 | ⟨hbig, hrest⟩
    · simp only [h0, ne_eq, not_true_eq_false, if_false, Exec.ret,
        List.filter_nil, List.length_nil, Nat.add_zero, Nat.one_mul]
      omega
    · have hne : st.2 ≠ 0 := by omega
      have hih := ih st.1 st.2 (by omega) (by omega) (by omega)
      simp only [ne_eq, hne, not_false_eq_true, if_true]
      rw [Nat.add_mul, Nat.one_mul]
      omega

/-- C19: `__dma_sync` terminates for every page, every offset below
`PAGE_SIZE` and every size (the iteration budget of the model is never used
up, whatever the direction); with a direction other than `DMA_NONE` it
returns, and the number of passes through the loop, each of which issues
exactly one cache operation, is at least 1 and at most the number of pages
that `[offset, offset + size)` touches (1 for an empty range); for
`size = 0` the body runs exactly once, with a zero-length operation. -/
theorem __dma_sync_terminates_within_pages (P : Platform) (page : Page)
    (offset size : Nat) (direction : dma_data_direction)
    (hoff : offset < PAGE_SIZE P) (hsize : size < 2 ^ P.BITS_PER_LONG) :
    (__dma_sync P page offset size direction).result ≠ .out_of_fuel ∧
    (direction ≠ .DMA_NONE →
      (__dma_sync P page offset size direction).result = .returned () ∧
      1 ≤ (__dma_sync P page offset size direction).cacheOps.length ∧
      (__dma_sync P page offset size direction).cacheOps.length ≤
        pages_spanned P offset size ∧
      (size = 0 →
        __dma_sync P page offset size direction =
          if P.PageHighMem page then
            ⟨bracket P direction page offset 0, .returned ()⟩
          else
            ⟨(__dma_sync_virtual (ulong_add P (P.page_address page) offset) 0
              direction).trace, .returned ()⟩)) := by
  have hps := PAGE_SIZE_pos P
  constructor
  · by_cases hd : direction = .DMA_NONE
    · subst hd
      rw [__dma_sync_none]
      simp
    · rw [__dma_sync_returns P page offset size hd]
      simp
  · intro hd
    refine ⟨__dma_sync_returns P page offset size hd, ?_, ?_, ?_⟩
    · have := __dma_sync_cacheOps_ne_nil P page offset size hd
      exact Nat.pos_of_ne_zero fun h => this (List.length_eq_zero.1 h)
    · obtain ⟨st, hst, hcase⟩ :=
        __dma_sync_body_first_left P size hd page offset size hoff hsize
      have hone := __dma_sync_body_one_op P size hd page offset size
      have hspan : pages_spanned P offset size =
          (offset + size - 1) / PAGE_SIZE P + 1 := by
        unfold pages_spanned
        rw [Nat.div_eq_of_lt hoff, Nat.sub_zero]
      unfold Exec.cacheOps __dma_sync __dma_sync_loop
      rw [Exec.andThen_of_returned _ _ st hst, hspan]
      simp only [List.filter_append, List.length_append, hone]
      rcases hcase with h0 | ⟨hbig, hrest⟩
      · simp only [h0, ne_eq, not_true_eq_false, if_false, Exec.ret,
          List.filter_nil, List.length_nil, Nat.add_zero]
        exact Nat.le_add_left 1 _
      · have hne : st.2 ≠ 0 := by omega
        have hcount := __dma_sync_loop_tail_count P size hd
          (2 ^ P.BITS_PER_LONG) st.1 st.2 (by omega) (by omega) (by omega)
        simp only [ne_eq, hne, not_false_eq_true, if_true]
        have hle : ((__dma_sync_loop P size direction (2 ^ P.BITS_PER_LONG) st.1 0
            st.2).trace.filter Event.isCacheOp).length ≤
            (offset + size - 1) / PAGE_SIZE P := by
          rw [Nat.le_div_iff_mul_le hps]
          omega
        generalize (offset + size - 1) / PAGE_SIZE P = k at hle ⊢
        omega
    · intro h0
      subst h0
      have hadd : ¬ (ulong_add P offset 0 > PAGE_SIZE P) := by
        unfold ulong_add
        have := Nat.mod_le (offset + 0) (2 ^ P.BITS_PER_LONG)
        omega
      unfold __dma_sync __dma_sync_loop __dma_sync_body bracket
      by_cases hm : P.PageHighMem page = true
      · simp [hm, hadd, Exec.andThen, Exec.emit, Exec.ret,
          __dma_sync_virtual_result _ _ hd, ulong_sub_self]
      · simp [hm, Exec.andThen, Exec.ret, __dma_sync_virtual_result _ _ hd,
          ulong_sub_self]

/-- C19, at concrete inputs: an empty range and a range over three
high-memory pages. -/
theorem __dma_sync_terminates_within_pages_witness :
    (100 < PAGE_SIZE (plat32 (.CPU_other 0) false) ∧
      12188 < 2 ^ (plat32 (.CPU_other 0) false).BITS_PER_LONG) ∧
    ((__dma_sync (plat32 (.CPU_other 0) false) 0x38000 100 12188
        .DMA_TO_DEVICE).result ≠ .out_of_fuel ∧
      (dma_data_direction.DMA_TO_DEVICE ≠ .DMA_NONE →
        (__dma_sync (plat32 (.CPU_other 0) false) 0x38000 100 12188
          .DMA_TO_DEVICE).result = .returned () ∧
        1 ≤ (__dma_sync (plat32 (.CPU_other 0) false) 0x38000 100 12188
          .DMA_TO_DEVICE).cacheOps.length ∧
        (__dma_sync (plat32 (.CPU_other 0) false) 0x38000 100 12188
          .DMA_TO_DEVICE).cacheOps.length ≤
          pages_spanned (plat32 (.CPU_other 0) false) 100 12188 ∧
        (12188 = 0 →
          __dma_sync (plat32 (.CPU_other 0) false) 0x38000 100 12188
              .DMA_TO_DEVICE =
            if (plat32 (.CPU_other 0) false).PageHighMem 0x38000 then
              ⟨bracket (plat32 (.CPU_other 0) false) .DMA_TO_DEVICE 0x38000 100
                0, .returned ()⟩
            else
              ⟨(__dma_sync_virtual
                (ulong_add (plat32 (.CPU_other 0) false)
                  ((plat32 (.CPU_other 0) false).page_address 0x38000) 100) 0
                .DMA_TO_DEVICE).trace, .returned ()⟩))) ∧
    __dma_sync (plat32 (.CPU_other 0) false) 0x38000 100 0 .DMA_TO_DEVICE =
      ⟨[.kmap_atomic 0x38000, .dma_cache_wback 0xFE000064 0,
        .kunmap_atomic 0xFE000000], .returned ()⟩ :=
  ⟨⟨by decide, by decide⟩,
    __dma_sync_terminates_within_pages (plat32 (.CPU_other 0) false) 0x38000 100
      12188 .DMA_TO_DEVICE (by decide) (by decide),
    by decide⟩

/-! ## Flags of the page allocation -/

theorem testBit_of_and_eq_zero {a b : Nat} (h : a &&& b = 0) (i : Nat) :
    (a.testBit i && b.testBit i) = false := by
  rw [← Nat.testBit_and, h, Nat.zero_testBit]

theorem testBit_lt_of_lt {a : Nat} (h : a < 2 ^ 32) (i : Nat)
    (hi : a.testBit i = true) : i < 32 := by
  by_contra hge
  have hle : 2 ^ 32 ≤ 2 ^ i := Nat.pow_le_pow_right (by decide) (by omega)
  have := Nat.testBit_lt_two_pow (Nat.lt_of_lt_of_le h hle)
  rw [this] at hi
  exact Bool.noConfusion hi

theorem testBit_gfp_not (x i : Nat) :
    (gfp_not x).testBit i = (decide (i < 32) != x.testBit i) := by
  unfold gfp_not
  rw [Nat.testBit_xor, Nat.testBit_two_pow_sub_one]

/-- The bits of `(gfp & ~(DMA | DMA32 | HIGHMEM)) | NORETRY | zone`, for a zone
that is 0, `__GFP_DMA` or `__GFP_DMA32`. -/
theorem massaged_bits (A : Allocator) (hwf : gfp_flags_disjoint A) (gfp z : Nat)
    (hz : z = 0 ∨ z = A.__GFP_DMA ∨ z = A.__GFP_DMA32) :
    ((gfp &&& gfp_not (A.__GFP_DMA ||| A.__GFP_DMA32 ||| A.__GFP_HIGHMEM)) |||
        A.__GFP_NORETRY ||| z) &&& A.__GFP_NORETRY = A.__GFP_NORETRY ∧
    ((gfp &&& gfp_not (A.__GFP_DMA ||| A.__GFP_DMA32 ||| A.__GFP_HIGHMEM)) |||
        A.__GFP_NORETRY ||| z) &&& A.__GFP_HIGHMEM = 0 ∧
    ((gfp &&& gfp_not (A.__GFP_DMA ||| A.__GFP_DMA32 ||| A.__GFP_HIGHMEM)) |||
        A.__GFP_NORETRY ||| z) &&& (A.__GFP_DMA ||| A.__GFP_DMA32) = z := by
  obtain ⟨hD, hD32, hH, _, hDH, hD32H, hNH, hDD32, hND, hND32⟩ := hwf
  refine ⟨?_, ?_, ?_⟩ <;> apply Nat.eq_of_testBit_eq <;> intro i <;>
    simp only [Nat.testBit_and, Nat.testBit_or, testBit_gfp_not,
      Nat.zero_testBit]
  all_goals
    have h1 := testBit_of_and_eq_zero hDH i
    have h2 := testBit_of_and_eq_zero hD32H i
    have h3 := testBit_of_and_eq_zero hNH i
    have h4 := testBit_of_and_eq_zero hDD32 i
    have h5 := testBit_of_and_eq_zero hND i
    have h6 := testBit_of_and_eq_zero hND32 i
    have b1 := testBit_lt_of_lt hD i
    have b2 := testBit_lt_of_lt hD32 i
    have b3 := testBit_lt_of_lt hH i
    rcases hz with rfl | rfl | rfl
    all_goals
      simp only [Nat.zero_testBit] at *
      cases hg : gfp.testBit i <;> cases hd : A.__GFP_DMA.testBit i <;>
        cases hd32 : A.__GFP_DMA32.testBit i <;>
        cases hh : A.__GFP_HIGHMEM.testBit i <;>
        cases hn : A.__GFP_NORETRY.testBit i <;>
        simp_all

theorem massage_gfp_flags_form (A : Allocator) (dev : DevPtr) :
    ∃ z, (z = 0 ∨ z = A.__GFP_DMA ∨ z = A.__GFP_DMA32) ∧
      ∀ g, massage_gfp_flags A dev g =
        (g &&& gfp_not (A.__GFP_DMA ||| A.__GFP_DMA32 ||| A.__GFP_HIGHMEM)) |||
          A.__GFP_NORETRY ||| z := by
  cases dev with
  | none => exact ⟨A.__GFP_DMA, Or.inr (Or.inl rfl), fun g => rfl⟩
  | some d =>
    unfold massage_gfp_flags
    cases A.CONFIG_ZONE_DMA32 <;> cases A.CONFIG_ZONE_DMA <;>
      by_cases h32 : d.coherent_dma_mask < DMA_BIT_MASK 32 <;>
      by_cases h64 : d.coherent_dma_mask < DMA_BIT_MASK 64 <;>
      simp [h32, h64]

theorem massage_gfp_flags_both_zones (A : Allocator) (dev : DevPtr) (gfp : Nat)
    (hdma : A.CONFIG_ZONE_DMA = true) (hdma32 : A.CONFIG_ZONE_DMA32 = true) :
    massage_gfp_flags A dev gfp =
      (gfp &&& gfp_not (A.__GFP_DMA ||| A.__GFP_DMA32 ||| A.__GFP_HIGHMEM)) |||
        A.__GFP_NORETRY ||| zone_for_mask A dev := by
  cases dev with
  | none => rfl
  | some d => simp [massage_gfp_flags, zone_for_mask, hdma, hdma32]

/-- C13: `massage_gfp_flags(dev, gfp)` is `gfp` with `__GFP_DMA`, `__GFP_DMA32`
and `__GFP_HIGHMEM` cleared, or-ed with `__GFP_NORETRY` and with a zone that
is 0, `__GFP_DMA` or `__GFP_DMA32` and does not depend on `gfp`; with both
DMA zones configured the zone is `__GFP_DMA` for a NULL device or a mask
below `DMA_BIT_MASK(32)`, `__GFP_DMA32` from `DMA_BIT_MASK(32)` up to below
`DMA_BIT_MASK(64)` and 0 otherwise, which is monotone in the mask.  Hence
the result always has `__GFP_NORETRY`, never `__GFP_HIGHMEM`, at most one
zone flag, is the same for two requests that differ in the zone flags only
and for two devices with the same mask, and a device with a 32-bit mask gets
`__GFP_DMA32`. -/
theorem massage_gfp_flags_zone (A : Allocator) (dev : DevPtr) (gfp : Nat)
    (hwf : gfp_flags_disjoint A) :
    (∃ z, (z = 0 ∨ z = A.__GFP_DMA ∨ z = A.__GFP_DMA32) ∧
      ∀ g, massage_gfp_flags A dev g =
        (g &&& gfp_not (A.__GFP_DMA ||| A.__GFP_DMA32 ||| A.__GFP_HIGHMEM)) |||
          A.__GFP_NORETRY ||| z) ∧
    (A.CONFIG_ZONE_DMA = true → A.CONFIG_ZONE_DMA32 = true →
      massage_gfp_flags A dev gfp =
        (gfp &&& gfp_not (A.__GFP_DMA ||| A.__GFP_DMA32 ||| A.__GFP_HIGHMEM)) |||
          A.__GFP_NORETRY ||| zone_for_mask A dev) ∧
    massage_gfp_flags A dev gfp &&& A.__GFP_NORETRY = A.__GFP_NORETRY ∧
    massage_gfp_flags A dev gfp &&& A.__GFP_HIGHMEM = 0 ∧
    (massage_gfp_flags A dev gfp &&& (A.__GFP_DMA ||| A.__GFP_DMA32) = 0 ∨
      massage_gfp_flags A dev gfp &&& (A.__GFP_DMA ||| A.__GFP_DMA32) =
        A.__GFP_DMA ∨
      massage_gfp_flags A dev gfp &&& (A.__GFP_DMA ||| A.__GFP_DMA32) =
        A.__GFP_DMA32) ∧
    (∀ g,
      g &&& gfp_not (A.__GFP_DMA ||| A.__GFP_DMA32 ||| A.__GFP_HIGHMEM) =
        gfp &&& gfp_not (A.__GFP_DMA ||| A.__GFP_DMA32 ||| A.__GFP_HIGHMEM) →
      massage_gfp_flags A dev g = massage_gfp_flags A dev gfp) ∧
    (∀ d1 d2 : device, d1.coherent_dma_mask = d2.coherent_dma_mask →
      massage_gfp_flags A (some d1) gfp = massage_gfp_flags A (some d2) gfp) ∧
    (∀ d : device, zone_for_mask A (some d) =
      if zone_level d.coherent_dma_mask = 2 then A.__GFP_DMA
      else if zone_level d.coherent_dma_mask = 1 then A.__GFP_DMA32 else 0) ∧
    (∀ m1 m2 : Nat, m1 ≤ m2 → zone_level m2 ≤ zone_level m1) ∧
    (A.CONFIG_ZONE_DMA = true → A.CONFIG_ZONE_DMA32 = true →
      ∀ d : device, d.coherent_dma_mask = DMA_BIT_MASK 32 →
        massage_gfp_flags A (some d) gfp &&& (A.__GFP_DMA ||| A.__GFP_DMA32) =
          A.__GFP_DMA32) := by
  obtain ⟨z, hz, hform⟩ := massage_gfp_flags_form A dev
  have hbits := massaged_bits A hwf gfp z hz
  refine ⟨⟨z, hz, hform⟩, massage_gfp_flags_both_zones A dev gfp, ?_, ?_, ?_, ?_,
    ?_, ?_, ?_, ?_⟩
  · rw [hform]; exact hbits.1
  · rw [hform]; exact hbits.2.1
  · rw [hform, hbits.2.2]
    rcases hz with h | h | h
    · exact Or.inl h
    · exact Or.inr (Or.inl h)
    · exact Or.inr (Or.inr h)
  · intro g hg
    rw [hform, hform, hg]
  · intro d1 d2 h
    simp [massage_gfp_flags, h]
  · intro d
    unfold zone_for_mask zone_level
    by_cases h32 : d.coherent_dma_mask < DMA_BIT_MASK 32 <;>
      by_cases h64 : d.coherent_dma_mask < DMA_BIT_MASK 64 <;>
      simp [h32, h64]
  · intro m1 m2 h
    unfold zone_level DMA_BIT_MASK
    split_ifs <;> omega
  · intro hdma hdma32 d hd
    rw [massage_gfp_flags_both_zones A (some d) gfp hdma hdma32]
    have hzone : zone_for_mask A (some d) = A.__GFP_DMA32 := by
      simp [zone_for_mask, hd, DMA_BIT_MASK]
    rw [hzone]
    exact (massaged_bits A hwf gfp A.__GFP_DMA32 (Or.inr (Or.inr rfl))).2.2

/-- C13, at a concrete input: the flag values of `linux/gfp.h`, a device with
a 32-bit mask and a request that carries `__GFP_HIGHMEM` and `__GFP_DMA`. -/
theorem massage_gfp_flags_zone_witness :
    gfp_flags_disjoint (alloc32 false false 0) ∧
    massage_gfp_flags (alloc32 false false 0) (some ⟨1, 0xFFFFFFFF⟩) 0xD3 =
      0x10D4 ∧
    massage_gfp_flags (alloc32 false false 0) (some ⟨1, 0xFFFFFFFF⟩) 0xD3 &&&
      (alloc32 false false 0).__GFP_HIGHMEM = 0 :=
  have hwf : gfp_flags_disjoint (alloc32 false false 0) := by
    unfold gfp_flags_disjoint alloc32
    decide
  ⟨hwf, by decide,
    (massage_gfp_flags_zone (alloc32 false false 0) (some ⟨1, 0xFFFFFFFF⟩) 0xD3
      hwf).2.2.2.1⟩

/-! ## Allocation -/

theorem memset_zero (mem : Memory) (addr size i : Nat) (hi : i < size) :
    memset mem addr 0 size (addr + i) = 0 := by
  unfold memset
  simp [hi]

theorem mips_dma_alloc_coherent_served (P : Platform) (A : Allocator)
    (dev : DevPtr) (size gfp : Nat) (mem : Memory)
    (h : (A.dma_alloc_from_coherent dev size mem).served = true) :
    (mips_dma_alloc_coherent P A dev size gfp mem).ret =
        (A.dma_alloc_from_coherent dev size mem).ret ∧
    (mips_dma_alloc_coherent P A dev size gfp mem).mem =
        (A.dma_alloc_from_coherent dev size mem).mem ∧
    (mips_dma_alloc_coherent P A dev size gfp mem).trace =
        [.dma_alloc_from_coherent dev size] := by
  simp [mips_dma_alloc_coherent, h]

theorem mips_dma_alloc_coherent_pages (P : Platform) (A : Allocator)
    (dev : DevPtr) (size gfp : Nat) (mem : Memory)
    (hpool : (A.dma_alloc_from_coherent dev size mem).served = false)
    (hp : A.__get_free_pages (massage_gfp_flags A dev gfp) (A.get_order size) ≠ 0) :
    (mips_dma_alloc_coherent P A dev size gfp mem).mem =
      memset (A.dma_alloc_from_coherent dev size mem).mem
        (buffer_address P A
          (A.__get_free_pages (massage_gfp_flags A dev gfp) (A.get_order size)))
        0 size ∧
    (mips_dma_alloc_coherent P A dev size gfp mem).ret =
      (if !P.plat_device_is_coherent dev then
        if !A.CONFIG_MAPPED_KERNEL then
          A.UNCAC_ADDR (buffer_address P A
            (A.__get_free_pages (massage_gfp_flags A dev gfp) (A.get_order size)))
        else
          A.ioremap (A.plat_map_dma_mem dev (buffer_address P A
            (A.__get_free_pages (massage_gfp_flags A dev gfp) (A.get_order size)))
            size) size
      else
        buffer_address P A
          (A.__get_free_pages (massage_gfp_flags A dev gfp) (A.get_order size))) := by
  unfold mips_dma_alloc_coherent
  simp only [hpool, Bool.false_eq_true, if_false, ne_eq, hp, not_false_eq_true,
    if_true]
  cases P.plat_device_is_coherent dev <;> cases A.CONFIG_MAPPED_KERNEL <;> simp

/-- C11: every buffer that `dma_alloc_noncoherent` or
`mips_dma_alloc_coherent` returns non-NULL has all of its first `size` bytes
equal to zero when it is returned, for every device, size and gfp flags.  A
buffer from the page allocator is zero-filled by the `memset` of the
function: it lies at the address from the page allocator, displaced by the
RAM shadow where that is compiled in, and is returned through that address
(coherent device), its uncached alias or its `ioremap`.  A buffer served by
the per-device pool is returned at the address and with the memory that
`dma_alloc_from_coherent` left, and that helper zero-fills what it serves. -/
theorem alloc_returns_zeroed_buffer (P : Platform) (A : Allocator) (dev : DevPtr)
    (size gfp : Nat) (mem : Memory)
    (hzero : (A.dma_alloc_from_coherent dev size mem).served = true →
      ∀ i, i < size →
        (A.dma_alloc_from_coherent dev size mem).mem
          ((A.dma_alloc_from_coherent dev size mem).ret + i) = 0) :
    ((dma_alloc_noncoherent A dev size gfp mem).ret ≠ 0 →
      ∀ i, i < size →
        (dma_alloc_noncoherent A dev size gfp mem).mem
          ((dma_alloc_noncoherent A dev size gfp mem).ret + i) = 0) ∧
    ((A.dma_alloc_from_coherent dev size mem).served = false →
      A.__get_free_pages (massage_gfp_flags A dev gfp) (A.get_order size) ≠ 0 →
      (∀ i, i < size →
        (mips_dma_alloc_coherent P A dev size gfp mem).mem
          (buffer_address P A
            (A.__get_free_pages (massage_gfp_flags A dev gfp) (A.get_order size))
            + i) = 0) ∧
      (mips_dma_alloc_coherent P A dev size gfp mem).ret =
        (if !P.plat_device_is_coherent dev then
          if !A.CONFIG_MAPPED_KERNEL then
            A.UNCAC_ADDR (buffer_address P A
              (A.__get_free_pages (massage_gfp_flags A dev gfp)
                (A.get_order size)))
          else
            A.ioremap (A.plat_map_dma_mem dev (buffer_address P A
              (A.__get_free_pages (massage_gfp_flags A dev gfp)
                (A.get_order size))) size) size
        else
          buffer_address P A
            (A.__get_free_pages (massage_gfp_flags A dev gfp)
              (A.get_order size))) ∧
      (P.plat_device_is_coherent dev = true →
        ∀ i, i < size →
          (mips_dma_alloc_coherent P A dev size gfp mem).mem
            ((mips_dma_alloc_coherent P A dev size gfp mem).ret + i) = 0)) ∧
    ((A.dma_alloc_from_coherent dev size mem).served = true →
      (mips_dma_alloc_coherent P A dev size gfp mem).ret =
          (A.dma_alloc_from_coherent dev size mem).ret ∧
      (mips_dma_alloc_coherent P A dev size gfp mem).mem =
          (A.dma_alloc_from_coherent dev size mem).mem ∧
      (mips_dma_alloc_coherent P A dev size gfp mem).trace =
          [.dma_alloc_from_coherent dev size] ∧
      ∀ i, i < size →
        (mips_dma_alloc_coherent P A dev size gfp mem).mem
          ((mips_dma_alloc_coherent P A dev size gfp mem).ret + i) = 0) := by
  refine ⟨?_, ?_, ?_⟩
  · intro hret i hi
    unfold dma_alloc_noncoherent at hret ⊢
    by_cases hp : A.__get_free_pages (massage_gfp_flags A dev gfp)
        (A.get_order size) = 0
    · simp [hp] at hret
    · simp only [ne_eq, hp, not_false_eq_true, if_true]
      exact memset_zero _ _ _ _ hi
  · intro hpool hp
    obtain ⟨hmem, hret⟩ := mips_dma_alloc_coherent_pages P A dev size gfp mem hpool hp
    refine ⟨?_, hret, ?_⟩
    · intro i hi
      rw [hmem]
      exact memset_zero _ _ _ _ hi
    · intro hc i hi
      rw [hret, hmem]
      simp only [hc, Bool.not_true, Bool.false_eq_true, if_false]
      exact memset_zero _ _ _ _ hi
  · intro hserved
    obtain ⟨hret, hmem, htrace⟩ :=
      mips_dma_alloc_coherent_served P A dev size gfp mem hserved
    refine ⟨hret, hmem, htrace, ?_⟩
    intro i hi
    rw [hret, hmem]
    exact hzero hserved i hi

/-- C11, at concrete inputs, in memory filled with `0xAA`: 100 bytes for a
device that the per-device pool serves, and 100 bytes for a non-coherent
device that the pool does not serve. -/
theorem alloc_returns_zeroed_buffer_witness :
    (((alloc32 false false 0).dma_alloc_from_coherent (some ⟨7, 0xFFFFFFFF⟩) 100
        (fun _ => 0xAA)).served = true ∧
      (mips_dma_alloc_coherent (plat32 (.CPU_other 0) false)
        (alloc32 false false 0) (some ⟨7, 0xFFFFFFFF⟩) 100 0xD0
        (fun _ => 0xAA)).ret = 0xA8000000 ∧
      ∀ i, i < 100 →
        (mips_dma_alloc_coherent (plat32 (.CPU_other 0) false)
          (alloc32 false false 0) (some ⟨7, 0xFFFFFFFF⟩) 100 0xD0
          (fun _ => 0xAA)).mem
          ((mips_dma_alloc_coherent (plat32 (.CPU_other 0) false)
            (alloc32 false false 0) (some ⟨7, 0xFFFFFFFF⟩) 100 0xD0
            (fun _ => 0xAA)).ret + i) = 0) ∧
    ((alloc32 false false 0).dma_alloc_from_coherent (some ⟨1, 0xFFFFFFFF⟩) 100
      (fun _ => 0xAA)).served = false ∧
    (alloc32 false false 0).__get_free_pages
      (massage_gfp_flags (alloc32 false false 0) (some ⟨1, 0xFFFFFFFF⟩) 0xD0)
      ((alloc32 false false 0).get_order 100) ≠ 0 ∧
    (∀ i, i < 100 →
      (mips_dma_alloc_coherent (plat32 (.CPU_other 0) false)
        (alloc32 false false 0) (some ⟨1, 0xFFFFFFFF⟩) 100 0xD0
        (fun _ => 0xAA)).mem
        (buffer_address (plat32 (.CPU_other 0) false) (alloc32 false false 0)
          ((alloc32 false false 0).__get_free_pages
            (massage_gfp_flags (alloc32 false false 0) (some ⟨1, 0xFFFFFFFF⟩)
              0xD0)
            ((alloc32 false false 0).get_order 100)) + i) = 0) ∧
    (mips_dma_alloc_coherent (plat32 (.CPU_other 0) false) (alloc32 false false 0)
      (some ⟨1, 0xFFFFFFFF⟩) 100 0xD0 (fun _ => 0xAA)).ret = 0xA1000000 :=
  ⟨⟨by decide, by decide,
      ((alloc_returns_zeroed_buffer (plat32 (.CPU_other 0) false)
        (alloc32 false false 0) (some ⟨7, 0xFFFFFFFF⟩) 100 0xD0 (fun _ => 0xAA)
        (fun _ i hi => memset_zero (fun _ => 0xAA) 0xA8000000 100 i hi)).2.2
        (by decide)).2.2.2⟩,
    by decide, by decide,
    ((alloc_returns_zeroed_buffer (plat32 (.CPU_other 0) false)
      (alloc32 false false 0) (some ⟨1, 0xFFFFFFFF⟩) 100 0xD0 (fun _ => 0xAA)
      (fun h => absurd h (by decide))).2.1 (by decide) (by decide)).1,
    by decide⟩

/-- C12: when `__get_free_pages` returns no pages, `dma_alloc_noncoherent`
and (after a miss of the per-device pool) `mips_dma_alloc_coherent` return
NULL, and the call of `__get_free_pages` is the last thing they do: it is
made exactly once, there is no store to `*dma_handle`, no `memset`, no call
of `plat_map_dma_mem` and no cache operation, and memory is as it was before
the call of `__get_free_pages`. -/
theorem alloc_failure_has_no_effect (P : Platform) (A : Allocator) (dev : DevPtr)
    (size gfp : Nat) (mem : Memory)
    (hfail : A.__get_free_pages (massage_gfp_flags A dev gfp) (A.get_order size)
      = 0) :
    ((dma_alloc_noncoherent A dev size gfp mem).ret = 0 ∧
      (dma_alloc_noncoherent A dev size gfp mem).mem = mem ∧
      (dma_alloc_noncoherent A dev size gfp mem).trace =
        [.get_free_pages (massage_gfp_flags A dev gfp) (A.get_order size)]) ∧
    ((A.dma_alloc_from_coherent dev size mem).served = false →
      (mips_dma_alloc_coherent P A dev size gfp mem).ret = 0 ∧
      (mips_dma_alloc_coherent P A dev size gfp mem).mem =
        (A.dma_alloc_from_coherent dev size mem).mem ∧
      (mips_dma_alloc_coherent P A dev size gfp mem).trace =
        [.dma_alloc_from_coherent dev size,
         .get_free_pages (massage_gfp_flags A dev gfp) (A.get_order size)]) := by
  constructor
  · simp [dma_alloc_noncoherent, hfail]
  · intro hpool
    simp [mips_dma_alloc_coherent, hpool, hfail]

/-- C12, at a concrete input: an allocator whose page allocator fails. -/
theorem alloc_failure_has_no_effect_witness :
    (alloc32 true false 0).__get_free_pages
      (massage_gfp_flags (alloc32 true false 0) (some ⟨1, 0xFFFFFFFF⟩) 0xD0)
      ((alloc32 true false 0).get_order 100) = 0 ∧
    (dma_alloc_noncoherent (alloc32 true false 0) (some ⟨1, 0xFFFFFFFF⟩) 100 0xD0
        (fun _ => 0xAA)).trace = [.get_free_pages 0x10D4 0] ∧
    (mips_dma_alloc_coherent (plat32 (.CPU_other 0) false) (alloc32 true false 0)
        (some ⟨1, 0xFFFFFFFF⟩) 100 0xD0 (fun _ => 0xAA)).trace =
      [.dma_alloc_from_coherent (some ⟨1, 0xFFFFFFFF⟩) 100,
       .get_free_pages 0x10D4 0] :=
  ⟨by decide,
    (alloc_failure_has_no_effect (plat32 (.CPU_other 0) false)
      (alloc32 true false 0) (some ⟨1, 0xFFFFFFFF⟩) 100 0xD0 (fun _ => 0xAA)
      (by decide)).1.2.2,
    by decide⟩

/-- C14, as stated, fails where the RAM shadow of the MT7621 is compiled in:
for a coherent device `mips_dma_alloc_coherent` does not return the address
`p = 0x81000000` from the page allocator but `p + 256 MB`, and the handle is
computed from that displaced address. -/
theorem mips_dma_alloc_coherent_shadow_displaced :
    (alloc32 false true 256).CONFIG_MAPPED_KERNEL = false ∧
    (alloc32 false true 256).__get_free_pages
      (massage_gfp_flags (alloc32 false true 256) (some ⟨1, 0xFFFFFFFF⟩) 0xD0)
      ((alloc32 false true 256).get_order 100) = 0x81000000 ∧
    (mips_dma_alloc_coherent (plat32 (.CPU_other 0) true) (alloc32 false true 256)
      (some ⟨1, 0xFFFFFFFF⟩) 100 0xD0 (fun _ => 0xAA)).ret = 0x91000000 ∧
    (mips_dma_alloc_coherent (plat32 (.CPU_other 0) true) (alloc32 false true 256)
      (some ⟨1, 0xFFFFFFFF⟩) 100 0xD0 (fun _ => 0xAA)).trace =
      [.dma_alloc_from_coherent (some ⟨1, 0xFFFFFFFF⟩) 100,
       .get_free_pages 0x10D4 0, .memset 0x91000000 0 100,
       .plat_map_dma_mem (some ⟨1, 0xFFFFFFFF⟩) 0x91000000 100,
       .store_dma_handle 0x11000000] := by
  decide

/-- C14, amended: on a successful page allocation in the unmapped-kernel
configuration, with `q` the address `p` from the page allocator, displaced by
the RAM shadow where that is compiled in (`q = p` otherwise):
`mips_dma_alloc_coherent` zero-fills `size` bytes at `q`, stores
`plat_map_dma_mem(dev, q, size)`, computed from the cached address, in
`*dma_handle`, and then, for a non-coherent device, issues exactly one
writeback-invalidate on `(q, size)` and returns `UNCAC_ADDR(q)`; for a
coherent device it issues no cache operation and returns `q`. -/
theorem mips_dma_alloc_coherent_success (P : Platform) (A : Allocator)
    (dev : DevPtr) (size gfp : Nat) (mem : Memory)
    (hunmapped : A.CONFIG_MAPPED_KERNEL = false)
    (hpool : (A.dma_alloc_from_coherent dev size mem).served = false)
    (hp : A.__get_free_pages (massage_gfp_flags A dev gfp) (A.get_order size) ≠ 0) :
    (P.plat_device_is_coherent dev = false →
      (mips_dma_alloc_coherent P A dev size gfp mem).ret =
        A.UNCAC_ADDR (buffer_address P A
          (A.__get_free_pages (massage_gfp_flags A dev gfp) (A.get_order size))) ∧
      (mips_dma_alloc_coherent P A dev size gfp mem).trace =
        [.dma_alloc_from_coherent dev size,
         .get_free_pages (massage_gfp_flags A dev gfp) (A.get_order size),
         .memset (buffer_address P A
           (A.__get_free_pages (massage_gfp_flags A dev gfp) (A.get_order size)))
           0 size,
         .plat_map_dma_mem dev (buffer_address P A
           (A.__get_free_pages (massage_gfp_flags A dev gfp) (A.get_order size)))
           size,
         .store_dma_handle (A.plat_map_dma_mem dev (buffer_address P A
           (A.__get_free_pages (massage_gfp_flags A dev gfp) (A.get_order size)))
           size),
         .dma (.dma_cache_wback_inv (buffer_address P A
           (A.__get_free_pages (massage_gfp_flags A dev gfp) (A.get_order size)))
           size)]) ∧
    (P.plat_device_is_coherent dev = true →
      (mips_dma_alloc_coherent P A dev size gfp mem).ret =
        buffer_address P A
          (A.__get_free_pages (massage_gfp_flags A dev gfp) (A.get_order size)) ∧
      (mips_dma_alloc_coherent P A dev size gfp mem).trace =
        [.dma_alloc_from_coherent dev size,
         .get_free_pages (massage_gfp_flags A dev gfp) (A.get_order size),
         .memset (buffer_address P A
           (A.__get_free_pages (massage_gfp_flags A dev gfp) (A.get_order size)))
           0 size,
         .plat_map_dma_mem dev (buffer_address P A
           (A.__get_free_pages (massage_gfp_flags A dev gfp) (A.get_order size)))
           size,
         .store_dma_handle (A.plat_map_dma_mem dev (buffer_address P A
           (A.__get_free_pages (massage_gfp_flags A dev gfp) (A.get_order size)))
           size)]) ∧
    (ralink_shadow A = none →
      buffer_address P A
        (A.__get_free_pages (massage_gfp_flags A dev gfp) (A.get_order size)) =
        A.__get_free_pages (massage_gfp_flags A dev gfp) (A.get_order size)) ∧
    (∀ shadow, ralink_shadow A = some shadow →
      buffer_address P A
        (A.__get_free_pages (massage_gfp_flags A dev gfp) (A.get_order size)) =
        ulong_add P
          (A.__get_free_pages (massage_gfp_flags A dev gfp) (A.get_order size))
          shadow) := by
  refine ⟨?_, ?_, ?_, ?_⟩
  · intro hc
    simp [mips_dma_alloc_coherent, hpool, hp, hc, hunmapped]
  · intro hc
    simp [mips_dma_alloc_coherent, hpool, hp, hc]
  · intro hs
    simp [buffer_address, hs]
  · intro shadow hs
    simp [buffer_address, hs]

/-- C14, at a concrete input: 100 bytes for a non-coherent device, without
the RAM shadow. -/
theorem mips_dma_alloc_coherent_success_witness :
    (alloc32 false false 0).CONFIG_MAPPED_KERNEL = false ∧
    ((alloc32 false false 0).dma_alloc_from_coherent (some ⟨1, 0xFFFFFFFF⟩) 100
      (fun _ => 0xAA)).served = false ∧
    (alloc32 false false 0).__get_free_pages
      (massage_gfp_flags (alloc32 false false 0) (some ⟨1, 0xFFFFFFFF⟩) 0xD0)
      ((alloc32 false false 0).get_order 100) ≠ 0 ∧
    (mips_dma_alloc_coherent (plat32 (.CPU_other 0) false) (alloc32 false false 0)
      (some ⟨1, 0xFFFFFFFF⟩) 100 0xD0 (fun _ => 0xAA)).ret =
      (alloc32 false false 0).UNCAC_ADDR
        (buffer_address (plat32 (.CPU_other 0) false) (alloc32 false false 0)
          ((alloc32 false false 0).__get_free_pages
            (massage_gfp_flags (alloc32 false false 0) (some ⟨1, 0xFFFFFFFF⟩)
              0xD0)
            ((alloc32 false false 0).get_order 100))) ∧
    (mips_dma_alloc_coherent (plat32 (.CPU_other 0) false) (alloc32 false false 0)
      (some ⟨1, 0xFFFFFFFF⟩) 100 0xD0 (fun _ => 0xAA)).trace =
      [.dma_alloc_from_coherent (some ⟨1, 0xFFFFFFFF⟩) 100,
       .get_free_pages 0x10D4 0, .memset 0x81000000 0 100,
       .plat_map_dma_mem (some ⟨1, 0xFFFFFFFF⟩) 0x81000000 100,
       .store_dma_handle 0x01000000,
       .dma (.dma_cache_wback_inv 0x81000000 100)] :=
  ⟨by decide, by decide, by decide,
    ((mips_dma_alloc_coherent_success (plat32 (.CPU_other 0) false)
      (alloc32 false false 0) (some ⟨1, 0xFFFFFFFF⟩) 100 0xD0 (fun _ => 0xAA)
      (by decide) (by decide) (by decide)).1 (by decide)).1,
    by decide⟩

/-! ## Freeing -/

theorem ulong_add_modEq (P : Platform) (x y : Nat) :
    ulong_add P x y ≡ x + y [MOD 2 ^ P.BITS_PER_LONG] :=
  Nat.mod_modEq _ _

theorem ulong_sub_add_modEq (P : Platform) (x y : Nat) :
    ulong_sub P x y + y ≡ x [MOD 2 ^ P.BITS_PER_LONG] := by
  unfold ulong_sub Nat.ModEq
  rw [Nat.mod_add_mod]
  have hdiv := Nat.div_add_mod y (2 ^ P.BITS_PER_LONG)
  have hlt := Nat.mod_lt y (Nat.two_pow_pos P.BITS_PER_LONG)
  have heq : x + 2 ^ P.BITS_PER_LONG - y % 2 ^ P.BITS_PER_LONG + y =
      x + 2 ^ P.BITS_PER_LONG * (y / 2 ^ P.BITS_PER_LONG + 1) := by
    rw [Nat.mul_add, Nat.mul_one]
    omega
  rw [heq, Nat.add_mul_mod_self_left]

/-- Subtracting a displacement undoes adding it. -/
theorem ulong_sub_add_cancel (P : Platform) {p : Nat} (s : Nat)
    (hp : p < 2 ^ P.BITS_PER_LONG) :
    ulong_sub P (ulong_add P p s) s = p := by
  have h1 := ulong_sub_add_modEq P (ulong_add P p s) s
  have h2 := Nat.ModEq.add_right_cancel' s (h1.trans (ulong_add_modEq P p s))
  exact Nat.ModEq.eq_of_lt_of_lt h2 (ulong_sub_lt P _ _) hp

/-- Subtracting the shadow and then the alias displacement undoes adding
them in the same order. -/
theorem ulong_sub_sub_add_add_cancel (P : Platform) {p : Nat} (s d : Nat)
    (hp : p < 2 ^ P.BITS_PER_LONG) :
    ulong_sub P (ulong_sub P (ulong_add P (ulong_add P p s) d) s) d = p := by
  have ha := ulong_add_modEq P p s
  have hb := (ulong_add_modEq P (ulong_add P p s) d).trans (ha.add_right d)
  have hc := (ulong_sub_add_modEq P (ulong_add P (ulong_add P p s) d) s).trans hb
  have hc' : ulong_sub P (ulong_add P (ulong_add P p s) d) s ≡ p + d
      [MOD 2 ^ P.BITS_PER_LONG] := by
    apply Nat.ModEq.add_right_cancel' s
    rw [Nat.add_right_comm p d s]
    exact hc
  have hr := (ulong_sub_add_modEq P
    (ulong_sub P (ulong_add P (ulong_add P p s) d) s) d).trans hc'
  exact Nat.ModEq.eq_of_lt_of_lt (Nat.ModEq.add_right_cancel' d hr)
    (ulong_sub_lt P _ _) hp

theorem shadow_undone (P : Platform) (A : Allocator) {p : Nat}
    (hp : p < 2 ^ P.BITS_PER_LONG) :
    (match ralink_shadow A with
      | some shadow => ulong_sub P (buffer_address P A p) shadow
      | none => buffer_address P A p) = p := by
  unfold buffer_address
  cases ralink_shadow A with
  | none => rfl
  | some s => exact ulong_sub_add_cancel P s hp

theorem shadow_and_alias_undone (P : Platform) (A : Allocator) {p : Nat}
    (delta : Nat) (hp : p < 2 ^ P.BITS_PER_LONG) :
    ulong_sub P
      (match ralink_shadow A with
        | some shadow =>
          ulong_sub P (ulong_add P (buffer_address P A p) delta) shadow
        | none => ulong_add P (buffer_address P A p) delta) delta = p := by
  unfold buffer_address
  cases ralink_shadow A with
  | none => exact ulong_sub_add_cancel P delta hp
  | some s => exact ulong_sub_sub_add_add_cancel P s delta hp

/-- C15: free undoes alloc.  If `mips_dma_alloc_coherent` obtained the
address `p` from `__get_free_pages(gfp, get_order(size))` and returned
`vaddr`, and the per-device pool does not claim `vaddr`, then
`mips_dma_free_coherent(dev, size, vaddr, handle)` calls `free_pages` exactly
once, with exactly `p` and `get_order(size)`: for a coherent device, and for
a non-coherent device in the unmapped-kernel configuration, where `vaddr` is
the uncached alias and the alias is a displacement that `CAC_ADDR` undoes;
with and without the RAM-shadow offset. -/
theorem mips_dma_free_undoes_alloc (P : Platform) (A : Allocator) (dev : DevPtr)
    (size gfp handle : Nat) (mem : Memory)
    (hpool : (A.dma_alloc_from_coherent dev size mem).served = false)
    (hp : A.__get_free_pages (massage_gfp_flags A dev gfp) (A.get_order size) ≠ 0)
    (hplt : A.__get_free_pages (massage_gfp_flags A dev gfp) (A.get_order size) <
      2 ^ P.BITS_PER_LONG)
    (hrel : A.dma_release_from_coherent dev (A.get_order size)
      (mips_dma_alloc_coherent P A dev size gfp mem).ret = false) :
    (P.plat_device_is_coherent dev = true →
      (mips_dma_free_coherent P A dev size
          (mips_dma_alloc_coherent P A dev size gfp mem).ret handle).filter
          AllocEvent.isFreePages =
        [.free_pages
          (A.__get_free_pages (massage_gfp_flags A dev gfp) (A.get_order size))
          (A.get_order size)] ∧
      (A.CONFIG_MAPPED_KERNEL = false →
        mips_dma_free_coherent P A dev size
            (mips_dma_alloc_coherent P A dev size gfp mem).ret handle =
          [.dma_release_from_coherent dev (A.get_order size)
            (mips_dma_alloc_coherent P A dev size gfp mem).ret,
           .dma (.plat_unmap_dma_mem dev handle size .DMA_BIDIRECTIONAL),
           .free_pages
            (A.__get_free_pages (massage_gfp_flags A dev gfp) (A.get_order size))
            (A.get_order size)])) ∧
    (P.plat_device_is_coherent dev = false → A.CONFIG_MAPPED_KERNEL = false →
      alias_is_displacement P A →
      (mips_dma_alloc_coherent P A dev size gfp mem).ret =
        A.UNCAC_ADDR (buffer_address P A
          (A.__get_free_pages (massage_gfp_flags A dev gfp) (A.get_order size))) ∧
      A.CAC_ADDR (A.UNCAC_ADDR
        (A.__get_free_pages (massage_gfp_flags A dev gfp) (A.get_order size))) =
        A.__get_free_pages (massage_gfp_flags A dev gfp) (A.get_order size) ∧
      mips_dma_free_coherent P A dev size
          (mips_dma_alloc_coherent P A dev size gfp mem).ret handle =
        [.dma_release_from_coherent dev (A.get_order size)
          (mips_dma_alloc_coherent P A dev size gfp mem).ret,
         .dma (.plat_unmap_dma_mem dev handle size .DMA_BIDIRECTIONAL),
         .free_pages
          (A.__get_free_pages (massage_gfp_flags A dev gfp) (A.get_order size))
          (A.get_order size)]) := by
  have hret := (mips_dma_alloc_coherent_pages P A dev size gfp mem hpool hp).2
  constructor
  · intro hc
    have hv : (mips_dma_alloc_coherent P A dev size gfp mem).ret =
        buffer_address P A
          (A.__get_free_pages (massage_gfp_flags A dev gfp) (A.get_order size)) := by
      rw [hret]; simp [hc]
    have hundo := shadow_undone P A hplt
    rw [hv] at hrel ⊢
    unfold mips_dma_free_coherent
    simp only [hrel, Bool.false_eq_true, if_false, hc, Bool.not_true, hundo]
    cases A.CONFIG_MAPPED_KERNEL <;> simp [AllocEvent.isFreePages]
  · intro hc hunmapped halias
    obtain ⟨delta, hun, hcac⟩ := halias
    have hv : (mips_dma_alloc_coherent P A dev size gfp mem).ret =
        A.UNCAC_ADDR (buffer_address P A
          (A.__get_free_pages (massage_gfp_flags A dev gfp) (A.get_order size))) := by
      rw [hret]; simp [hc, hunmapped]
    refine ⟨hv, ?_, ?_⟩
    · rw [hcac, hun]
      exact ulong_sub_add_cancel P delta hplt
    · have hundo := shadow_and_alias_undone P A delta hplt
      rw [hv] at hrel ⊢
      unfold mips_dma_free_coherent
      simp only [hrel, Bool.false_eq_true, if_false, hc, hunmapped, Bool.not_false,
        if_true, hcac]
      simp only [← hun] at hundo
      rw [hundo]

/-- C15, at a concrete input: a non-coherent device with the RAM shadow of
256 MB compiled in; the buffer at `0x81000000` is returned as `0xB1000000`
and freed as `0x81000000`. -/
theorem mips_dma_free_undoes_alloc_witness :
    (((alloc32 false true 256).dma_alloc_from_coherent (some ⟨1, 0xFFFFFFFF⟩) 100
        (fun _ => 0xAA)).served = false ∧
      (alloc32 false true 256).__get_free_pages
        (massage_gfp_flags (alloc32 false true 256) (some ⟨1, 0xFFFFFFFF⟩) 0xD0)
        ((alloc32 false true 256).get_order 100) = 0x81000000 ∧
      (mips_dma_alloc_coherent (plat32 (.CPU_other 0) false)
        (alloc32 false true 256) (some ⟨1, 0xFFFFFFFF⟩) 100 0xD0
        (fun _ => 0xAA)).ret = 0xB1000000 ∧
      (alloc32 false true 256).dma_release_from_coherent (some ⟨1, 0xFFFFFFFF⟩)
        ((alloc32 false true 256).get_order 100) 0xB1000000 = false ∧
      alias_is_displacement (plat32 (.CPU_other 0) false)
        (alloc32 false true 256)) ∧
    mips_dma_free_coherent (plat32 (.CPU_other 0) false) (alloc32 false true 256)
        (some ⟨1, 0xFFFFFFFF⟩) 100
        (mips_dma_alloc_coherent (plat32 (.CPU_other 0) false)
          (alloc32 false true 256) (some ⟨1, 0xFFFFFFFF⟩) 100 0xD0
          (fun _ => 0xAA)).ret 0x11000000 =
      [.dma_release_from_coherent (some ⟨1, 0xFFFFFFFF⟩)
        ((alloc32 false true 256).get_order 100)
        (mips_dma_alloc_coherent (plat32 (.CPU_other 0) false)
          (alloc32 false true 256) (some ⟨1, 0xFFFFFFFF⟩) 100 0xD0
          (fun _ => 0xAA)).ret,
       .dma (.plat_unmap_dma_mem (some ⟨1, 0xFFFFFFFF⟩) 0x11000000 100
        .DMA_BIDIRECTIONAL),
       .free_pages
        ((alloc32 false true 256).__get_free_pages
          (massage_gfp_flags (alloc32 false true 256) (some ⟨1, 0xFFFFFFFF⟩) 0xD0)
          ((alloc32 false true 256).get_order 100))
        ((alloc32 false true 256).get_order 100)] :=
  have halias : alias_is_displacement (plat32 (.CPU_other 0) false)
      (alloc32 false true 256) :=
    ⟨0x20000000, fun _ => rfl, fun _ => rfl⟩
  ⟨⟨by decide, by decide, by decide, by decide, halias⟩,
    ((mips_dma_free_undoes_alloc (plat32 (.CPU_other 0) false)
      (alloc32 false true 256) (some ⟨1, 0xFFFFFFFF⟩) 100 0xD0 0x11000000
      (fun _ => 0xAA) (by decide) (by decide) (by decide) (by decide)).2
      (by decide) (by decide) halias).2.2⟩

end DmaDefault

namespace YaffsTags

/-! ## Bits of the packed words -/

theorem testBit_false_of_lt {x n i : Nat} (hx : x < 2 ^ n) (hi : n ≤ i) :
    x.testBit i = false :=
  Nat.testBit_lt_two_pow (lt_of_lt_of_le hx (Nat.pow_le_pow_right (by decide) hi))

theorem and_two_pow_ne_zero_iff (x k : Nat) :
    x &&& 2 ^ k ≠ 0 ↔ x.testBit k = true := by
  constructor
  · intro h
    by_contra hb
    apply h
    apply Nat.eq_of_testBit_eq
    intro i
    simp only [Nat.testBit_and, Nat.testBit_two_pow, Nat.zero_testBit]
    by_cases hki : k = i
    · subst hki
      simp [hb]
    · simp [hki]
  · intro hb h
    have h2 := congrArg (fun y => y.testBit k) h
    simp [Nat.testBit_and, Nat.testBit_two_pow, hb] at h2

theorem EXTRA_HEADER_INFO_FLAG_eq : EXTRA_HEADER_INFO_FLAG = 2 ^ 31 := by decide

theorem EXTRA_SHRINK_FLAG_eq : EXTRA_SHRINK_FLAG = 2 ^ 30 := by decide

theorem EXTRA_SHADOWS_FLAG_eq : EXTRA_SHADOWS_FLAG = 2 ^ 29 := by decide

theorem not32_ALL_EXTRA_FLAGS : not32 ALL_EXTRA_FLAGS = 2 ^ 28 - 1 := by decide

theorem not32_EXTRA_OBJECT_TYPE_MASK :
    not32 EXTRA_OBJECT_TYPE_MASK = 2 ^ 28 - 1 := by decide

theorem testBit_flag31 (i : Nat) :
    Nat.testBit 2147483648 i = decide (i = 31) := by
  have h : (2147483648 : Nat) = 2 ^ 31 := by norm_num
  rw [h, Nat.testBit_two_pow]
  simp [eq_comm]

theorem testBit_flag30 (i : Nat) :
    Nat.testBit 1073741824 i = decide (i = 30) := by
  have h : (1073741824 : Nat) = 2 ^ 30 := by norm_num
  rw [h, Nat.testBit_two_pow]
  simp [eq_comm]

theorem testBit_flag29 (i : Nat) :
    Nat.testBit 536870912 i = decide (i = 29) := by
  have h : (536870912 : Nat) = 2 ^ 29 := by norm_num
  rw [h, Nat.testBit_two_pow]
  simp [eq_comm]

/-- The word that `yaffs_PackTags2` stores in `chunkId` for an object
header: the flag, the parent, and the two optional flags. -/
theorem packed_chunkId_testBit (parent : Nat) (a b : Prop) [Decidable a]
    [Decidable b] (i : Nat) :
    (if b then
        (if a then (2 ^ 31 ||| parent) ||| 2 ^ 30 else 2 ^ 31 ||| parent)
          ||| 2 ^ 29
      else (if a then (2 ^ 31 ||| parent) ||| 2 ^ 30
        else 2 ^ 31 ||| parent)).testBit i
      = (decide (i = 31) || parent.testBit i || (decide a && decide (i = 30))
          || (decide b && decide (i = 29))) := by
  by_cases ha : a <;> by_cases hb : b <;>
    simp [ha, hb, Nat.testBit_or, testBit_flag31, testBit_flag30,
      testBit_flag29]

/-- The word stored in `chunkId` for an object header, as the source
computes it. -/
theorem pack_chunkId_bits (parent : Nat) (a b : Prop) [Decidable a]
    [Decidable b] (hparent : parent < 2 ^ 28) :
    let c :=
      if b then
        (if a then (2 ^ 31 ||| parent) ||| 2 ^ 30 else 2 ^ 31 ||| parent)
          ||| 2 ^ 29
      else (if a then (2 ^ 31 ||| parent) ||| 2 ^ 30 else 2 ^ 31 ||| parent)
    c &&& 2 ^ 31 ≠ 0 ∧ (c &&& 2 ^ 30 ≠ 0 ↔ a) ∧ (c &&& 2 ^ 29 ≠ 0 ↔ b) ∧
      c &&& (2 ^ 28 - 1) = parent := by
  intro c
  have hbit : ∀ i, c.testBit i
      = (decide (i = 31) || parent.testBit i || (decide a && decide (i = 30))
          || (decide b && decide (i = 29))) :=
    packed_chunkId_testBit parent a b
  have hp : ∀ i, 28 ≤ i → parent.testBit i = false := fun i hi =>
    testBit_false_of_lt hparent hi
  refine ⟨?_, ?_, ?_, ?_⟩
  · rw [and_two_pow_ne_zero_iff, hbit]
    simp
  · rw [and_two_pow_ne_zero_iff, hbit, hp 30 (by decide)]
    simp
  · rw [and_two_pow_ne_zero_iff, hbit, hp 29 (by decide)]
    simp
  · apply Nat.eq_of_testBit_eq
    intro i
    rw [Nat.testBit_and, Nat.testBit_two_pow_sub_one, hbit]
    by_cases hi : i < 28
    · have h1 : ¬ i = 31 := by omega
      have h2 : ¬ i = 30 := by omega
      have h3 : ¬ i = 29 := by omega
      simp [hi, h1, h2, h3]
    · rw [hp i (by omega)]
      simp [hi]

/-- The word stored in `objectId` for an object header gives back the
object id and the object type. -/
theorem pack_objectId_bits (obj ty : Nat) (hobj : obj < 2 ^ 28)
    (hty : ty < 16) :
    let o := (obj &&& (2 ^ 28 - 1)) ||| (ty <<< 28) % 2 ^ 32
    o >>> 28 = ty ∧ o &&& (2 ^ 28 - 1) = obj := by
  intro o
  have hbit : ∀ i, o.testBit i
      = ((obj.testBit i && decide (i < 28))
          || (decide (i < 32) && (decide (28 ≤ i) && ty.testBit (i - 28)))) := by
    intro i
    simp only [o, Nat.testBit_or, Nat.testBit_and, Nat.testBit_two_pow_sub_one,
      Nat.testBit_mod_two_pow, Nat.testBit_shiftLeft, ge_iff_le]
  have ho : ∀ i, 28 ≤ i → obj.testBit i = false := fun i hi =>
    testBit_false_of_lt hobj hi
  have ht : ∀ i, 4 ≤ i → ty.testBit i = false := fun i hi =>
    testBit_false_of_lt (show ty < 2 ^ 4 from hty) hi
  constructor
  · apply Nat.eq_of_testBit_eq
    intro j
    rw [Nat.testBit_shiftRight, hbit]
    have h1 : ¬ 28 + j < 28 := by omega
    have h2 : 28 + j - 28 = j := by omega
    by_cases hj : j < 4
    · have h3 : 28 + j < 32 := by omega
      simp [h1, h2, h3]
    · rw [h2, ht j (by omega)]
      simp
  · apply Nat.eq_of_testBit_eq
    intro i
    rw [Nat.testBit_and, Nat.testBit_two_pow_sub_one, hbit]
    by_cases hi : i < 28
    · have h1 : ¬ 28 ≤ i := by omega
      simp [hi, h1]
    · rw [ho i (by omega)]
      simp [hi]

/-! ## Packing and unpacking -/

/-- The ECC bytes that `yaffs_PackTags2` adds leave the tags part as
`pack_tags_part` computed it. -/
theorem yaffs_PackTags2_t (E : YaffsEnv) (pt : yaffs_PackedTags2)
    (t : yaffs_ExtendedTags) (maxPackedSize : Nat) :
    (yaffs_PackTags2 E pt t maxPackedSize).1.t = pack_tags_part E t := by
  unfold yaffs_PackTags2
  split_ifs <;> rfl

/-- The tags part stored for an object header. -/
theorem pack_tags_part_header (E : YaffsEnv) (t : yaffs_ExtendedTags)
    (hchunk : t.chunkId = 0) (hextra : t.extraHeaderInfoAvailable ≠ 0) :
    pack_tags_part E t =
      ⟨t.sequenceNumber,
        (t.objectId &&& (2 ^ 28 - 1)) ||| (t.extraObjectType <<< 28) % 2 ^ 32,
        (if t.extraShadows ≠ 0 then
          (if t.extraIsShrinkHeader ≠ 0 then
              (2 ^ 31 ||| t.extraParentObjectId) ||| 2 ^ 30
            else 2 ^ 31 ||| t.extraParentObjectId) ||| 2 ^ 29
        else (if t.extraIsShrinkHeader ≠ 0 then
            (2 ^ 31 ||| t.extraParentObjectId) ||| 2 ^ 30
          else 2 ^ 31 ||| t.extraParentObjectId)),
        (if t.extraObjectType = E.YAFFS_OBJECT_TYPE_HARDLINK then
          t.extraEquivalentObjectId
        else if t.extraObjectType = E.YAFFS_OBJECT_TYPE_FILE then
          t.extraFileLength
        else 0)⟩ := by
  unfold pack_tags_part
  rw [if_pos ⟨hchunk, hextra⟩]
  simp only [not32_EXTRA_OBJECT_TYPE_MASK, EXTRA_HEADER_INFO_FLAG_eq,
    EXTRA_SHRINK_FLAG_eq, EXTRA_SHADOWS_FLAG_eq, EXTRA_OBJECT_TYPE_SHIFT]

/-- With the ECC ignored, `yaffs_UnpackTags2` of packed tags that carry the
header flag and a sequence number other than 0xFFFFFFFF. -/
theorem yaffs_UnpackTags2_header (E : YaffsEnv) (pt : yaffs_PackedTags2)
    (ignoreEcc : Nat) (hignore : ignoreEcc ≠ 0)
    (hseq : pt.t.sequenceNumber ≠ 0xFFFFFFFF)
    (hflag : pt.t.chunkId &&& 2 ^ 31 ≠ 0) :
    yaffs_UnpackTags2 E pt ignoreEcc =
      if pt.t.objectId >>> 28 = E.YAFFS_OBJECT_TYPE_HARDLINK then
        { E.yaffs_InitialiseTags zero_tags with
          eccResult := 0, blockBad := 0, chunkUsed := 1,
          objectId := pt.t.objectId &&& (2 ^ 28 - 1), chunkId := 0,
          byteCount := 0, chunkDeleted := 0, serialNumber := 0,
          sequenceNumber := pt.t.sequenceNumber,
          extraHeaderInfoAvailable := 1,
          extraParentObjectId := pt.t.chunkId &&& (2 ^ 28 - 1),
          extraIsShrinkHeader := if pt.t.chunkId &&& 2 ^ 30 ≠ 0 then 1 else 0,
          extraShadows := if pt.t.chunkId &&& 2 ^ 29 ≠ 0 then 1 else 0,
          extraObjectType := pt.t.objectId >>> 28,
          extraEquivalentObjectId := pt.t.byteCount }
      else
        { E.yaffs_InitialiseTags zero_tags with
          eccResult := 0, blockBad := 0, chunkUsed := 1,
          objectId := pt.t.objectId &&& (2 ^ 28 - 1), chunkId := 0,
          byteCount := 0, chunkDeleted := 0, serialNumber := 0,
          sequenceNumber := pt.t.sequenceNumber,
          extraHeaderInfoAvailable := 1,
          extraParentObjectId := pt.t.chunkId &&& (2 ^ 28 - 1),
          extraIsShrinkHeader := if pt.t.chunkId &&& 2 ^ 30 ≠ 0 then 1 else 0,
          extraShadows := if pt.t.chunkId &&& 2 ^ 29 ≠ 0 then 1 else 0,
          extraObjectType := pt.t.objectId >>> 28,
          extraFileLength := pt.t.byteCount } := by
  unfold yaffs_UnpackTags2
  simp only [if_pos hseq, if_pos hignore]
  rw [EXTRA_HEADER_INFO_FLAG_eq, if_pos hflag]
  simp only [not32_EXTRA_OBJECT_TYPE_MASK, not32_ALL_EXTRA_FLAGS,
    EXTRA_SHRINK_FLAG_eq, EXTRA_SHADOWS_FLAG_eq, EXTRA_OBJECT_TYPE_SHIFT]

/-! ## Round trip of the tags of an object header -/

/-- Claim C20: for extended tags `t` with `chunkId = 0`,
`extraHeaderInfoAvailable` set, a sequence number other than 0xFFFFFFFF,
`objectId` and `extraParentObjectId` below 2^28 and `extraObjectType` below
16, `yaffs_UnpackTags2` with the ECC ignored, applied to what
`yaffs_PackTags2` stored for `t` (for any size limit and any earlier content
of the packed structure), yields `chunkUsed = 1`, `chunkId = 0`,
`byteCount = 0`, `extraHeaderInfoAvailable = 1`, the same `objectId`,
`sequenceNumber`, `extraParentObjectId` and `extraObjectType`,
`extraIsShrinkHeader` and `extraShadows` as 0 or 1, the same
`extraEquivalentObjectId` for a hard link, the same `extraFileLength` for a
file and `extraFileLength = 0` for every other type.  The two object types
are distinct members of `yaffs_ObjectType`, and `yaffs_InitialiseTags`
leaves `extraFileLength` at the zero of the `memset`. -/
theorem yaffs_tags_round_trip_header (E : YaffsEnv) (pt : yaffs_PackedTags2)
    (t : yaffs_ExtendedTags) (maxPackedSize ignoreEcc : Nat)
    (htypes : E.YAFFS_OBJECT_TYPE_HARDLINK ≠ E.YAFFS_OBJECT_TYPE_FILE)
    (hinit : (E.yaffs_InitialiseTags zero_tags).extraFileLength = 0)
    (hignore : ignoreEcc ≠ 0)
    (hchunk : t.chunkId = 0) (hextra : t.extraHeaderInfoAvailable ≠ 0)
    (hseq : t.sequenceNumber ≠ 0xFFFFFFFF) (hobj : t.objectId < 2 ^ 28)
    (hparent : t.extraParentObjectId < 2 ^ 28)
    (htype : t.extraObjectType < 16) :
    (unpack_packed E pt t maxPackedSize ignoreEcc).chunkUsed = 1 ∧
    (unpack_packed E pt t maxPackedSize ignoreEcc).chunkId = 0 ∧
    (unpack_packed E pt t maxPackedSize ignoreEcc).byteCount = 0 ∧
    (unpack_packed E pt t maxPackedSize ignoreEcc).extraHeaderInfoAvailable = 1 ∧
    (unpack_packed E pt t maxPackedSize ignoreEcc).objectId = t.objectId ∧
    (unpack_packed E pt t maxPackedSize ignoreEcc).sequenceNumber
      = t.sequenceNumber ∧
    (unpack_packed E pt t maxPackedSize ignoreEcc).extraParentObjectId
      = t.extraParentObjectId ∧
    (unpack_packed E pt t maxPackedSize ignoreEcc).extraObjectType
      = t.extraObjectType ∧
    (unpack_packed E pt t maxPackedSize ignoreEcc).extraIsShrinkHeader
      = (if t.extraIsShrinkHeader ≠ 0 then 1 else 0) ∧
    (unpack_packed E pt t maxPackedSize ignoreEcc).extraShadows
      = (if t.extraShadows ≠ 0 then 1 else 0) ∧
    (t.extraObjectType = E.YAFFS_OBJECT_TYPE_HARDLINK →
      (unpack_packed E pt t maxPackedSize ignoreEcc).extraEquivalentObjectId
        = t.extraEquivalentObjectId) ∧
    (t.extraObjectType = E.YAFFS_OBJECT_TYPE_FILE →
      (unpack_packed E pt t maxPackedSize ignoreEcc).extraFileLength
        = t.extraFileLength) ∧
    (t.extraObjectType ≠ E.YAFFS_OBJECT_TYPE_FILE →
      (unpack_packed E pt t maxPackedSize ignoreEcc).extraFileLength = 0) := by
  obtain ⟨hc31, hc30, hc29, hclow⟩ :=
    pack_chunkId_bits t.extraParentObjectId (t.extraIsShrinkHeader ≠ 0)
      (t.extraShadows ≠ 0) hparent
  obtain ⟨hotype, holow⟩ :=
    pack_objectId_bits t.objectId t.extraObjectType hobj htype
  have hpt : (yaffs_PackTags2 E pt t maxPackedSize).1.t = _ :=
    (yaffs_PackTags2_t E pt t maxPackedSize).trans
      (pack_tags_part_header E t hchunk hextra)
  have hun :=
    yaffs_UnpackTags2_header E (yaffs_PackTags2 E pt t maxPackedSize).1
      ignoreEcc hignore (by rw [hpt]; exact hseq) (by rw [hpt]; exact hc31)
  simp only [hpt, hotype, holow, hclow] at hun
  have hshrink :
      (if (if t.extraShadows ≠ 0 then
            (if t.extraIsShrinkHeader ≠ 0 then
                (2 ^ 31 ||| t.extraParentObjectId) ||| 2 ^ 30
              else 2 ^ 31 ||| t.extraParentObjectId) ||| 2 ^ 29
          else (if t.extraIsShrinkHeader ≠ 0 then
              (2 ^ 31 ||| t.extraParentObjectId) ||| 2 ^ 30
            else 2 ^ 31 ||| t.extraParentObjectId)) &&& 2 ^ 30 ≠ 0
        then 1 else 0)
        = (if t.extraIsShrinkHeader ≠ 0 then 1 else 0) :=
    if_congr hc30 rfl rfl
  have hshadows :
      (if (if t.extraShadows ≠ 0 then
            (if t.extraIsShrinkHeader ≠ 0 then
                (2 ^ 31 ||| t.extraParentObjectId) ||| 2 ^ 30
              else 2 ^ 31 ||| t.extraParentObjectId) ||| 2 ^ 29
          else (if t.extraIsShrinkHeader ≠ 0 then
              (2 ^ 31 ||| t.extraParentObjectId) ||| 2 ^ 30
            else 2 ^ 31 ||| t.extraParentObjectId)) &&& 2 ^ 29 ≠ 0
        then 1 else 0)
        = (if t.extraShadows ≠ 0 then 1 else 0) :=
    if_congr hc29 rfl rfl
  unfold unpack_packed
  rw [hun]
  by_cases hhard : t.extraObjectType = E.YAFFS_OBJECT_TYPE_HARDLINK
  · have hfile : t.extraObjectType ≠ E.YAFFS_OBJECT_TYPE_FILE :=
      fun h => htypes (hhard.symm.trans h)
    rw [if_pos hhard]
    refine ⟨rfl, rfl, rfl, rfl, rfl, rfl, rfl, rfl, hshrink, hshadows, ?_, ?_,
      ?_⟩
    · intro _
      exact if_pos hhard
    · intro h
      exact absurd h hfile
    · intro _
      exact hinit
  · rw [if_neg hhard]
    refine ⟨rfl, rfl, rfl, rfl, rfl, rfl, rfl, rfl, hshrink, hshadows, ?_, ?_,
      ?_⟩
    · intro h
      exact absurd h hhard
    · intro h
      show (if t.extraObjectType = E.YAFFS_OBJECT_TYPE_HARDLINK then
          t.extraEquivalentObjectId
        else if t.extraObjectType = E.YAFFS_OBJECT_TYPE_FILE then
          t.extraFileLength
        else 0) = t.extraFileLength
      rw [if_neg hhard, if_pos h]
    · intro h
      show (if t.extraObjectType = E.YAFFS_OBJECT_TYPE_HARDLINK then
          t.extraEquivalentObjectId
        else if t.extraObjectType = E.YAFFS_OBJECT_TYPE_FILE then
          t.extraFileLength
        else 0) = 0
      rw [if_neg hhard, if_neg h]

/-- The round trip of claim C20 on the tags of an object header of a file,
packed into 28 bytes. -/
theorem yaffs_tags_round_trip_header_witness :
    unpack_packed yaffs_env ⟨⟨0, 0, 0, 0⟩, []⟩ header_tags 28 1 =
      { header_tags with
        chunkUsed := 1, extraIsShrinkHeader := 1,
        extraEquivalentObjectId := 0 } ∧
    (unpack_packed yaffs_env ⟨⟨0, 0, 0, 0⟩, []⟩ header_tags 28 1).objectId
      = 0x123 ∧
    (unpack_packed yaffs_env ⟨⟨0, 0, 0, 0⟩, []⟩ header_tags 28 1).extraFileLength
      = 9999 :=
  ⟨by decide,
    (yaffs_tags_round_trip_header yaffs_env ⟨⟨0, 0, 0, 0⟩, []⟩ header_tags 28 1
      (by decide) rfl (by decide) rfl (by decide) (by decide) (by decide)
      (by decide) (by decide)).2.2.2.2.1,
    (yaffs_tags_round_trip_header yaffs_env ⟨⟨0, 0, 0, 0⟩, []⟩ header_tags 28 1
      (by decide) rfl (by decide) rfl (by decide) (by decide) (by decide)
      (by decide) (by decide)).2.2.2.2.2.2.2.2.2.2.2.1 rfl⟩

end YaffsTags

namespace YaffsTags

/-! ## Round trip of the tags of a data chunk -/

/-- The tags part stored for tags that carry no extra header information:
the four fields as they are. -/
theorem pack_tags_part_plain (E : YaffsEnv) (t : yaffs_ExtendedTags)
    (hplain : t.chunkId ≠ 0 ∨ t.extraHeaderInfoAvailable = 0) :
    pack_tags_part E t =
      ⟨t.sequenceNumber, t.objectId, t.chunkId, t.byteCount⟩ := by
  unfold pack_tags_part
  have hn : ¬ (t.chunkId = 0 ∧ t.extraHeaderInfoAvailable ≠ 0) := by
    rintro ⟨h0, h1⟩
    rcases hplain with h | h
    · exact h h0
    · exact h1 h
  rw [if_neg hn]

/-- A word below 2^31 does not carry the header flag. -/
theorem and_header_flag_of_lt (x : Nat) (hx : x < 2 ^ 31) :
    x &&& EXTRA_HEADER_INFO_FLAG = 0 := by
  rw [EXTRA_HEADER_INFO_FLAG_eq]
  by_contra h
  have hb := (and_two_pow_ne_zero_iff x 31).mp h
  rw [testBit_false_of_lt hx (le_refl 31)] at hb
  exact Bool.false_ne_true hb

/-- With the ECC ignored, `yaffs_UnpackTags2` of packed tags without the
header flag and with a sequence number other than 0xFFFFFFFF. -/
theorem yaffs_UnpackTags2_plain (E : YaffsEnv) (pt : yaffs_PackedTags2)
    (ignoreEcc : Nat) (hignore : ignoreEcc ≠ 0)
    (hseq : pt.t.sequenceNumber ≠ 0xFFFFFFFF)
    (hflag : pt.t.chunkId &&& EXTRA_HEADER_INFO_FLAG = 0) :
    yaffs_UnpackTags2 E pt ignoreEcc =
      { E.yaffs_InitialiseTags zero_tags with
        eccResult := 0, blockBad := 0, chunkUsed := 1,
        objectId := pt.t.objectId, chunkId := pt.t.chunkId,
        byteCount := pt.t.byteCount, chunkDeleted := 0, serialNumber := 0,
        sequenceNumber := pt.t.sequenceNumber } := by
  unfold yaffs_UnpackTags2
  have hn : ¬ (pt.t.chunkId &&& EXTRA_HEADER_INFO_FLAG ≠ 0) := fun h => h hflag
  simp only [if_pos hseq, if_pos hignore, if_neg hn]

/-- Packed tags whose sequence number is 0xFFFFFFFF: `yaffs_UnpackTags2`
returns what `yaffs_InitialiseTags` made of the zeroed tags. -/
theorem yaffs_UnpackTags2_unused (E : YaffsEnv) (pt : yaffs_PackedTags2)
    (ignoreEcc : Nat) (hseq : pt.t.sequenceNumber = 0xFFFFFFFF) :
    yaffs_UnpackTags2 E pt ignoreEcc = E.yaffs_InitialiseTags zero_tags := by
  unfold yaffs_UnpackTags2
  have hn : ¬ (pt.t.sequenceNumber ≠ 0xFFFFFFFF) := fun h => h hseq
  simp only [if_neg hn]

/-- Claim C21: for extended tags `t` with `chunkId != 0` or
`extraHeaderInfoAvailable` clear, `chunkId` below 2^31 and a sequence number
other than 0xFFFFFFFF, `yaffs_PackTags2` stores `chunkId`, `objectId`,
`byteCount` and `sequenceNumber` unmodified (for any size limit and any
earlier content of the packed structure), and `yaffs_UnpackTags2` with the
ECC ignored yields the same four fields with `chunkUsed = 1`, `blockBad = 0`,
`chunkDeleted = 0` and `extraHeaderInfoAvailable = 0`; and unpacking any
packed tags whose sequence number is 0xFFFFFFFF yields `chunkUsed = 0` and
tags that do not depend on the packed tags: no field is copied.
`yaffs_InitialiseTags` leaves `chunkUsed` and `extraHeaderInfoAvailable` at
the zero of the `memset`. -/
theorem yaffs_tags_round_trip_plain (E : YaffsEnv) (pt : yaffs_PackedTags2)
    (t : yaffs_ExtendedTags) (maxPackedSize ignoreEcc : Nat)
    (hused : (E.yaffs_InitialiseTags zero_tags).chunkUsed = 0)
    (hinit : (E.yaffs_InitialiseTags zero_tags).extraHeaderInfoAvailable = 0)
    (hignore : ignoreEcc ≠ 0)
    (hplain : t.chunkId ≠ 0 ∨ t.extraHeaderInfoAvailable = 0)
    (hchunk : t.chunkId < 2 ^ 31) (hseq : t.sequenceNumber ≠ 0xFFFFFFFF) :
    (yaffs_PackTags2 E pt t maxPackedSize).1.t =
      ⟨t.sequenceNumber, t.objectId, t.chunkId, t.byteCount⟩ ∧
    (unpack_packed E pt t maxPackedSize ignoreEcc).chunkId = t.chunkId ∧
    (unpack_packed E pt t maxPackedSize ignoreEcc).objectId = t.objectId ∧
    (unpack_packed E pt t maxPackedSize ignoreEcc).byteCount = t.byteCount ∧
    (unpack_packed E pt t maxPackedSize ignoreEcc).sequenceNumber
      = t.sequenceNumber ∧
    (unpack_packed E pt t maxPackedSize ignoreEcc).chunkUsed = 1 ∧
    (unpack_packed E pt t maxPackedSize ignoreEcc).blockBad = 0 ∧
    (unpack_packed E pt t maxPackedSize ignoreEcc).chunkDeleted = 0 ∧
    (unpack_packed E pt t maxPackedSize ignoreEcc).extraHeaderInfoAvailable = 0 ∧
    ∀ (q : yaffs_PackedTags2) (ignore : Nat),
      q.t.sequenceNumber = 0xFFFFFFFF →
        (yaffs_UnpackTags2 E q ignore).chunkUsed = 0 ∧
        yaffs_UnpackTags2 E q ignore = E.yaffs_InitialiseTags zero_tags := by
  have hpt : (yaffs_PackTags2 E pt t maxPackedSize).1.t =
      ⟨t.sequenceNumber, t.objectId, t.chunkId, t.byteCount⟩ :=
    (yaffs_PackTags2_t E pt t maxPackedSize).trans
      (pack_tags_part_plain E t hplain)
  have hun :=
    yaffs_UnpackTags2_plain E (yaffs_PackTags2 E pt t maxPackedSize).1
      ignoreEcc hignore (by rw [hpt]; exact hseq)
      (by rw [hpt]; exact and_header_flag_of_lt t.chunkId hchunk)
  simp only [hpt] at hun
  refine ⟨hpt, ?_, ?_, ?_, ?_, ?_, ?_, ?_, ?_, ?_⟩
  · unfold unpack_packed
    rw [hun]
  · unfold unpack_packed
    rw [hun]
  · unfold unpack_packed
    rw [hun]
  · unfold unpack_packed
    rw [hun]
  · unfold unpack_packed
    rw [hun]
  · unfold unpack_packed
    rw [hun]
  · unfold unpack_packed
    rw [hun]
  · unfold unpack_packed
    rw [hun]
    exact hinit
  · intro q ignore hq
    rw [yaffs_UnpackTags2_unused E q ignore hq]
    exact ⟨hused, rfl⟩

/-- The round trip of claim C21 on the tags of a data chunk, packed into 28
bytes, and the unpacking of the tags of an erased page. -/
theorem yaffs_tags_round_trip_plain_witness :
    unpack_packed yaffs_env ⟨⟨0, 0, 0, 0⟩, []⟩ data_tags 28 1 =
      { data_tags with chunkUsed := 1 } ∧
    yaffs_UnpackTags2 yaffs_env erased_packed 0 = zero_tags ∧
    (yaffs_PackTags2 yaffs_env ⟨⟨0, 0, 0, 0⟩, []⟩ data_tags 28).1.t =
      ⟨77, 0x123, 5, 2048⟩ :=
  ⟨by decide, by decide,
    (yaffs_tags_round_trip_plain yaffs_env ⟨⟨0, 0, 0, 0⟩, []⟩ data_tags 28 1
      rfl rfl (by decide) (Or.inl (by decide)) (by decide) (by decide)).1⟩

end YaffsTags

namespace TilePci

/-! ## Round trip between resource and bus addresses -/

theorem u64_add_sub_cancel (a b : Nat) (ha : a < 2 ^ 64) :
    u64_add (u64_sub a b) b = a := by
  unfold u64_add u64_sub
  omega

theorem u64_sub_add_cancel (a b : Nat) (ha : a < 2 ^ 64) :
    u64_sub (u64_add a b) b = a := by
  unfold u64_add u64_sub
  omega

theorem u64_sub_of_le (a b : Nat) (ha : a < 2 ^ 64) (hb : b ≤ a) :
    u64_sub a b = a - b := by
  unfold u64_sub
  omega

/-- Claim C22: for every resource (`start` and `end` 64-bit values, any
flags) and every `mem_offset` of the controller, `pcibios_bus_to_resource`
applied to the region that `pcibios_resource_to_bus` produced, on a resource
with the same flags, restores the original `start` and `end`, and
`pcibios_resource_to_bus` applied to the resource that
`pcibios_bus_to_resource` produced restores the region, in 64-bit wrap-around
arithmetic; for a resource without `IORESOURCE_MEM` both functions copy
`start` and `end` unchanged; and for a memory resource the bus address is
the CPU address minus `mem_offset`, modulo 2^64. -/
theorem pcibios_resource_bus_round_trip (IORESOURCE_MEM : Nat) (dev : pci_dev)
    (res : resource) (region : pci_bus_region) (start0 end0 : Nat)
    (hstart : res.start < 2 ^ 64) (hend : res.end_ < 2 ^ 64)
    (hrstart : region.start < 2 ^ 64) (hrend : region.end_ < 2 ^ 64) :
    pcibios_bus_to_resource IORESOURCE_MEM dev ⟨start0, end0, res.flags⟩
        (pcibios_resource_to_bus IORESOURCE_MEM dev res) = res ∧
    pcibios_resource_to_bus IORESOURCE_MEM dev
        (pcibios_bus_to_resource IORESOURCE_MEM dev res region) = region ∧
    (res.flags &&& IORESOURCE_MEM = 0 →
      pcibios_resource_to_bus IORESOURCE_MEM dev res = ⟨res.start, res.end_⟩ ∧
      pcibios_bus_to_resource IORESOURCE_MEM dev res region =
        ⟨region.start, region.end_, res.flags⟩) ∧
    (res.flags &&& IORESOURCE_MEM ≠ 0 →
      pcibios_resource_to_bus IORESOURCE_MEM dev res =
        ⟨u64_sub res.start dev.sysdata.mem_offset,
          u64_sub res.end_ dev.sysdata.mem_offset⟩ ∧
      pcibios_bus_to_resource IORESOURCE_MEM dev res region =
        ⟨u64_add region.start dev.sysdata.mem_offset,
          u64_add region.end_ dev.sysdata.mem_offset, res.flags⟩ ∧
      (dev.sysdata.mem_offset ≤ res.start →
        (pcibios_resource_to_bus IORESOURCE_MEM dev res).start =
          res.start - dev.sysdata.mem_offset) ∧
      (dev.sysdata.mem_offset ≤ res.end_ →
        (pcibios_resource_to_bus IORESOURCE_MEM dev res).end_ =
          res.end_ - dev.sysdata.mem_offset)) := by
  obtain ⟨rs, re, rf⟩ := res
  obtain ⟨gs, ge⟩ := region
  simp only at hstart hend hrstart hrend
  by_cases hmem : rf &&& IORESOURCE_MEM = 0
  · have hn : ¬ (rf &&& IORESOURCE_MEM ≠ 0) := fun h => h hmem
    refine ⟨?_, ?_, ?_, ?_⟩
    · simp only [pcibios_bus_to_resource, pcibios_resource_to_bus, if_neg hn]
    · simp only [pcibios_bus_to_resource, pcibios_resource_to_bus, if_neg hn]
    · intro _
      simp only [pcibios_bus_to_resource, pcibios_resource_to_bus, if_neg hn,
        and_self]
    · intro h
      exact absurd hmem h
  · have hp : rf &&& IORESOURCE_MEM ≠ 0 := hmem
    refine ⟨?_, ?_, ?_, ?_⟩
    · simp only [pcibios_bus_to_resource, pcibios_resource_to_bus, if_pos hp,
        u64_add_sub_cancel _ _ hstart, u64_add_sub_cancel _ _ hend]
    · simp only [pcibios_bus_to_resource, pcibios_resource_to_bus, if_pos hp,
        u64_sub_add_cancel _ _ hrstart, u64_sub_add_cancel _ _ hrend]
    · intro h
      exact absurd h hmem
    · intro _
      refine ⟨?_, ?_, ?_, ?_⟩
      · simp only [pcibios_resource_to_bus, if_pos hp]
      · simp only [pcibios_bus_to_resource, if_pos hp]
      · intro hle
        simp only [pcibios_resource_to_bus, if_pos hp]
        exact u64_sub_of_le _ _ hstart hle
      · intro hle
        simp only [pcibios_resource_to_bus, if_pos hp]
        exact u64_sub_of_le _ _ hend hle

/-- The round trip of claim C22 on a memory resource behind a controller
whose window is shifted by 2^40: the bus addresses are 0x10000 and 0x1FFFF,
and the way back restores the resource. -/
theorem pcibios_resource_bus_round_trip_witness :
    pcibios_resource_to_bus 0x200 gx_dev gx_mem_resource = ⟨0x10000, 0x1FFFF⟩ ∧
    pcibios_resource_to_bus 0x200 gx_dev gx_io_resource = ⟨0x1000, 0x10FF⟩ ∧
    pcibios_bus_to_resource 0x200 gx_dev ⟨0, 0, gx_mem_resource.flags⟩
        (pcibios_resource_to_bus 0x200 gx_dev gx_mem_resource) =
      gx_mem_resource :=
  ⟨by decide, by decide,
    (pcibios_resource_bus_round_trip 0x200 gx_dev gx_mem_resource
      ⟨0x10000, 0x1FFFF⟩ 0 0 (by decide) (by decide) (by decide)
      (by decide)).1⟩

end TilePci
